import Mathlib

/-!
# ai-story: the response-application protocol of `callGemini` (src/App.js)

A shallow embedding of the part of `callGemini` that runs after the model has answered:

* the Response Parser (App.js 641-667): outermost-brace extraction, `JSON.parse`,
  the soft fallback and the `||` field defaults;
* the Stat Reconciler (App.js 670-713): the `for ... in statsUpdate` loop over a deep copy
  of the player map;
* the outbound request (App.js 516-622): context message, messages, schema and payload;
* the handlers `saveGameState`, `handlePlayerAction` and `handleJoinGame`, and the paths
  of the documents they and the snapshot listener use.

JavaScript values are modelled as follows.

* Text is a `String`; a string is falsy exactly when it is empty.
* A plain object is the list of its own properties in enumeration order
  (`Object.keys` order: array-index keys ascending, then the other keys in insertion order).
  `getOwn`, `setOwn`, `deleteOwn` are the own-property operations.
* A dynamic read `obj[key]` goes through the prototype chain: when `obj` has no own property
  `key` and `key` names a member of `Object.prototype`, the read yields that built-in
  (a truthy function or object) instead of `undefined`; see `readProp`.
* Number fields of the stats are only ever copied, never computed with; they are `Int`.
-/

namespace AiStory

/-! ## JavaScript objects as ordered own-property lists -/

/-- Own-property read: the value stored under `key`, if the object has such a property. -/
def getOwn {α : Type} : List (String × α) → String → Option α
  | [], _ => none
  | (k, v) :: rest, key => if k = key then some v else getOwn rest key

/-- Own keys in enumeration order (`Object.keys`). -/
def ownKeys {α : Type} (o : List (String × α)) : List String :=
  o.map Prod.fst

/-- Removal of an own property (`delete o[key]`). -/
def deleteOwn {α : Type} (o : List (String × α)) (key : String) : List (String × α) :=
  o.filter (fun kv => kv.1 ≠ key)

/-- Array index denoted by a property key: the canonical decimal spelling of an
integer below 2^32 - 1.  Such keys are enumerated first, in ascending order. -/
def arrayIndex (k : String) : Option Nat :=
  let cs := k.toList
  if cs = [] then none
  else if cs.all Char.isDigit = false then none
  else if cs.head? = some '0' ∧ cs.length ≠ 1 then none
  else
    let n := cs.foldl (fun a c => 10 * a + (c.toNat - 48)) 0
    if n < 4294967295 then some n else none

/-- Overwrite of the value of an existing own property; its position is kept. -/
def replaceOwn {α : Type} : List (String × α) → String → α → List (String × α)
  | [], _, _ => []
  | (k, w) :: rest, key, v =>
    if k = key then (k, v) :: rest else (k, w) :: replaceOwn rest key v

/-- Position of a new array-index key `key` (index `n`): after the smaller indices,
before every larger index and before all other keys. -/
def insertIndexed {α : Type} (n : Nat) (key : String) (v : α) :
    List (String × α) → List (String × α)
  | [] => [(key, v)]
  | (k, w) :: rest =>
    match arrayIndex k with
    | some m => if m < n then (k, w) :: insertIndexed n key v rest else (key, v) :: (k, w) :: rest
    | none => (key, v) :: (k, w) :: rest

/-- Definition of an own data property (`o[key] = v` on a plain object, an object-literal
member, a spread copy followed by `[key]: v`): an existing key keeps its place, a new key
goes to its place in enumeration order. -/
def setOwn {α : Type} (o : List (String × α)) (key : String) (v : α) : List (String × α) :=
  match getOwn o key with
  | some _ => replaceOwn o key v
  | none =>
    match arrayIndex key with
    | some n => insertIndexed n key v o
    | none => o ++ [(key, v)]

/-- Names of the properties every plain object inherits from `Object.prototype`. -/
def objectPrototypeKeys : List String :=
  ["constructor", "toString", "toLocaleString", "valueOf", "hasOwnProperty",
   "isPrototypeOf", "propertyIsEnumerable", "__proto__", "__defineGetter__",
   "__defineSetter__", "__lookupGetter__", "__lookupSetter__"]

/-- Result of the dynamic read `obj[key]` on a plain object. -/
inductive Read (α : Type) where
  | own (v : α)
  | inherited
  | undefined
  deriving DecidableEq

/-- Dynamic read `obj[key]`: own property first, then `Object.prototype`. -/
def readProp {α : Type} (o : List (String × α)) (key : String) : Read α :=
  match getOwn o key with
  | some v => .own v
  | none => if key ∈ objectPrototypeKeys then .inherited else .undefined

/-! ## JSON values and `JSON.parse` -/

/-- Value denoted by a JSON text.  A number keeps its decimal reading
`mantissa * 10 ^ exponent`; an object keeps its members in enumeration order. -/
inductive JVal where
  | null
  | bool (b : Bool)
  | num (mantissa : Int) (exponent : Int)
  | str (s : String)
  | arr (items : List JVal)
  | obj (members : List (String × JVal))

/-- Whether the double nearest to `mantissa * 10 ^ exponent` is nonzero: a decimal rounds
to zero exactly when its magnitude is at most 2^-1075, half the least subnormal. -/
def numberNonzero (mantissa exponent : Int) : Bool :=
  if mantissa = 0 then false
  else if 0 ≤ exponent then true
  else decide (10 ^ exponent.natAbs < mantissa.natAbs * 2 ^ 1075)

/-- JavaScript truthiness (`ToBoolean`) of a JSON value. -/
def JVal.toBoolean : JVal → Bool
  | .null => false
  | .bool b => b
  | .num m e => numberNonzero m e
  | .str s => decide (s ≠ "")
  | .arr _ => true
  | .obj _ => true

namespace JSON

/-- Container under construction. -/
inductive Frame where
  | arr (done : List JVal)
  | objKey (done : List (String × JVal))
  | objVal (done : List (String × JVal)) (key : String)

/-- What the reader expects next, or which token it is in the middle of. -/
inductive Phase where
  | value
  | valueOrClose
  | keyOrClose
  | key
  | colon
  | after
  | done (v : JVal)
  | str (acc : List Char) (hi : Option Nat)
  | esc (acc : List Char) (hi : Option Nat)
  | uni (acc : List Char) (hi : Option Nat) (missing : Nat) (code : Nat)
  | lit (rest : List Char) (v : JVal)
  | minus
  | zero (neg : Bool)
  | int (neg : Bool) (m : Nat)
  | dot (neg : Bool) (m : Nat)
  | frac (neg : Bool) (m : Nat) (e : Int)
  | expMark (neg : Bool) (m : Nat) (e : Int)
  | expSign (neg : Bool) (m : Nat) (e : Int) (eneg : Bool)
  | exp (neg : Bool) (m : Nat) (e : Int) (eneg : Bool) (x : Nat)

/-- Reader state: the open containers, innermost first, and the phase. -/
structure St where
  stack : List Frame
  phase : Phase

/-- JSON whitespace. -/
def isWs (c : Char) : Bool :=
  c = ' ' ∨ c = '\t' ∨ c = '\n' ∨ c = '\r'

/-- Value of a decimal digit. -/
def digit (c : Char) : Option Nat :=
  if c.isDigit then some (c.toNat - 48) else none

/-- Value of a hexadecimal digit. -/
def hexDigit (c : Char) : Option Nat :=
  if c.isDigit then some (c.toNat - 48)
  else if 97 ≤ c.toNat ∧ c.toNat ≤ 102 then some (c.toNat - 87)
  else if 65 ≤ c.toNat ∧ c.toNat ≤ 70 then some (c.toNat - 55)
  else none

/-- A complete value is handed to the innermost open container. -/
def pushValue (stack : List Frame) (v : JVal) : Option St :=
  match stack with
  | [] => some ⟨[], .done v⟩
  | .arr done :: rest => some ⟨.arr (v :: done) :: rest, .after⟩
  | .objVal done key :: rest => some ⟨.objKey (setOwn done key v) :: rest, .after⟩
  | .objKey _ :: _ => none

/-- A complete string is a member name when an object awaits one, a value otherwise. -/
def endString (stack : List Frame) (s : String) : Option St :=
  match stack with
  | .objKey done :: rest => some ⟨.objVal done s :: rest, .colon⟩
  | _ => pushValue stack (.str s)

/-- A pending high surrogate that found no partner stays as U+FFFD. -/
def flush (acc : List Char) (hi : Option Nat) : List Char :=
  match hi with
  | none => acc
  | some _ => Char.ofNat 0xFFFD :: acc

/-- First character of a value. -/
def startValue (stack : List Frame) (c : Char) : Option St :=
  if c = '"' then some ⟨stack, .str [] none⟩
  else if c = '[' then some ⟨.arr [] :: stack, .valueOrClose⟩
  else if c = '{' then some ⟨.objKey [] :: stack, .keyOrClose⟩
  else if c = '-' then some ⟨stack, .minus⟩
  else if c = '0' then some ⟨stack, .zero false⟩
  else if c = 't' then some ⟨stack, .lit ['r', 'u', 'e'] (.bool true)⟩
  else if c = 'f' then some ⟨stack, .lit ['a', 'l', 's', 'e'] (.bool false)⟩
  else if c = 'n' then some ⟨stack, .lit ['u', 'l', 'l'] .null⟩
  else match digit c with
    | some d => some ⟨stack, .int false d⟩
    | none => none

/-- Character that follows a complete value. -/
def afterValue (st : St) (c : Char) : Option St :=
  if isWs c then some st
  else match st.phase, st.stack with
    | .after, .arr done :: rest =>
      if c = ',' then some ⟨.arr done :: rest, .value⟩
      else if c = ']' then pushValue rest (.arr done.reverse)
      else none
    | .after, .objKey done :: rest =>
      if c = ',' then some ⟨.objKey done :: rest, .key⟩
      else if c = '}' then pushValue rest (.obj done)
      else none
    | _, _ => none

/-- Number `(-)m * 10 ^ e` ends before `c`, which is then read as what follows a value. -/
def endNumber (stack : List Frame) (neg : Bool) (m : Nat) (e : Int) (c : Char) : Option St :=
  (pushValue stack (.num (if neg then -(m : Int) else m) e)).bind (fun st => afterValue st c)

/-- A `\u` escape is complete with UTF-16 code unit `u`. -/
def endUnicode (stack : List Frame) (acc : List Char) (hi : Option Nat) (u : Nat) : St :=
  if 0xD800 ≤ u ∧ u ≤ 0xDBFF then ⟨stack, .str (flush acc hi) (some u)⟩
  else if 0xDC00 ≤ u ∧ u ≤ 0xDFFF then
    match hi with
    | some h => ⟨stack, .str (Char.ofNat (0x10000 + (h - 0xD800) * 0x400 + (u - 0xDC00)) :: acc) none⟩
    | none => ⟨stack, .str (Char.ofNat 0xFFFD :: acc) none⟩
  else ⟨stack, .str (Char.ofNat u :: flush acc hi) none⟩

/-- One character of input. -/
def step (st : St) (c : Char) : Option St :=
  match st.phase with
  | .value => if isWs c then some st else startValue st.stack c
  | .valueOrClose =>
    if isWs c then some st
    else if c = ']' then
      match st.stack with
      | .arr _ :: rest => pushValue rest (.arr [])
      | _ => none
    else startValue st.stack c
  | .keyOrClose =>
    if isWs c then some st
    else if c = '"' then some ⟨st.stack, .str [] none⟩
    else if c = '}' then
      match st.stack with
      | .objKey _ :: rest => pushValue rest (.obj [])
      | _ => none
    else none
  | .key =>
    if isWs c then some st
    else if c = '"' then some ⟨st.stack, .str [] none⟩
    else none
  | .colon =>
    if isWs c then some st
    else if c = ':' then some ⟨st.stack, .value⟩
    else none
  | .after => afterValue st c
  | .done _ => afterValue st c
  | .str acc hi =>
    if c = '"' then endString st.stack (String.mk (flush acc hi).reverse)
    else if c = '\\' then some ⟨st.stack, .esc acc hi⟩
    else if c.toNat < 32 then none
    else some ⟨st.stack, .str (c :: flush acc hi) none⟩
  | .esc acc hi =>
    if c = '"' ∨ c = '\\' ∨ c = '/' then some ⟨st.stack, .str (c :: flush acc hi) none⟩
    else if c = 'b' then some ⟨st.stack, .str (Char.ofNat 8 :: flush acc hi) none⟩
    else if c = 'f' then some ⟨st.stack, .str (Char.ofNat 12 :: flush acc hi) none⟩
    else if c = 'n' then some ⟨st.stack, .str ('\n' :: flush acc hi) none⟩
    else if c = 'r' then some ⟨st.stack, .str ('\r' :: flush acc hi) none⟩
    else if c = 't' then some ⟨st.stack, .str ('\t' :: flush acc hi) none⟩
    else if c = 'u' then some ⟨st.stack, .uni acc hi 3 0⟩
    else none
  | .uni acc hi missing code =>
    match hexDigit c with
    | none => none
    | some d =>
      match missing with
      | 0 => some (endUnicode st.stack acc hi (16 * code + d))
      | k + 1 => some ⟨st.stack, .uni acc hi k (16 * code + d)⟩
  | .lit rest v =>
    match rest with
    | [] => none
    | [x] => if c = x then pushValue st.stack v else none
    | x :: more => if c = x then some ⟨st.stack, .lit more v⟩ else none
  | .minus =>
    if c = '0' then some ⟨st.stack, .zero true⟩
    else match digit c with
      | some d => some ⟨st.stack, .int true d⟩
      | none => none
  | .zero neg =>
    if c = '.' then some ⟨st.stack, .dot neg 0⟩
    else if c = 'e' ∨ c = 'E' then some ⟨st.stack, .expMark neg 0 0⟩
    else endNumber st.stack neg 0 0 c
  | .int neg m =>
    match digit c with
    | some d => some ⟨st.stack, .int neg (10 * m + d)⟩
    | none =>
      if c = '.' then some ⟨st.stack, .dot neg m⟩
      else if c = 'e' ∨ c = 'E' then some ⟨st.stack, .expMark neg m 0⟩
      else endNumber st.stack neg m 0 c
  | .dot neg m =>
    match digit c with
    | some d => some ⟨st.stack, .frac neg (10 * m + d) (-1)⟩
    | none => none
  | .frac neg m e =>
    match digit c with
    | some d => some ⟨st.stack, .frac neg (10 * m + d) (e - 1)⟩
    | none =>
      if c = 'e' ∨ c = 'E' then some ⟨st.stack, .expMark neg m e⟩
      else endNumber st.stack neg m e c
  | .expMark neg m e =>
    if c = '+' then some ⟨st.stack, .expSign neg m e false⟩
    else if c = '-' then some ⟨st.stack, .expSign neg m e true⟩
    else match digit c with
      | some d => some ⟨st.stack, .exp neg m e false d⟩
      | none => none
  | .expSign neg m e eneg =>
    match digit c with
    | some d => some ⟨st.stack, .exp neg m e eneg d⟩
    | none => none
  | .exp neg m e eneg x =>
    match digit c with
    | some d => some ⟨st.stack, .exp neg m e eneg (10 * x + d)⟩
    | none => endNumber st.stack neg m (if eneg then e - x else e + x) c

/-- Whole input, character by character; `none` as soon as a character does not fit. -/
def run : St → List Char → Option St
  | st, [] => some st
  | st, c :: cs =>
    match step st c with
    | some st1 => run st1 cs
    | none => none

/-- Value at the end of the input: the text must be exactly one value. -/
def finish (st : St) : Option JVal :=
  match st.stack, st.phase with
  | [], .done v => some v
  | [], .zero _ => some (.num 0 0)
  | [], .int neg m => some (.num (if neg then -(m : Int) else m) 0)
  | [], .frac neg m e => some (.num (if neg then -(m : Int) else m) e)
  | [], .exp neg m e eneg x =>
    some (.num (if neg then -(m : Int) else m) (if eneg then e - x else e + x))
  | _, _ => none

/-- Model of the built-in `JSON.parse` on text: the decoded value, or `none` where the
built-in throws a SyntaxError.  Lone surrogate halves written as `\u` escapes, which a
`String` cannot hold, are kept as U+FFFD. -/
def parse (text : String) : Option JVal :=
  (run ⟨[], .value⟩ text.toList).bind finish

end JSON

/-! ## Response Parser (App.js 641-667) -/

/-- Exception raised by the JavaScript runtime.  Inside `callGemini` nothing but the
outer `catch` (App.js 722) handles one raised after line 663: that handler shows the
error notice and returns the error narrative with the stats it was given. -/
inductive JSError where
  | typeError
  deriving DecidableEq

/-- The three values the parser stage hands on: `narrative`, `statsUpdate`, `options`
(App.js 665-667). -/
structure ParsedResponse where
  narrative : JVal
  stats_update : JVal
  options : JVal

/-- Text matched by `rawJson.match(/\{[\s\S]*\}/)`: the regular expression is greedy, so
the match runs from the first opening brace to the last closing brace after it; there is
no match when no closing brace follows the first opening brace. -/
def jsonMatch (rawJson : String) : Option String :=
  let fromOpen := rawJson.toList.dropWhile (fun c => c != '{')
  let upToClose := (fromOpen.reverse.dropWhile (fun c => c != '}')).reverse
  if upToClose = [] then none else some (String.mk upToClose)

/-- Candidate document `jsonText` (App.js 646-652). -/
def jsonText (rawJson : String) : String :=
  match jsonMatch rawJson with
  | some m => m
  | none => rawJson

/-- Object literal of the soft fallback (App.js 658 and 663). -/
def fallbackResponse (rawJson : String) : JVal :=
  .obj [("narrative", .str rawJson), ("stats_update", .obj []), ("options", .arr [])]

/-- Value of `parsedResponse` after the inner `try`/`catch` (App.js 654-659). -/
def parsedResponse (rawJson : String) : JVal :=
  match JSON.parse (jsonText rawJson) with
  | some v => v
  | none => fallbackResponse rawJson

/-- Property read `v.narrative`, `v.stats_update` or `v.options` on a decoded value:
a TypeError on `null`, the own member of an object, and `undefined` (here `none`) on
anything else, since no prototype of a JSON value defines one of these three names. -/
def member (v : JVal) (key : String) : Except JSError (Option JVal) :=
  match v with
  | .null => .error .typeError
  | .obj members => .ok (getOwn members key)
  | _ => .ok none

/-- The expression `a || b`, with `none` for `undefined`. -/
def orDefault (a : Option JVal) (b : JVal) : JVal :=
  match a with
  | some v => if v.toBoolean then v else b
  | none => b

/-- Response Parser stage of `callGemini` on the raw model text (App.js 641-667). -/
def responseParser (rawJson : String) : Except JSError ParsedResponse :=
  match member (parsedResponse rawJson) "narrative" with
  | .error e => .error e
  | .ok narrative =>
    match member (parsedResponse rawJson) "stats_update" with
    | .error e => .error e
    | .ok statsUpdate =>
      match member (parsedResponse rawJson) "options" with
      | .error e => .error e
      | .ok options =>
        .ok { narrative := orDefault narrative (.str "The story continues...")
              stats_update := orDefault statsUpdate (.obj [])
              options := orDefault options (.arr []) }

/-! ## Stat Reconciler (App.js 670-713) -/

/-- Entry of an inventory array of the working copy.  The store holds item names;
`builtin key` is the one other value the loop can put there: the member `key` of
`Object.prototype`, pushed by App.js 695 when `equipped_items[slot]` is not an own
property but an inherited one.  `null` is what the deep copy of App.js 673 leaves in
the place of a function. -/
inductive Item where
  | name (s : String)
  | builtin (key : String)
  | null
  deriving DecidableEq

/-- CharacterStats record of the working copy `newAllPlayerCharacters`. -/
structure CharacterStats where
  health : Int
  gold : Int
  experience : Int
  inventory : List Item
  equipped_items : List (String × String)
  location : String
  deriving DecidableEq

/-- WorldSetting record. -/
structure WorldSetting where
  playerName : String
  characterType : String
  worldType : String
  deriving DecidableEq

/-- Entry of the player map. -/
structure PlayerRecord where
  stats : CharacterStats
  setting : WorldSetting
  deriving DecidableEq

/-- The working copy `newAllPlayerCharacters`: player-id to record. -/
abbrev PlayerCharacterMap := List (String × PlayerRecord)

/-- The `inventory_equip` member of a patch. -/
structure EquipRequest where
  item : String
  slot : String
  deriving DecidableEq

/-- Patch for one player; `none` is an absent member (`undefined`). -/
structure PlayerUpdate where
  health : Option Int := none
  gold : Option Int := none
  experience : Option Int := none
  location : Option String := none
  inventory_add : Option (List String) := none
  inventory_remove : Option (List String) := none
  inventory_equip : Option EquipRequest := none
  inventory_unequip : Option String := none
  deriving DecidableEq

/-- The `stats_update` object: player-id to patch, in enumeration order. -/
abbrev StatsUpdate := List (String × PlayerUpdate)

/-- Scalar overwrites (App.js 680-683). -/
def applyScalars (playerCurrentStats : CharacterStats) (playerUpdate : PlayerUpdate) :
    CharacterStats :=
  { playerCurrentStats with
    health := match playerUpdate.health with
      | some health => health
      | none => playerCurrentStats.health
    gold := match playerUpdate.gold with
      | some gold => gold
      | none => playerCurrentStats.gold
    experience := match playerUpdate.experience with
      | some experience => experience
      | none => playerCurrentStats.experience
    location := match playerUpdate.location with
      | some location => location
      | none => playerCurrentStats.location }

/-- The array `[...new Set(xs)]`: a Set keeps an element the first time it is added and
enumerates in insertion order. -/
def setSpread (xs : List Item) : List Item :=
  xs.foldl (fun seen x => if x ∈ seen then seen else seen ++ [x]) []

/-- The `inventory_add` step (App.js 685-687). -/
def applyAdd (playerCurrentStats : CharacterStats) (playerUpdate : PlayerUpdate) :
    CharacterStats :=
  match playerUpdate.inventory_add with
  | some inventory_add =>
    { playerCurrentStats with
      inventory := setSpread (playerCurrentStats.inventory ++ inventory_add.map Item.name) }
  | none => playerCurrentStats

/-- The `inventory_remove` step (App.js 688-690). -/
def applyRemove (playerCurrentStats : CharacterStats) (playerUpdate : PlayerUpdate) :
    CharacterStats :=
  match playerUpdate.inventory_remove with
  | some inventory_remove =>
    { playerCurrentStats with
      inventory := playerCurrentStats.inventory.filter
        (fun item => item ∉ inventory_remove.map Item.name) }
  | none => playerCurrentStats

/-- Inventory after the conditional `push` of App.js 694-696: the value read at
`equipped_items[slot]` is pushed when it is truthy. -/
def pushPrevious (playerCurrentStats : CharacterStats) (slot : String) : List Item :=
  match readProp playerCurrentStats.equipped_items slot with
  | .own previous =>
    if previous ≠ "" then playerCurrentStats.inventory ++ [Item.name previous]
    else playerCurrentStats.inventory
  | .inherited => playerCurrentStats.inventory ++ [Item.builtin slot]
  | .undefined => playerCurrentStats.inventory

/-- The `inventory_equip` step (App.js 691-700). -/
def applyEquip (playerCurrentStats : CharacterStats) (playerUpdate : PlayerUpdate) :
    CharacterStats :=
  match playerUpdate.inventory_equip with
  | some inventory_equip =>
    if inventory_equip.item ≠ "" ∧ inventory_equip.slot ≠ "" then
      if Item.name inventory_equip.item ∈ playerCurrentStats.inventory then
        { playerCurrentStats with
          equipped_items :=
            setOwn playerCurrentStats.equipped_items inventory_equip.slot inventory_equip.item
          inventory := (pushPrevious playerCurrentStats inventory_equip.slot).filter
            (fun i => i ≠ Item.name inventory_equip.item) }
      else playerCurrentStats
    else playerCurrentStats
  | none => playerCurrentStats

/-- The slot found by `Object.keys(equipped_items).find(...)` (App.js 703). -/
def equippedSlot (equipped_items : List (String × String)) (itemToUnequip : String) :
    Option String :=
  (ownKeys equipped_items).find? (fun slot => getOwn equipped_items slot = some itemToUnequip)

/-- The `inventory_unequip` step (App.js 701-710). -/
def applyUnequip (playerCurrentStats : CharacterStats) (playerUpdate : PlayerUpdate) :
    CharacterStats :=
  match playerUpdate.inventory_unequip with
  | some itemToUnequip =>
    if itemToUnequip ≠ "" then
      match equippedSlot playerCurrentStats.equipped_items itemToUnequip with
      | some slot =>
        if slot ≠ "" then
          { playerCurrentStats with
            inventory := playerCurrentStats.inventory ++ [Item.name itemToUnequip]
            equipped_items := deleteOwn playerCurrentStats.equipped_items slot }
        else playerCurrentStats
      | none => playerCurrentStats
    else playerCurrentStats
  | none => playerCurrentStats

/-- Body of the loop for a player found in the map (App.js 677-710): scalars, add,
remove, equip, unequip, in this order. -/
def applyPlayerUpdate (playerCurrentStats : CharacterStats) (playerUpdate : PlayerUpdate) :
    CharacterStats :=
  applyUnequip
    (applyEquip
      (applyRemove
        (applyAdd (applyScalars playerCurrentStats playerUpdate) playerUpdate)
        playerUpdate)
      playerUpdate)
    playerUpdate

/-- Whether the loop body dereferences `playerCurrentStats` for this patch: a scalar
member is present, an add or remove list is present, the equip guard of App.js 691
holds, or the unequip guard of App.js 701 holds. -/
def touchesStats (playerUpdate : PlayerUpdate) : Bool :=
  playerUpdate.health.isSome || playerUpdate.gold.isSome ||
  playerUpdate.experience.isSome || playerUpdate.location.isSome ||
  playerUpdate.inventory_add.isSome || playerUpdate.inventory_remove.isSome ||
  (match playerUpdate.inventory_equip with
    | some inventory_equip => decide (inventory_equip.item ≠ "" ∧ inventory_equip.slot ≠ "")
    | none => false) ||
  (match playerUpdate.inventory_unequip with
    | some itemToUnequip => decide (itemToUnequip ≠ "")
    | none => false)

/-- One iteration of `for (const playerToUpdateId in statsUpdate)` (App.js 673-711).
The guard `newAllPlayerCharacters[playerToUpdateId]` is a dynamic read: for an id the map
does not own but `Object.prototype` defines, it is truthy, `.stats` of that built-in is
`undefined`, and the first statement that dereferences it raises a TypeError. -/
def reconcileStep (newAllPlayerCharacters : PlayerCharacterMap) (playerToUpdateId : String)
    (playerUpdate : PlayerUpdate) : Except JSError PlayerCharacterMap :=
  match readProp newAllPlayerCharacters playerToUpdateId with
  | .own record =>
    .ok (replaceOwn newAllPlayerCharacters playerToUpdateId
      { record with stats := applyPlayerUpdate record.stats playerUpdate })
  | .inherited => if touchesStats playerUpdate then .error .typeError else .ok newAllPlayerCharacters
  | .undefined => .ok newAllPlayerCharacters

/-- The whole loop over `statsUpdate` (App.js 675-712), run on the working copy
`newAllPlayerCharacters`.  The copy itself, made at App.js 673, is `deepCopy`; the stage
from `allPlayerCharacters` to the returned map is `statReconciler`. -/
def reconcile : PlayerCharacterMap → StatsUpdate → Except JSError PlayerCharacterMap
  | newAllPlayerCharacters, [] => .ok newAllPlayerCharacters
  | newAllPlayerCharacters, (playerToUpdateId, playerUpdate) :: rest =>
    match reconcileStep newAllPlayerCharacters playerToUpdateId playerUpdate with
    | .ok updated => reconcile updated rest
    | .error e => .error e

/-- Record of player `id` in the reconciled map, when the loop completes. -/
def recordAfter (newAllPlayerCharacters : PlayerCharacterMap) (statsUpdate : StatsUpdate)
    (id : String) : Option PlayerRecord :=
  match reconcile newAllPlayerCharacters statsUpdate with
  | .ok updated => getOwn updated id
  | .error _ => none

/-- World setting used in the worked examples. -/
def exampleSetting : WorldSetting :=
  { playerName := "Aria", characterType := "Ranger", worldType := "Fantasy" }

/-- Player record used in the worked examples: health 100, gold 10, experience 0,
location Cave, with the given inventory and equipped items. -/
def examplePlayer (inventory : List Item) (equipped : List (String × String)) : PlayerRecord :=
  { stats := { health := 100, gold := 10, experience := 0, inventory := inventory,
               equipped_items := equipped, location := "Cave" }
    setting := exampleSetting }

/-! ## The deep copy of the player map (App.js 673) -/

/-- Copy of an inventory entry by `JSON.parse(JSON.stringify(...))`: a string and `null`
are kept, a function is written as `null`.  The prototype object (the built-in
`__proto__`) is written as an empty object, which this data model does not hold: none. -/
def Item.jsonCopy : Item → Option Item
  | .name s => some (.name s)
  | .builtin key => if key = "__proto__" then none else some .null
  | .null => some .null

/-- Copy of an inventory array, entry by entry. -/
def copyInventory : List Item → Option (List Item)
  | [] => some []
  | item :: rest =>
    match item.jsonCopy, copyInventory rest with
    | some copied, some others => some (copied :: others)
    | _, _ => none

/-- Copy of a player record: numbers, strings and the object of equipped item names are
JSON data and are kept; the inventory is copied entry by entry. -/
def PlayerRecord.jsonCopy (record : PlayerRecord) : Option PlayerRecord :=
  match copyInventory record.stats.inventory with
  | some inventory => some { record with stats := { record.stats with inventory := inventory } }
  | none => none

/-- The value of `JSON.parse(JSON.stringify(allPlayerCharacters))` (App.js 673): the
players in the same order, each with the copy of its record; none when a copy is outside
the data model. -/
def deepCopy : PlayerCharacterMap → Option PlayerCharacterMap
  | [] => some []
  | (id, record) :: rest =>
    match record.jsonCopy, deepCopy rest with
    | some copied, some others => some ((id, copied) :: others)
    | _, _ => none

/-- The Stat Reconciler as `callGemini` runs it (App.js 673-712): the deep copy of
`allPlayerCharacters`, then the loop over `statsUpdate` on that copy; none when the copy
is outside the data model. -/
def statReconciler (allPlayerCharacters : PlayerCharacterMap) (statsUpdate : StatsUpdate) :
    Option (Except JSError PlayerCharacterMap) :=
  match deepCopy allPlayerCharacters with
  | some newAllPlayerCharacters => some (reconcile newAllPlayerCharacters statsUpdate)
  | none => none

/-! ## Patches split into their parts -/

/-- The scalar members of a patch alone. -/
def scalarPart (p : PlayerUpdate) : PlayerUpdate :=
  { health := p.health, gold := p.gold, experience := p.experience, location := p.location }

/-- The `inventory_add` member of a patch alone. -/
def addPart (p : PlayerUpdate) : PlayerUpdate :=
  { inventory_add := p.inventory_add }

/-- The `inventory_remove` member of a patch alone. -/
def removePart (p : PlayerUpdate) : PlayerUpdate :=
  { inventory_remove := p.inventory_remove }

/-- The `inventory_equip` member of a patch alone. -/
def equipPart (p : PlayerUpdate) : PlayerUpdate :=
  { inventory_equip := p.inventory_equip }

/-- The `inventory_unequip` member of a patch alone. -/
def unequipPart (p : PlayerUpdate) : PlayerUpdate :=
  { inventory_unequip := p.inventory_unequip }

/-- Five applications of the loop body, one per part of the patch: scalars, add, remove,
equip, unequip. -/
def applyInSequence (s : CharacterStats) (p : PlayerUpdate) : CharacterStats :=
  applyPlayerUpdate
    (applyPlayerUpdate
      (applyPlayerUpdate
        (applyPlayerUpdate (applyPlayerUpdate s (scalarPart p)) (addPart p))
        (removePart p))
      (equipPart p))
    (unequipPart p)

/-- Five runs of the loop, each on the map left by the one before and each with a
one-entry update that holds one part of the patch of player `id`. -/
def reconcileInSequence (m : PlayerCharacterMap) (id : String) (p : PlayerUpdate) :
    Except JSError PlayerCharacterMap :=
  match reconcile m [(id, scalarPart p)] with
  | .error e => .error e
  | .ok m1 =>
    match reconcile m1 [(id, addPart p)] with
    | .error e => .error e
    | .ok m2 =>
      match reconcile m2 [(id, removePart p)] with
      | .error e => .error e
      | .ok m3 =>
        match reconcile m3 [(id, equipPart p)] with
        | .error e => .error e
        | .ok m4 => reconcile m4 [(id, unequipPart p)]

/-! ## The placement invariant -/

/-- The placement invariant of the data model: no item held by a slot is also in the
inventory. -/
def placementExclusive (s : CharacterStats) : Bool :=
  (ownKeys s.equipped_items).all (fun slot =>
    match getOwn s.equipped_items slot with
    | some item => decide (Item.name item ∉ s.inventory)
    | none => true)

/-- No two slots hold the same item. -/
def slotsDistinct (s : CharacterStats) : Bool :=
  (ownKeys s.equipped_items).all (fun a =>
    (ownKeys s.equipped_items).all (fun b =>
      decide (a = b ∨ getOwn s.equipped_items a ≠ getOwn s.equipped_items b)))

/-! ## The value returned by `callGemini` in game mode (App.js 670-728) -/

/-- Integer denoted by a JSON number, when it denotes one. -/
def readInt : JVal → Option Int
  | .num mantissa exponent =>
    if 0 ≤ exponent then some (mantissa * 10 ^ exponent.toNat)
    else if mantissa % 10 ^ exponent.natAbs = 0 then some (mantissa / 10 ^ exponent.natAbs)
    else none
  | _ => none

/-- A JSON string. -/
def readString : JVal → Option String
  | .str s => some s
  | _ => none

/-- A JSON array of strings. -/
def readStrings : JVal → Option (List String)
  | .arr items => items.mapM readString
  | _ => none

/-- An `{item, slot}` object with two strings. -/
def readEquipRequest : JVal → Option EquipRequest
  | .obj members =>
    match getOwn members "item", getOwn members "slot" with
    | some (.str item), some (.str slot) => some { item := item, slot := slot }
    | _, _ => none
  | _ => none

/-- Member `key` of an object read with `read`: `some none` when the member is absent,
`none` when it is present with a value outside the data model. -/
def readMember {α : Type} (members : List (String × JVal)) (key : String)
    (read : JVal → Option α) : Option (Option α) :=
  match getOwn members key with
  | none => some none
  | some v => (read v).map some

/-- Patch of the data model denoted by a decoded value; `none` when the value is not an
object or a member the loop reads has a value outside the data model. -/
def readPlayerUpdate : JVal → Option PlayerUpdate
  | .obj members =>
    match readMember members "health" readInt, readMember members "gold" readInt,
      readMember members "experience" readInt, readMember members "location" readString,
      readMember members "inventory_add" readStrings,
      readMember members "inventory_remove" readStrings,
      readMember members "inventory_equip" readEquipRequest,
      readMember members "inventory_unequip" readString with
    | some health, some gold, some experience, some location, some inventory_add,
      some inventory_remove, some inventory_equip, some inventory_unequip =>
      some { health := health, gold := gold, experience := experience, location := location,
             inventory_add := inventory_add, inventory_remove := inventory_remove,
             inventory_equip := inventory_equip, inventory_unequip := inventory_unequip }
    | _, _, _, _, _, _, _, _ => none
  | _ => none

/-- StatsUpdate of the data model denoted by the decoded `stats_update`; `none` when it
is not an object of patches of the data model. -/
def readStatsUpdate : JVal → Option StatsUpdate
  | .obj members =>
    members.mapM (fun entry => (readPlayerUpdate entry.2).map (fun patch => (entry.1, patch)))
  | _ => none

/-- Object returned by `callGemini`. -/
structure GeminiResult where
  narrative : JVal
  updatedStats : CharacterStats
  options : JVal
  allPlayerCharacters : Option PlayerCharacterMap

/-- Property key a value is converted to: `null` becomes the key `"null"`. -/
def propertyKey (userId : Option String) : String :=
  match userId with
  | some id => id
  | none => "null"

/-- The expression `newAllPlayerCharacters[userId]?.stats || currentCharacterStats`
(App.js 714): a record is truthy and so are its stats; a built-in read through the
prototype chain has no `stats`. -/
def updatedStats (newAllPlayerCharacters : PlayerCharacterMap) (userId : Option String)
    (currentCharacterStats : CharacterStats) : CharacterStats :=
  match readProp newAllPlayerCharacters (propertyKey userId) with
  | .own record => record.stats
  | .inherited => currentCharacterStats
  | .undefined => currentCharacterStats

/-- Value returned by the outer `catch` of `callGemini` (App.js 722-725), which also
shows the error notice. -/
def errorResult (currentCharacterStats : CharacterStats) : GeminiResult :=
  { narrative := .str "An error occurred while the AI was thinking. Please try again."
    updatedStats := currentCharacterStats
    options := .arr []
    allPlayerCharacters := none }

/-- Game-mode tail of `callGemini` after the parser stage (App.js 670-714, 722-725), for
a response whose `statsUpdate` denotes `statsUpdate` in the data model.  The loop is run
on the argument `allPlayerCharacters`, which stands for the working copy; the copy of
App.js 673 is `deepCopy`, and a map whose inventories hold no built-in is its own copy
(`deepCopy_eq_self`). -/
def callGeminiGame (parsed : ParsedResponse) (statsUpdate : StatsUpdate)
    (allPlayerCharacters : PlayerCharacterMap) (userId : Option String)
    (currentCharacterStats : CharacterStats) : GeminiResult :=
  match reconcile allPlayerCharacters statsUpdate with
  | .ok newAllPlayerCharacters =>
    { narrative := parsed.narrative
      updatedStats := updatedStats newAllPlayerCharacters userId currentCharacterStats
      options := parsed.options
      allPlayerCharacters := some newAllPlayerCharacters }
  | .error _ => errorResult currentCharacterStats

/-- What `callGemini` returns in game mode once the model has answered with the text
`rawJson` (App.js 641-728); `none` when the decoded `stats_update` is outside the data
model. -/
def callGeminiOnText (rawJson : String) (allPlayerCharacters : PlayerCharacterMap)
    (userId : Option String) (currentCharacterStats : CharacterStats) : Option GeminiResult :=
  match responseParser rawJson with
  | .error _ => some (errorResult currentCharacterStats)
  | .ok parsed =>
    match readStatsUpdate parsed.stats_update with
    | some statsUpdate =>
      some (callGeminiGame parsed statsUpdate allPlayerCharacters userId currentCharacterStats)
    | none => none

/-! ## `saveGameState` and `handlePlayerAction` (App.js 467-513, 769-811) -/

/-- Entry of the chat history; `userId` and `playerName` are the extra members of an
entry written by `handlePlayerAction` (`none`: member absent or `null`). -/
structure ChatEntry where
  role : String
  text : JVal
  userId : Option String := none
  playerName : Option String := none

/-- The object `dataToSave` of `saveGameState`, in its two shapes. -/
inductive SessionDocument where
  | multiplayer (chatHistory : List ChatEntry) (currentOptions : JVal)
      (playerCharacters : PlayerCharacterMap) (lastUpdated : Nat)
  | singlePlayer (chatHistory : List ChatEntry) (characterStats : CharacterStats)
      (worldSetting : WorldSetting) (currentOptions : JVal) (lastUpdated : Nat)

/-- Member `chatHistory` of the document. -/
def SessionDocument.chatHistory : SessionDocument → List ChatEntry
  | .multiplayer chatHistory _ _ _ => chatHistory
  | .singlePlayer chatHistory _ _ _ _ => chatHistory

/-- Member `currentOptions` of the document. -/
def SessionDocument.currentOptions : SessionDocument → JVal
  | .multiplayer _ currentOptions _ _ => currentOptions
  | .singlePlayer _ _ _ currentOptions _ => currentOptions

/-- The call `setDoc(docRef, dataToSave, { merge: true })`. -/
structure DocumentWrite where
  docRef : String
  dataToSave : SessionDocument

/-- React state and module constants that `saveGameState` and `handlePlayerAction` read;
`now` is the clock read by `new Date()`. -/
structure AppState where
  appId : String
  userId : Option String
  sessionId : String
  isMultiplayer : Bool
  gameCode : String
  playerInput : String
  chatHistory : List ChatEntry
  characterStats : CharacterStats
  worldSetting : WorldSetting
  playerCharacters : PlayerCharacterMap
  currentOptions : JVal
  storyText : JVal
  isLoading : Bool
  now : Nat

/-- The write made by `saveGameState` (App.js 467-513); none when `userId` is falsy.
`docRef` is the path handed to `doc`; whether the store accepts that path is outside
this model. -/
def saveGameState (st : AppState) (newChatHistory : List ChatEntry)
    (newCharacterStats : CharacterStats) (newWorldSetting : WorldSetting)
    (newCurrentOptions : JVal) (newPlayerCharacters : Option PlayerCharacterMap) :
    Option DocumentWrite :=
  match st.userId with
  | none => none
  | some userId =>
    if userId = "" then none
    else if st.isMultiplayer = true ∧ st.gameCode ≠ "" then
      some
        { docRef := "artifacts/" ++ st.appId ++ "/public/multiplayerGames/" ++ st.gameCode
          dataToSave := .multiplayer newChatHistory newCurrentOptions
            (setOwn (newPlayerCharacters.getD []) userId
              { stats := newCharacterStats, setting := newWorldSetting })
            st.now }
    else
      some
        { docRef := "artifacts/" ++ st.appId ++ "/users/" ++ userId ++ "/gameSessions/" ++
            st.sessionId
          dataToSave := .singlePlayer newChatHistory newCharacterStats newWorldSetting
            newCurrentOptions st.now }

/-- Characters removed by `String.prototype.trim`: WhiteSpace and LineTerminator. -/
def isTrimmed (c : Char) : Bool :=
  let n := c.toNat
  n = 9 ∨ n = 10 ∨ n = 11 ∨ n = 12 ∨ n = 13 ∨ n = 32 ∨ n = 0xA0 ∨ n = 0x1680 ∨
  (0x2000 ≤ n ∧ n ≤ 0x200A) ∨ n = 0x2028 ∨ n = 0x2029 ∨ n = 0x202F ∨ n = 0x205F ∨
  n = 0x3000 ∨ n = 0xFEFF

/-- The test `!inputToProcess.trim()`: the text is empty or only whitespace. -/
def isBlank (text : String) : Bool :=
  text.toList.all isTrimmed

/-- The expression `actionText || playerInput` (App.js 770). -/
def inputToProcess (actionText : Option String) (playerInput : String) : String :=
  match actionText with
  | some text => if text = "" then playerInput else text
  | none => playerInput

/-- What a run of `handlePlayerAction` leaves behind: the arguments of its call to
`callGemini` if it made one, the write of its call to `saveGameState` if there was one,
and the chat history, story text, options, stats and input field of the React state. -/
structure ActionOutcome where
  requested : Option (List ChatEntry × CharacterStats × WorldSetting × PlayerCharacterMap)
  write : Option DocumentWrite
  chatHistory : List ChatEntry
  storyText : JVal
  currentOptions : JVal
  characterStats : CharacterStats
  playerInput : String

/-- Text of the model entry written when `callGemini` throws (App.js 806-808). -/
def actionErrorText : String :=
  "An error occurred. The AI lost its train of thought. Please try another action."

/-- The handler `handlePlayerAction` (App.js 769-821).  `callGemini` stands for the
awaited call in game mode with an empty prompt: from the chat history, the stats, the
setting and the player map it is given to the object it returns, or to the exception it
throws. -/
def handlePlayerAction (st : AppState) (actionText : Option String)
    (callGemini : List ChatEntry → CharacterStats → WorldSetting → PlayerCharacterMap →
      Except JSError GeminiResult) : ActionOutcome :=
  if isBlank (inputToProcess actionText st.playerInput) = true ∨ st.isLoading = true then
    { requested := none, write := none, chatHistory := st.chatHistory,
      storyText := st.storyText, currentOptions := st.currentOptions,
      characterStats := st.characterStats, playerInput := st.playerInput }
  else
    let newChatEntry : ChatEntry :=
      { role := "user", userId := st.userId, playerName := some st.worldSetting.playerName,
        text := .str (inputToProcess actionText st.playerInput) }
    let newChatHistory := st.chatHistory ++ [newChatEntry]
    let allPlayerCharacters := if st.isMultiplayer = true then st.playerCharacters else []
    match callGemini newChatHistory st.characterStats st.worldSetting allPlayerCharacters with
    | .ok result =>
      let updatedHistoryWithAI := newChatHistory ++ [{ role := "model", text := result.narrative }]
      if st.isMultiplayer = true then
        { requested := some (newChatHistory, st.characterStats, st.worldSetting, allPlayerCharacters)
          write := saveGameState st updatedHistoryWithAI result.updatedStats st.worldSetting
            result.options result.allPlayerCharacters
          chatHistory := updatedHistoryWithAI, storyText := result.narrative,
          currentOptions := result.options, characterStats := st.characterStats,
          playerInput := "" }
      else
        { requested := some (newChatHistory, st.characterStats, st.worldSetting, allPlayerCharacters)
          write := saveGameState st updatedHistoryWithAI result.updatedStats st.worldSetting
            result.options none
          chatHistory := updatedHistoryWithAI, storyText := result.narrative,
          currentOptions := result.options, characterStats := result.updatedStats,
          playerInput := "" }
    | .error _ =>
      let errorHistory := newChatHistory ++ [{ role := "model", text := .str actionErrorText }]
      { requested := some (newChatHistory, st.characterStats, st.worldSetting, allPlayerCharacters)
        write := saveGameState st errorHistory st.characterStats st.worldSetting (.arr [])
          (if st.isMultiplayer = true then some st.playerCharacters else none)
        chatHistory := errorHistory, storyText := .str actionErrorText,
        currentOptions := .arr [], characterStats := st.characterStats, playerInput := "" }

/-- Member `characterStats` of the document, which only the single-player shape has. -/
def SessionDocument.characterStats : SessionDocument → Option CharacterStats
  | .multiplayer _ _ _ _ => none
  | .singlePlayer _ characterStats _ _ _ => some characterStats

/-- Single-player session used in the worked examples: user u1, default session, an idle
handler, the given chat history and the stats of `examplePlayer [] []`. -/
def exampleSession (chatHistory : List ChatEntry) : AppState :=
  { appId := "dungeon-storyteller", userId := some "u1", sessionId := "mainGameSession",
    isMultiplayer := false, gameCode := "", playerInput := "", chatHistory := chatHistory,
    characterStats := (examplePlayer [] []).stats, worldSetting := exampleSetting,
    playerCharacters := [], currentOptions := .arr [], storyText := .str "",
    isLoading := false, now := 0 }

/-! ## The outbound request of `callGemini` (App.js 516-622) -/

/-- Text of a number in a template literal: the decimal digits, with a minus sign when
negative.  This is the conversion for integers of magnitude below 10^21, which covers
every integer the number fields can hold exactly. -/
def numberToString (n : Int) : String :=
  if n < 0 then "-" ++ Nat.repr n.natAbs else Nat.repr n.natAbs

/-- Text of a member of `Object.prototype` when it is converted to a string: the
accessor `__proto__` yields the prototype object, the other names yield native functions
(`constructor` is the function `Object`). -/
def builtinText (key : String) : String :=
  if key = "__proto__" then "[object Object]"
  else "function " ++ (if key = "constructor" then "Object" else key) ++
    "() \x7b [native code] \x7d"

/-- Text of an inventory entry inside `join`, which writes nothing for `null`. -/
def Item.toText : Item → String
  | .name s => s
  | .builtin key => builtinText key
  | .null => ""

/-- The expression `inventory.join(', ')`. -/
def joinInventory (inventory : List Item) : String :=
  ", ".intercalate (inventory.map Item.toText)

/-- Lower-case hexadecimal digit. -/
def hexDigitChar (n : Nat) : Char :=
  if n < 10 then Char.ofNat (48 + n) else Char.ofNat (87 + n)

/-- Escape of one character by `JSON.stringify`. -/
def quoteChar (c : Char) : List Char :=
  if c = '"' then ['\\', '"']
  else if c = '\\' then ['\\', '\\']
  else if c.toNat = 8 then ['\\', 'b']
  else if c.toNat = 9 then ['\\', 't']
  else if c.toNat = 10 then ['\\', 'n']
  else if c.toNat = 12 then ['\\', 'f']
  else if c.toNat = 13 then ['\\', 'r']
  else if c.toNat < 32 then
    ['\\', 'u', '0', '0', hexDigitChar (c.toNat / 16), hexDigitChar (c.toNat % 16)]
  else [c]

/-- The text `JSON.stringify` gives for a string. -/
def quoteJSONString (s : String) : String :=
  String.mk ('"' :: (s.toList.flatMap quoteChar ++ ['"']))

/-- The expression `JSON.stringify(equipped_items)` for an object of strings. -/
def stringifyEquipped (equipped_items : List (String × String)) : String :=
  "\x7b" ++
  ",".intercalate
    (equipped_items.map (fun kv => quoteJSONString kv.1 ++ ":" ++ quoteJSONString kv.2)) ++
  "\x7d"

/-- The text the callback of `Object.entries(allPlayerCharacters).map` returns for one
player (App.js 547-549); `userId` is the id of the signed-in user. -/
def playerInfo (userId : Option String) (pId : String) (pData : PlayerRecord) : String :=
  let isCurrentPlayer := decide (some pId = userId)
  (if isCurrentPlayer then "YOU (" else "") ++ "Player " ++ pData.setting.playerName ++
  " (" ++ pData.setting.characterType ++ ")" ++ (if isCurrentPlayer then ")" else "") ++
  ": Health: " ++ numberToString pData.stats.health ++
  ", Gold: " ++ numberToString pData.stats.gold ++
  ", Inventory: " ++ joinInventory pData.stats.inventory ++
  ". Equipped: " ++ stringifyEquipped pData.stats.equipped_items ++
  ". Location: " ++ (if pData.stats.location = "" then "Unknown" else pData.stats.location) ++
  "."

/-- The constant `allPlayersInfo` (App.js 547-550): one text per entry of the player map,
joined by line breaks. -/
def allPlayersInfo (userId : Option String) (allPlayerCharacters : PlayerCharacterMap) :
    String :=
  "\n".intercalate (allPlayerCharacters.map (fun entry => playerInfo userId entry.1 entry.2))

/-- Text of the game-mode context message after the character type of the acting
player (App.js 553-560). -/
def gameInstructions : String :=
  ").\n" ++
  "            Provide narrative and occasionally suggest options for " ++
  "the player to choose from, or update stats for ANY relevant player " ++
  "(using their userId).\n" ++
  "            The response should be in JSON format like:\n" ++
  "            \x7b\"narrative\": \"...\", \"stats_update\": \x7b\"userId123\": " ++
  "\x7b\"health\": 90, \"gold\": 10, \"inventory_add\": [\"Potion\"]\x7d, \"userId456\": " ++
  "\x7b\"health\": 100, \"inventory_remove\": [\"Old Map\"], \"inventory_equip\": " ++
  "\x7b\"item\": \"Sword\", \"slot\": \"main_hand\"\x7d\x7d\x7d, \"options\": [\"Option 1\", " ++
  "\"Option 2\"]\x7d\n" ++
  "            If no stats update for a player, omit their userId. If no " ++
  "stats update at all, omit \x27stats_update\x27. If no options, omit " ++
  "\x27options\x27.\n" ++
  "            Ensure the JSON is properly formatted within your " ++
  "response for programmatic parsing.\n" ++
  "            Now, based on the previous conversation and the player\x27s " ++
  "last action, continue the story, describe the outcome, and suggest " ++
  "next actions if applicable.\n" ++
  "            "

/-- Text of the world-builder context message before the request (App.js 528). -/
def worldBuilderOpening : String :=
  "You are a creative world builder. Generate a detailed, imaginative " ++
  "description for the following request: \""

/-- Text of the world-builder context message after the request (App.js 528). -/
def worldBuilderClosing : String :=
  "\". Focus on atmosphere, key features, and unique elements. Do not " ++
  "include any game choices or stats."

/-- Text of the creative-writer context message before the prompt (App.js 537). -/
def creativeWriterOpening : String :=
  "You are a collaborative storyteller and creative writer. Continue the " ++
  "narrative or generate new story content based on the following prompt " ++
  "or previous text: \""

/-- Text of the creative-writer context message after the prompt (App.js 537). -/
def creativeWriterClosing : String :=
  "\". Focus purely on engaging narrative, character development, and " ++
  "world-building. Do not include game choices, stats updates, or any " ++
  "game mechanics. Your response should be a compelling story " ++
  "continuation."

/-- The variable `contextMessageContent` once the mode branches have run
(App.js 527-560).  Every mode other than the two single-shot modes takes the game
branch. -/
def contextMessageContent (mode specificPrompt : String) (userId : Option String)
    (currentWorldSetting : WorldSetting) (allPlayerCharacters : PlayerCharacterMap) :
    String :=
  if mode = "worldBuilder" then
    worldBuilderOpening ++ specificPrompt ++ worldBuilderClosing
  else if mode = "creativeWriter" then
    creativeWriterOpening ++ specificPrompt ++ creativeWriterClosing
  else
    "You are an AI Dungeon Master. The current players and their stats are:\n" ++
    allPlayersInfo userId allPlayerCharacters ++ "\n\n" ++
    "The player whose last action this is from is " ++ currentWorldSetting.playerName ++
    " (" ++ currentWorldSetting.characterType ++ gameInstructions

/-- One element of `parts`. -/
structure Part where
  text : JVal

/-- One element of `promptMessages`. -/
structure Content where
  role : String
  parts : List Part

/-- The variable `promptMessages` once the mode branches have run (App.js 523-611). -/
def promptMessages (mode specificPrompt : String) (userId : Option String)
    (currentChatHistory : List ChatEntry) (currentWorldSetting : WorldSetting)
    (allPlayerCharacters : PlayerCharacterMap) : List Content :=
  let context : Content :=
    { role := "user"
      parts := [{ text := .str (contextMessageContent mode specificPrompt userId
        currentWorldSetting allPlayerCharacters) }] }
  if mode = "worldBuilder" then [context]
  else if mode = "creativeWriter" then [context]
  else context :: currentChatHistory.map (fun msg => { role := msg.role, parts := [{ text := msg.text }] })

/-- Schema literal of the two single-shot modes (App.js 529-534, 538-543). -/
def narrativeSchema : JVal :=
  .obj [("type", .str "OBJECT"),
        ("properties", .obj [("narrative", .obj [("type", .str "STRING")])])]

/-- Schema literal `{ type: t }`. -/
def typeSchema (t : String) : JVal :=
  .obj [("type", .str t)]

/-- Schema literal of an array of strings. -/
def stringArraySchema : JVal :=
  .obj [("type", .str "ARRAY"), ("items", typeSchema "STRING")]

/-- Schema literal of the game mode (App.js 561-606). -/
def gameSchema : JVal :=
  .obj [("type", .str "OBJECT"),
        ("properties", .obj
          [("narrative", typeSchema "STRING"),
           ("stats_update", .obj
             [("type", .str "OBJECT"),
              ("patternProperties", .obj
                [("^[a-zA-Z0-9]+$", .obj
                  [("type", .str "OBJECT"),
                   ("properties", .obj
                     [("health", typeSchema "NUMBER"),
                      ("gold", typeSchema "NUMBER"),
                      ("experience", typeSchema "NUMBER"),
                      ("inventory_add", stringArraySchema),
                      ("inventory_remove", stringArraySchema),
                      ("inventory_equip", .obj
                        [("type", .str "OBJECT"),
                         ("properties", .obj
                           [("item", typeSchema "STRING"), ("slot", typeSchema "STRING")]),
                         ("required", .arr [.str "item", .str "slot"])]),
                      ("inventory_unequip", typeSchema "STRING"),
                      ("location", typeSchema "STRING")]),
                   ("additionalProperties", .bool false)])]),
              ("additionalProperties", .bool false)]),
           ("options", stringArraySchema)]),
        ("propertyOrdering", .arr [.str "narrative", .str "stats_update", .str "options"])]

/-- The variable `responseSchema` once the mode branches have run (App.js 525-606). -/
def responseSchema (mode : String) : JVal :=
  if mode = "worldBuilder" then narrativeSchema
  else if mode = "creativeWriter" then narrativeSchema
  else gameSchema

/-- JSON value of a message. -/
def Content.toJSON (c : Content) : JVal :=
  .obj [("role", .str c.role), ("parts", .arr (c.parts.map (fun p => .obj [("text", p.text)])))]

/-- The object `payload` whose JSON text is the body of the request (App.js 613-622). -/
def payload (mode specificPrompt : String) (userId : Option String)
    (currentChatHistory : List ChatEntry) (currentWorldSetting : WorldSetting)
    (allPlayerCharacters : PlayerCharacterMap) : JVal :=
  .obj [("contents", .arr ((promptMessages mode specificPrompt userId currentChatHistory
          currentWorldSetting allPlayerCharacters).map Content.toJSON)),
        ("generationConfig", .obj
          [("temperature", .num 7 (-1)), ("topK", .num 40 0), ("topP", .num 95 (-2)),
           ("maxOutputTokens", .num 1024 0)])]

/-! ## Failure of the model call (App.js 624-728) -/

/-- What the request comes back with: the call fails (`fetch` or the decoding of the body
throws), the body has no usable candidate, or the first candidate carries a text. -/
inductive ModelReply where
  | failed
  | noCandidates
  | text (rawJson : String)

/-- Value returned when the body has no usable candidate (App.js 718-720). -/
def emptyResponseResult (currentCharacterStats : CharacterStats) : GeminiResult :=
  { narrative := .str "The AI is confused or returned an empty response."
    updatedStats := currentCharacterStats
    options := .arr []
    allPlayerCharacters := none }

/-- What `callGemini` returns in game mode for each way the request can come back;
`none` when the decoded `stats_update` is outside the data model. -/
def callGeminiOnReply (reply : ModelReply) (allPlayerCharacters : PlayerCharacterMap)
    (userId : Option String) (currentCharacterStats : CharacterStats) : Option GeminiResult :=
  match reply with
  | .failed => some (errorResult currentCharacterStats)
  | .noCandidates => some (emptyResponseResult currentCharacterStats)
  | .text rawJson => callGeminiOnText rawJson allPlayerCharacters userId currentCharacterStats

/-- Member `playerCharacters` of the document, which only the multiplayer shape has. -/
def SessionDocument.playerCharacters : SessionDocument → Option PlayerCharacterMap
  | .multiplayer _ _ playerCharacters _ => some playerCharacters
  | .singlePlayer _ _ _ _ _ => none

/-! ## Document keys (App.js 395-410, 478, 494, 967) -/

/-- The path given to `doc` by the snapshot listener (App.js 396-406); none when the
effect returns before subscribing. -/
def sessionDocRef (st : AppState) (isAuthReady : Bool) : Option String :=
  if isAuthReady = false then none
  else
    match st.userId with
    | none => none
    | some userId =>
      if userId = "" then none
      else if st.isMultiplayer = true ∧ st.gameCode ≠ "" then
        some ("artifacts/" ++ st.appId ++ "/publicMultiplayerGames/" ++ st.gameCode)
      else
        some ("artifacts/" ++ st.appId ++ "/users/" ++ userId ++ "/gameSessions/" ++
          st.sessionId)

/-- The path of `gameDocRef` in `handleJoinGame` (App.js 967): a collection path and the
entered game code as a further segment.  Whether the store accepts the path is outside
this model. -/
def gameDocRef (appId enteredGameCode : String) : String :=
  "artifacts/" ++ appId ++ "/public/multiplayerGames" ++ "/" ++ enteredGameCode

/-- Segments of a path: the non-empty parts between slashes. -/
def pathSegments (path : String) : List String :=
  ((path.toList.splitOn '/').filter (fun segment => segment ≠ [])).map String.mk

/-! ## `handleJoinGame` (App.js 950-1021) -/

/-- The fields of the game document that `handleJoinGame` reads; `none` is an absent
member. -/
structure GameData where
  playerCharacters : Option PlayerCharacterMap
  chatHistory : Option (List ChatEntry)
  currentOptions : Option JVal

/-- The call `updateDoc(gameDocRef, ...)` of App.js 999-1003: the new player map, the
element given to `arrayUnion`, and the clock reading. -/
structure JoinUpdate where
  docRef : String
  playerCharacters : PlayerCharacterMap
  joined : ChatEntry
  lastUpdated : Nat

/-- What a run of `handleJoinGame` leaves behind: the path it read if it read one, the
update it made if it made one, and the player map, stats, setting, game code and
multiplayer flag of the React state. -/
structure JoinOutcome where
  read : Option String
  update : Option JoinUpdate
  playerCharacters : PlayerCharacterMap
  characterStats : CharacterStats
  worldSetting : WorldSetting
  gameCode : String
  isMultiplayer : Bool

/-- The chat entry announcing a player (App.js 1001, 1006). -/
def joinedEntry (worldSetting : WorldSetting) : ChatEntry :=
  { role := "system"
    text := .str (worldSetting.playerName ++ " (" ++ worldSetting.characterType ++
      ") has joined the game!") }

/-- The handler `handleJoinGame` (App.js 950-1021).  `joinGameInput` is the text of the
input field, `enteredGameCode` the value of `joinGameInput.trim().toUpperCase()`, and
`docSnap` the data of the document read by `getDoc`, none when it does not exist. -/
def handleJoinGame (st : AppState) (joinGameInput enteredGameCode : String)
    (docSnap : Option GameData) : JoinOutcome :=
  if isBlank joinGameInput = true then
    { read := none, update := none, playerCharacters := st.playerCharacters,
      characterStats := st.characterStats, worldSetting := st.worldSetting,
      gameCode := st.gameCode, isMultiplayer := st.isMultiplayer }
  else if st.worldSetting.playerName = "" ∨ st.worldSetting.characterType = "" ∨
      st.worldSetting.worldType = "" then
    { read := none, update := none, playerCharacters := st.playerCharacters,
      characterStats := st.characterStats, worldSetting := st.worldSetting,
      gameCode := st.gameCode, isMultiplayer := st.isMultiplayer }
  else
    match docSnap with
    | some gameData =>
      let existingPlayers := gameData.playerCharacters.getD []
      match readProp existingPlayers (propertyKey st.userId) with
      | .own record =>
        { read := some (gameDocRef st.appId enteredGameCode), update := none,
          playerCharacters := existingPlayers, characterStats := record.stats,
          worldSetting := record.setting, gameCode := enteredGameCode, isMultiplayer := true }
      | .inherited =>
        { read := some (gameDocRef st.appId enteredGameCode), update := none,
          playerCharacters := existingPlayers, characterStats := st.characterStats,
          worldSetting := st.worldSetting, gameCode := enteredGameCode, isMultiplayer := true }
      | .undefined =>
        let updatedPlayerCharacters := setOwn existingPlayers (propertyKey st.userId)
          { stats := st.characterStats, setting := st.worldSetting }
        { read := some (gameDocRef st.appId enteredGameCode)
          update := some
            { docRef := gameDocRef st.appId enteredGameCode
              playerCharacters := updatedPlayerCharacters
              joined := joinedEntry st.worldSetting
              lastUpdated := st.now }
          playerCharacters := updatedPlayerCharacters, characterStats := st.characterStats,
          worldSetting := st.worldSetting, gameCode := enteredGameCode, isMultiplayer := true }
    | none =>
      { read := some (gameDocRef st.appId enteredGameCode), update := none,
        playerCharacters := st.playerCharacters, characterStats := st.characterStats,
        worldSetting := st.worldSetting, gameCode := "", isMultiplayer := false }

/-! ## Items held by a player -/

/-- All items a player holds: the entries of the inventory followed by the values of
`equipped_items`. -/
def heldItems (s : CharacterStats) : List Item :=
  s.inventory ++ s.equipped_items.map (fun kv => Item.name kv.2)

/-! ## Own-property lemmas -/

/-- Own-property read on a non-empty property list. -/
theorem getOwn_cons {α : Type} (k0 : String) (w : α) (rest : List (String × α)) (k : String) :
    getOwn ((k0, w) :: rest) k = if k0 = k then some w else getOwn rest k := rfl

/-- A key reads nothing exactly when no entry carries it. -/
theorem getOwn_eq_none_iff {α : Type} (o : List (String × α)) (key : String) :
    getOwn o key = none ↔ ∀ kv ∈ o, kv.1 ≠ key := by
  induction o with
  | nil => simp [getOwn]
  | cons kv rest ih =>
    obtain ⟨k0, w⟩ := kv
    by_cases h : k0 = key
    · simp [getOwn_cons, h]
    · simp [getOwn_cons, h, ih]

/-- Reads after `replaceOwn`: the key reads the new value if it was present, every other key reads as before. -/
theorem getOwn_replaceOwn {α : Type} (o : List (String × α)) (key : String) (v : α)
    (k : String) :
    getOwn (replaceOwn o key v) k =
      if k = key then (getOwn o key).map (fun _ => v) else getOwn o k := by
  induction o with
  | nil => simp [replaceOwn, getOwn]
  | cons kv rest ih =>
    obtain ⟨k0, w⟩ := kv
    by_cases h0 : k0 = key
    · subst h0
      by_cases hk : k = k0
      · subst hk; simp [replaceOwn, getOwn]
      · have hk2 : ¬ k0 = k := fun h => hk h.symm
        simp [replaceOwn, getOwn, hk, hk2]
    · by_cases hk : k = key
      · subst hk
        simp [replaceOwn, getOwn, h0, ih]
      · by_cases hk0 : k0 = k
        · simp [replaceOwn, getOwn, h0, hk, hk0]
        · simp [replaceOwn, getOwn, h0, hk, hk0, ih]

/-- Reads after a new key is appended. -/
theorem getOwn_append_single {α : Type} (o : List (String × α)) (key : String) (v : α)
    (k : String) (hnew : getOwn o key = none) :
    getOwn (o ++ [(key, v)]) k = if k = key then some v else getOwn o k := by
  induction o with
  | nil =>
    by_cases h : k = key
    · subst h; simp [getOwn]
    · have h2 : ¬ key = k := fun e => h e.symm
      simp [getOwn, h, h2]
  | cons kv rest ih =>
    obtain ⟨k0, w⟩ := kv
    rw [getOwn_cons] at hnew
    by_cases h0 : k0 = key
    · simp [h0] at hnew
    · simp only [h0, if_false] at hnew
      have ih2 := ih hnew
      by_cases hk : k = key
      · subst hk
        simp only [List.cons_append, getOwn_cons, h0, if_false, ih2, if_true]
      · by_cases hk0 : k0 = k
        · simp [getOwn_cons, hk0, hk]
        · simp only [List.cons_append, getOwn_cons, hk0, if_false, ih2, hk]

/-- Reads after a new array-index key is inserted at its place. -/
theorem getOwn_insertIndexed {α : Type} (n : Nat) (key : String) (v : α)
    (o : List (String × α)) (k : String) (hnew : getOwn o key = none) :
    getOwn (insertIndexed n key v o) k = if k = key then some v else getOwn o k := by
  induction o with
  | nil =>
    by_cases h : k = key
    · subst h; simp [insertIndexed, getOwn]
    · have h2 : ¬ key = k := fun e => h e.symm
      simp [insertIndexed, getOwn, h, h2]
  | cons kv rest ih =>
    obtain ⟨k0, w⟩ := kv
    have hhead : ∀ k, getOwn ((key, v) :: (k0, w) :: rest) k =
        if k = key then some v else getOwn ((k0, w) :: rest) k := by
      intro k
      by_cases h : k = key
      · subst h; simp [getOwn_cons]
      · have h2 : ¬ key = k := fun e => h e.symm
        simp [getOwn_cons, h, h2]
    rw [getOwn_cons] at hnew
    by_cases h0 : k0 = key
    · simp [h0] at hnew
    · simp only [h0, if_false] at hnew
      have ih2 := ih hnew
      unfold insertIndexed
      cases hidx : arrayIndex k0 with
      | none => exact hhead k
      | some i =>
        by_cases hlt : i < n
        · simp only [hlt, if_true]
          by_cases hk : k = key
          · subst hk
            simp only [getOwn_cons, h0, if_false, ih2, if_true]
          · by_cases hk0 : k0 = k
            · simp [getOwn_cons, hk0, hk]
            · simp only [getOwn_cons, hk0, if_false, ih2, hk]
        · simp only [hlt, if_false]
          exact hhead k

/-- After `setOwn` the key reads the new value and every other key reads as before. -/
theorem getOwn_setOwn {α : Type} (o : List (String × α)) (key : String) (v : α) (k : String) :
    getOwn (setOwn o key v) k = if k = key then some v else getOwn o k := by
  unfold setOwn
  cases hget : getOwn o key with
  | some w =>
    simp only [getOwn_replaceOwn, hget, Option.map_some']
  | none =>
    cases hidx : arrayIndex key with
    | none => exact getOwn_append_single o key v k hget
    | some n => exact getOwn_insertIndexed n key v o k hget

/-- A one-entry update for a player the map owns completes, and that player's record
is the prior record with the loop body applied to its stats. -/
theorem recordAfter_known (m : PlayerCharacterMap) (id : String) (r : PlayerRecord)
    (u : PlayerUpdate) (hk : getOwn m id = some r) :
    recordAfter m [(id, u)] id = some { r with stats := applyPlayerUpdate r.stats u } := by
  simp [recordAfter, reconcile, reconcileStep, readProp, hk, getOwn_replaceOwn]

/-- `deleteOwn` on a non-empty property list. -/
theorem deleteOwn_cons {α : Type} (k0 : String) (w : α) (rest : List (String × α))
    (key : String) :
    deleteOwn ((k0, w) :: rest) key =
      if k0 = key then deleteOwn rest key else (k0, w) :: deleteOwn rest key := by
  by_cases h : k0 = key <;> simp [deleteOwn, h]

/-- Reads after `deleteOwn`: the key reads nothing, every other key reads as before. -/
theorem getOwn_deleteOwn {α : Type} (o : List (String × α)) (key k : String) :
    getOwn (deleteOwn o key) k = if k = key then none else getOwn o k := by
  induction o with
  | nil => simp [deleteOwn, getOwn]
  | cons kv rest ih =>
    obtain ⟨k0, w⟩ := kv
    rw [deleteOwn_cons]
    by_cases h0 : k0 = key
    · subst h0
      by_cases hk : k = k0
      · subst hk; simp [ih]
      · have hk2 : ¬ k0 = k := fun e => hk e.symm
        simp [ih, getOwn_cons, hk, hk2]
    · by_cases hk : k = key
      · subst hk
        simp [h0, getOwn_cons, ih]
      · by_cases hk0 : k0 = k
        · simp [h0, getOwn_cons, hk0, hk]
        · simp [h0, getOwn_cons, hk0, ih, hk]

/-- Deleting a key the object does not own changes nothing. -/
theorem deleteOwn_of_absent {α : Type} (o : List (String × α)) (key : String)
    (h : getOwn o key = none) : deleteOwn o key = o := by
  rw [getOwn_eq_none_iff] at h
  unfold deleteOwn
  rw [List.filter_eq_self]
  intro kv hkv
  simpa using h kv hkv

/-- Deleting the key that was just appended. -/
theorem deleteOwn_append_single {α : Type} (o : List (String × α)) (key : String) (v : α) :
    deleteOwn (o ++ [(key, v)]) key = deleteOwn o key := by
  simp [deleteOwn, List.filter_append]

/-- Deleting the array-index key that was just inserted. -/
theorem deleteOwn_insertIndexed {α : Type} (n : Nat) (key : String) (v : α)
    (o : List (String × α)) :
    deleteOwn (insertIndexed n key v o) key = deleteOwn o key := by
  induction o with
  | nil => simp [insertIndexed, deleteOwn]
  | cons kv rest ih =>
    obtain ⟨k0, w⟩ := kv
    unfold insertIndexed
    cases hidx : arrayIndex k0 with
    | none => simp [deleteOwn]
    | some i =>
      by_cases hlt : i < n
      · simp only [hlt, if_true]
        rw [deleteOwn_cons, deleteOwn_cons, ih]
      · simp [hlt, deleteOwn]

/-- Setting a new key and deleting it gives back the object. -/
theorem deleteOwn_setOwn_of_absent {α : Type} (o : List (String × α)) (key : String) (v : α)
    (h : getOwn o key = none) : deleteOwn (setOwn o key v) key = o := by
  unfold setOwn
  rw [h]
  cases hidx : arrayIndex key with
  | none => simp only; rw [deleteOwn_append_single, deleteOwn_of_absent o key h]
  | some n => simp only; rw [deleteOwn_insertIndexed, deleteOwn_of_absent o key h]

/-- A key that reads a value is among the own keys. -/
theorem mem_ownKeys_of_getOwn {α : Type} (o : List (String × α)) (k : String) (v : α)
    (h : getOwn o k = some v) : k ∈ ownKeys o := by
  induction o with
  | nil => simp [getOwn] at h
  | cons kv rest ih =>
    obtain ⟨k0, w⟩ := kv
    rw [getOwn_cons] at h
    by_cases h0 : k0 = k
    · simp [ownKeys, h0]
    · simp only [h0, if_false] at h
      have := ih h
      simp only [ownKeys, List.map_cons, List.mem_cons] at this ⊢
      exact Or.inr this

/-- The slot found holds the item. -/
theorem equippedSlot_holds (equipped : List (String × String)) (x slot : String)
    (h : equippedSlot equipped x = some slot) : getOwn equipped slot = some x := by
  unfold equippedSlot at h
  have := List.find?_some h
  simpa using this

/-- No slot is found when no slot holds the item. -/
theorem equippedSlot_eq_none (equipped : List (String × String)) (x : String)
    (h : ∀ k, getOwn equipped k ≠ some x) : equippedSlot equipped x = none := by
  unfold equippedSlot
  rw [List.find?_eq_none]
  intro k _
  simpa using h k

/-- A slot is found when some slot holds the item. -/
theorem equippedSlot_isSome (equipped : List (String × String)) (x k : String)
    (h : getOwn equipped k = some x) : ∃ slot, equippedSlot equipped x = some slot := by
  cases hfind : equippedSlot equipped x with
  | some slot => exact ⟨slot, rfl⟩
  | none =>
    unfold equippedSlot at hfind
    rw [List.find?_eq_none] at hfind
    have := hfind k (mem_ownKeys_of_getOwn equipped k x h)
    simp [h] at this

/-! ## Response Parser: claims C1 - C3 -/

/-- The parser stage raises whenever the candidate document decodes to `null`. -/
theorem responseParser_of_decoded_null (rawJson : String)
    (h : JSON.parse (jsonText rawJson) = some .null) :
    responseParser rawJson = .error .typeError := by
  simp [responseParser, parsedResponse, h, member]

/-- The parser stage completes whenever the candidate document does not decode to
`null`. -/
theorem responseParser_ok_of_not_null (rawJson : String)
    (h : JSON.parse (jsonText rawJson) ≠ some .null) :
    ∃ p, responseParser rawJson = .ok p := by
  unfold responseParser parsedResponse
  cases hparse : JSON.parse (jsonText rawJson) with
  | none => simp [fallbackResponse, member]
  | some v =>
    cases v with
    | null => exact absurd hparse h
    | bool b => simp [member]
    | num a b => simp [member]
    | str t => simp [member]
    | arr items => simp [member]
    | obj members => simp [member]

/-- C1 (evaluation at the failing input): the raw text `null` has no brace candidate, is
valid JSON and decodes to `null`; reading `parsedResponse.narrative` then raises a
TypeError that only the outer `catch` of `callGemini` handles: the error path.  The other
two texts named by the claim, `123` and `true`, go through to the field defaults. -/
theorem C1_null_text_reaches_error_path :
    jsonText "null" = "null" ∧ JSON.parse "null" = some .null ∧
    responseParser "null" = .error .typeError ∧
    responseParser "123" =
      .ok { narrative := .str "The story continues...", stats_update := .obj [],
            options := .arr [] } ∧
    responseParser "true" =
      .ok { narrative := .str "The story continues...", stats_update := .obj [],
            options := .arr [] } :=
  ⟨by decide, rfl, rfl, rfl, rfl⟩

/-- C2 (counterexample): the empty raw text cannot be decoded, yet the narrative returned
is not the raw text: the fallback narrative `""` is falsy and `||` replaces it. -/
theorem C2_counterexample_empty_text :
    JSON.parse (jsonText "") = none ∧
    responseParser "" ≠
      .ok { narrative := .str "", stats_update := .obj [], options := .arr [] } := by
  refine ⟨rfl, ?_⟩
  have h : responseParser "" =
      .ok { narrative := .str "The story continues...", stats_update := .obj [],
            options := .arr [] } := rfl
  rw [h]
  simp

/-- C2 (amended): for every raw text whose candidate document cannot be decoded, the
parser returns the empty mapping, the empty sequence, and as narrative the entire raw
text when that text is non-empty, the placeholder when it is empty. -/
theorem C2_undecodable_text (rawJson : String) (hfail : JSON.parse (jsonText rawJson) = none) :
    responseParser rawJson =
      .ok { narrative := if rawJson = "" then .str "The story continues..." else .str rawJson
            stats_update := .obj []
            options := .arr [] } := by
  by_cases h : rawJson = ""
  · subst h; rfl
  · simp [responseParser, parsedResponse, hfail, fallbackResponse, member, getOwn, orDefault,
      JVal.toBoolean, h]

/-- C2, at the non-JSON text of the spec. -/
theorem C2_undecodable_text_witness :
    JSON.parse (jsonText "The dragon roars menacingly.") = none ∧
    responseParser "The dragon roars menacingly." =
      .ok { narrative := .str "The dragon roars menacingly.", stats_update := .obj [],
            options := .arr [] } :=
  ⟨rfl, C2_undecodable_text "The dragon roars menacingly." rfl⟩

/-- C3 (counterexample): a fenced object with the narrative `""` and options; the
narrative returned is the placeholder, not the narrative of the object. -/
theorem C3_counterexample_empty_narrative :
    jsonMatch "```json\n\x7b\"narrative\":\"\",\"options\":[\"Go left\"]\x7d\n```" =
      some "\x7b\"narrative\":\"\",\"options\":[\"Go left\"]\x7d" ∧
    JSON.parse "\x7b\"narrative\":\"\",\"options\":[\"Go left\"]\x7d" =
      some (.obj [("narrative", .str ""), ("options", .arr [.str "Go left"])]) ∧
    responseParser "```json\n\x7b\"narrative\":\"\",\"options\":[\"Go left\"]\x7d\n```" ≠
      .ok { narrative := .str "", stats_update := .obj [], options := .arr [.str "Go left"] } := by
  refine ⟨by decide, rfl, ?_⟩
  have h : responseParser "```json\n\x7b\"narrative\":\"\",\"options\":[\"Go left\"]\x7d\n```" =
      .ok { narrative := .str "The story continues...", stats_update := .obj [],
            options := .arr [.str "Go left"] } := rfl
  rw [h]
  simp

/-- C3 (amended): when the text from the first opening brace to the last closing brace
decodes to an object with a narrative string, an options array and no stats_update, the
parser returns those options, the empty mapping, and as narrative the narrative of the
object when that is non-empty, the placeholder when it is empty. -/
theorem C3_wrapped_object (rawJson candidate : String) (members : List (String × JVal))
    (narrative : String) (options : List JVal)
    (hmatch : jsonMatch rawJson = some candidate)
    (hdecode : JSON.parse candidate = some (.obj members))
    (hnarrative : getOwn members "narrative" = some (.str narrative))
    (hoptions : getOwn members "options" = some (.arr options))
    (hstats : getOwn members "stats_update" = none) :
    responseParser rawJson =
      .ok { narrative := if narrative = "" then .str "The story continues..." else .str narrative
            stats_update := .obj []
            options := .arr options } := by
  by_cases h : narrative = ""
  · simp [responseParser, parsedResponse, jsonText, hmatch, hdecode, member, hnarrative,
      hoptions, hstats, orDefault, JVal.toBoolean, h]
  · simp [responseParser, parsedResponse, jsonText, hmatch, hdecode, member, hnarrative,
      hoptions, hstats, orDefault, JVal.toBoolean, h]

/-- C3, at the fenced input of the spec. -/
theorem C3_wrapped_object_witness :
    responseParser
        "Sure! ```json\n\x7b\"narrative\":\"You enter a cave.\",\"options\":[\"Go left\",\"Go right\"]\x7d\n```" =
      .ok { narrative := .str "You enter a cave.", stats_update := .obj [],
            options := .arr [.str "Go left", .str "Go right"] } :=
  C3_wrapped_object
    "Sure! ```json\n\x7b\"narrative\":\"You enter a cave.\",\"options\":[\"Go left\",\"Go right\"]\x7d\n```"
    "\x7b\"narrative\":\"You enter a cave.\",\"options\":[\"Go left\",\"Go right\"]\x7d"
    [("narrative", .str "You enter a cave."), ("options", .arr [.str "Go left", .str "Go right"])]
    "You enter a cave." [.str "Go left", .str "Go right"]
    (by decide) rfl rfl rfl rfl

/-! ## Stat Reconciler: lemmas -/

/-- The add step writes the inventory only. -/
theorem applyAdd_frame (s : CharacterStats) (u : PlayerUpdate) :
    (applyAdd s u).health = s.health ∧ (applyAdd s u).gold = s.gold ∧
    (applyAdd s u).experience = s.experience ∧ (applyAdd s u).location = s.location ∧
    (applyAdd s u).equipped_items = s.equipped_items := by
  unfold applyAdd; cases u.inventory_add <;> simp

/-- The remove step writes the inventory only. -/
theorem applyRemove_frame (s : CharacterStats) (u : PlayerUpdate) :
    (applyRemove s u).health = s.health ∧ (applyRemove s u).gold = s.gold ∧
    (applyRemove s u).experience = s.experience ∧ (applyRemove s u).location = s.location ∧
    (applyRemove s u).equipped_items = s.equipped_items := by
  unfold applyRemove; cases u.inventory_remove <;> simp

/-- The equip step writes no scalar field. -/
theorem applyEquip_frame (s : CharacterStats) (u : PlayerUpdate) :
    (applyEquip s u).health = s.health ∧ (applyEquip s u).gold = s.gold ∧
    (applyEquip s u).experience = s.experience ∧ (applyEquip s u).location = s.location := by
  unfold applyEquip
  cases u.inventory_equip with
  | none => simp
  | some request => simp only; split_ifs <;> simp

/-- The unequip step writes no scalar field. -/
theorem applyUnequip_frame (s : CharacterStats) (u : PlayerUpdate) :
    (applyUnequip s u).health = s.health ∧ (applyUnequip s u).gold = s.gold ∧
    (applyUnequip s u).experience = s.experience ∧ (applyUnequip s u).location = s.location := by
  unfold applyUnequip
  cases u.inventory_unequip with
  | none => simp
  | some x =>
    simp only
    split_ifs
    · cases equippedSlot s.equipped_items x with
      | none => simp
      | some slot => simp only; split_ifs <;> simp
    · simp

/-- Scalar fields after the loop body: the value of the patch when present, the prior value otherwise. -/
theorem applyPlayerUpdate_scalars (s : CharacterStats) (u : PlayerUpdate) :
    (applyPlayerUpdate s u).health = u.health.getD s.health ∧
    (applyPlayerUpdate s u).gold = u.gold.getD s.gold ∧
    (applyPlayerUpdate s u).experience = u.experience.getD s.experience ∧
    (applyPlayerUpdate s u).location = u.location.getD s.location := by
  unfold applyPlayerUpdate
  obtain ⟨h1, h2, h3, h4⟩ := applyUnequip_frame (applyEquip (applyRemove (applyAdd (applyScalars s u) u) u) u) u
  obtain ⟨e1, e2, e3, e4⟩ := applyEquip_frame (applyRemove (applyAdd (applyScalars s u) u) u) u
  obtain ⟨r1, r2, r3, r4, _⟩ := applyRemove_frame (applyAdd (applyScalars s u) u) u
  obtain ⟨a1, a2, a3, a4, _⟩ := applyAdd_frame (applyScalars s u) u
  rw [h1, h2, h3, h4, e1, e2, e3, e4, r1, r2, r3, r4, a1, a2, a3, a4]
  refine ⟨?_, ?_, ?_, ?_⟩
  · cases h : u.health <;> simp [applyScalars, h]
  · cases h : u.gold <;> simp [applyScalars, h]
  · cases h : u.experience <;> simp [applyScalars, h]
  · cases h : u.location <;> simp [applyScalars, h]

/-- Reduction of the loop body for a patch holding only `inventory_equip`. -/
theorem applyPlayerUpdate_equip_only (s : CharacterStats) (request : EquipRequest) :
    applyPlayerUpdate s { inventory_equip := some request } =
      applyEquip s { inventory_equip := some request } := by
  cases s
  simp [applyPlayerUpdate, applyScalars, applyAdd, applyRemove, applyUnequip]

/-- Reduction of the loop body for a patch holding only `inventory_unequip`. -/
theorem applyPlayerUpdate_unequip_only (s : CharacterStats) (x : String) :
    applyPlayerUpdate s { inventory_unequip := some x } =
      applyUnequip s { inventory_unequip := some x } := by
  cases s
  simp [applyPlayerUpdate, applyScalars, applyAdd, applyRemove, applyEquip]

/-- A non-empty item the slot owns is in the inventory after the push. -/
theorem mem_pushPrevious (s : CharacterStats) (slot previous : String)
    (hprev : getOwn s.equipped_items slot = some previous) (hne : previous ≠ "") :
    Item.name previous ∈ pushPrevious s slot := by
  simp [pushPrevious, readProp, hprev, hne]

/-- When no slot holds `x`, the slot found after equipping `x` into `slot` is `slot`. -/
theorem equippedSlot_setOwn_of_free (equipped : List (String × String)) (x slot : String)
    (hfree : ∀ k, getOwn equipped k ≠ some x) :
    equippedSlot (setOwn equipped slot x) x = some slot := by
  obtain ⟨k, hk⟩ := equippedSlot_isSome (setOwn equipped slot x) x slot (by simp [getOwn_setOwn])
  have hholds := equippedSlot_holds _ x k hk
  rw [getOwn_setOwn] at hholds
  by_cases h : k = slot
  · rw [hk, h]
  · simp only [h, if_false] at hholds
    exact absurd hholds (hfree k)

/-- Nothing is pushed when the slot reads `undefined`. -/
theorem pushPrevious_of_undefined (s : CharacterStats) (slot : String)
    (h : readProp s.equipped_items slot = .undefined) : pushPrevious s slot = s.inventory := by
  simp [pushPrevious, h]

/-- A key that reads `undefined` is not an own key. -/
theorem getOwn_of_readProp_undefined {α : Type} (o : List (String × α)) (key : String)
    (h : readProp o key = .undefined) : getOwn o key = none := by
  unfold readProp at h
  cases hget : getOwn o key with
  | none => rfl
  | some v => rw [hget] at h; cases h

/-! ### The loop over several entries -/

/-- An iteration for a player the map owns completes and rewrites that player's stats. -/
theorem reconcileStep_known (m : PlayerCharacterMap) (id : String) (u : PlayerUpdate)
    (r : PlayerRecord) (hk : getOwn m id = some r) :
    reconcileStep m id u =
      .ok (replaceOwn m id { r with stats := applyPlayerUpdate r.stats u }) := by
  simp [reconcileStep, readProp, hk]

/-- An iteration leaves the record of every other player as it was. -/
theorem getOwn_reconcileStep_of_ne (m m1 : PlayerCharacterMap) (id k : String)
    (u : PlayerUpdate) (h : reconcileStep m id u = .ok m1) (hne : k ≠ id) :
    getOwn m1 k = getOwn m k := by
  unfold reconcileStep at h
  cases hread : readProp m id with
  | own record =>
    rw [hread] at h
    simp only [Except.ok.injEq] at h
    rw [← h, getOwn_replaceOwn, if_neg hne]
  | inherited =>
    rw [hread] at h
    by_cases ht : touchesStats u = true
    · simp [ht] at h
    · simp only [ht] at h
      simp only [Bool.false_eq_true, if_false, Except.ok.injEq] at h
      rw [h]
  | undefined =>
    rw [hread] at h
    simp only [Except.ok.injEq] at h
    rw [h]

/-- The completed loop leaves the record of every player without an entry as it was. -/
theorem getOwn_reconcile_of_not_mem (upd : StatsUpdate) (m m1 : PlayerCharacterMap)
    (k : String) (h : reconcile m upd = .ok m1) (hk : k ∉ ownKeys upd) :
    getOwn m1 k = getOwn m k := by
  induction upd generalizing m with
  | nil =>
    simp only [reconcile, Except.ok.injEq] at h
    rw [h]
  | cons entry rest ih =>
    obtain ⟨id, u⟩ := entry
    simp only [ownKeys, List.map_cons, List.mem_cons, not_or] at hk
    unfold reconcile at h
    cases hstep : reconcileStep m id u with
    | error e => rw [hstep] at h; cases h
    | ok m2 =>
      rw [hstep] at h
      rw [ih m2 h hk.2, getOwn_reconcileStep_of_ne m m2 id k u hstep hk.1]

/-- The completed loop, over entries with distinct ids, leaves the record of a player the
map owns with the loop body applied to its stats under that player's patch. -/
theorem getOwn_reconcile_of_mem (upd : StatsUpdate) (m m1 : PlayerCharacterMap)
    (id : String) (u : PlayerUpdate) (r : PlayerRecord)
    (h : reconcile m upd = .ok m1) (hnodup : (ownKeys upd).Nodup) (hmem : (id, u) ∈ upd)
    (hk : getOwn m id = some r) :
    getOwn m1 id = some { r with stats := applyPlayerUpdate r.stats u } := by
  induction upd generalizing m with
  | nil => cases hmem
  | cons entry rest ih =>
    obtain ⟨id0, u0⟩ := entry
    simp only [ownKeys, List.map_cons, List.nodup_cons] at hnodup
    unfold reconcile at h
    cases hstep : reconcileStep m id0 u0 with
    | error e => rw [hstep] at h; cases h
    | ok m2 =>
      rw [hstep] at h
      rcases List.mem_cons.1 hmem with heq | hrest
      · simp only [Prod.mk.injEq] at heq
        obtain ⟨hid, hu⟩ := heq
        subst hid; subst hu
        rw [reconcileStep_known m id u r hk] at hstep
        simp only [Except.ok.injEq] at hstep
        rw [getOwn_reconcile_of_not_mem rest m2 m1 id h hnodup.1, ← hstep, getOwn_replaceOwn]
        simp [hk]
      · have hne : id ≠ id0 := by
          intro e
          apply hnodup.1
          rw [← e]
          exact List.mem_map_of_mem Prod.fst hrest
        have hk2 : getOwn m2 id = some r := by
          rw [getOwn_reconcileStep_of_ne m m2 id0 id u0 hstep hne, hk]
        exact ih m2 h hnodup.2 hrest hk2

/-! ### The Set of `inventory_add` -/

/-- Unfolding of `setSpread`. -/
theorem setSpread_eq_foldl (xs : List Item) :
    setSpread xs = xs.foldl (fun seen x => if x ∈ seen then seen else seen ++ [x]) [] := rfl

/-- Adding elements to a Set only extends its insertion order. -/
theorem setAdd_extends (l acc : List Item) :
    ∃ t, l.foldl (fun seen x => if x ∈ seen then seen else seen ++ [x]) acc = acc ++ t := by
  induction l generalizing acc with
  | nil => exact ⟨[], by simp⟩
  | cons x xs ih =>
    simp only [List.foldl_cons]
    by_cases h : x ∈ acc
    · simp only [h, if_true]; exact ih acc
    · simp only [h, if_false]
      obtain ⟨t, ht⟩ := ih (acc ++ [x])
      exact ⟨x :: t, by rw [ht]; simp⟩

/-- Elements of a Set after adding a list: those it had and those of the list. -/
theorem mem_setAdd (l acc : List Item) (y : Item) :
    y ∈ l.foldl (fun seen x => if x ∈ seen then seen else seen ++ [x]) acc ↔ y ∈ acc ∨ y ∈ l := by
  induction l generalizing acc with
  | nil => simp
  | cons x xs ih =>
    simp only [List.foldl_cons]
    by_cases h : x ∈ acc
    · simp only [h, if_true, ih, List.mem_cons]
      constructor
      · rintro (h1 | h1)
        · exact Or.inl h1
        · exact Or.inr (Or.inr h1)
      · rintro (h1 | h1 | h1)
        · exact Or.inl h1
        · exact Or.inl (h1 ▸ h)
        · exact Or.inr h1
    · simp only [h, if_false, ih, List.mem_append, List.mem_singleton, List.mem_cons]
      tauto

/-- A Set stays free of repetitions. -/
theorem nodup_setAdd (l acc : List Item) (hacc : acc.Nodup) :
    (l.foldl (fun seen x => if x ∈ seen then seen else seen ++ [x]) acc).Nodup := by
  induction l generalizing acc with
  | nil => simpa using hacc
  | cons x xs ih =>
    simp only [List.foldl_cons]
    by_cases h : x ∈ acc
    · simp only [h, if_true]; exact ih acc hacc
    · simp only [h, if_false]
      apply ih
      rw [List.nodup_append]
      refine ⟨hacc, List.nodup_singleton x, ?_⟩
      intro a ha hax
      rw [List.mem_singleton] at hax
      exact h (hax ▸ ha)

/-- Adding elements the Set already has changes nothing. -/
theorem setAdd_of_subset (l acc : List Item) (h : ∀ x ∈ l, x ∈ acc) :
    l.foldl (fun seen x => if x ∈ seen then seen else seen ++ [x]) acc = acc := by
  induction l generalizing acc with
  | nil => rfl
  | cons x xs ih =>
    simp only [List.foldl_cons]
    have hx : x ∈ acc := h x (List.mem_cons_self x xs)
    simp only [hx, if_true]
    exact ih acc (fun y hy => h y (List.mem_cons_of_mem x hy))

/-- Adding distinct new elements appends them in order. -/
theorem setAdd_of_nodup (l acc : List Item) (hl : l.Nodup) (hdisj : ∀ x ∈ l, x ∉ acc) :
    l.foldl (fun seen x => if x ∈ seen then seen else seen ++ [x]) acc = acc ++ l := by
  induction l generalizing acc with
  | nil => simp
  | cons x xs ih =>
    simp only [List.foldl_cons]
    have hx : x ∉ acc := hdisj x (List.mem_cons_self x xs)
    simp only [hx, if_false]
    rw [List.nodup_cons] at hl
    rw [ih (acc ++ [x]) hl.2]
    · simp
    · intro y hy
      simp only [List.mem_append, List.mem_singleton, not_or]
      refine ⟨hdisj y (List.mem_cons_of_mem x hy), ?_⟩
      intro e
      exact hl.1 (e ▸ hy)

/-- `setSpread` keeps exactly the elements of the list. -/
theorem mem_setSpread (xs : List Item) (y : Item) : y ∈ setSpread xs ↔ y ∈ xs := by
  rw [setSpread_eq_foldl, mem_setAdd]; simp

/-- `setSpread` has no repeated element. -/
theorem nodup_setSpread (xs : List Item) : (setSpread xs).Nodup :=
  nodup_setAdd xs [] List.nodup_nil

/-- `setSpread` returns a list without repetitions unchanged. -/
theorem setSpread_of_nodup (xs : List Item) (h : xs.Nodup) : setSpread xs = xs := by
  rw [setSpread_eq_foldl, setAdd_of_nodup xs [] h (fun _ _ => List.not_mem_nil _)]; simp

/-- `setSpread` of a concatenation: the second list is added to the Set of the first. -/
theorem setSpread_append (xs ys : List Item) :
    setSpread (xs ++ ys) =
      ys.foldl (fun seen x => if x ∈ seen then seen else seen ++ [x]) (setSpread xs) := by
  simp [setSpread_eq_foldl, List.foldl_append]

/-- The first occurrence of `x` is kept, behind exactly the elements seen before it. -/
theorem setSpread_first_occurrence (before later : List Item) (x : Item) (hx : x ∉ before) :
    ∃ kept rest, setSpread (before ++ x :: later) = kept ++ x :: rest ∧
      ∀ y, y ∈ kept ↔ y ∈ before := by
  rw [setSpread_append]
  simp only [List.foldl_cons]
  have hx2 : x ∉ setSpread before := fun h => hx ((mem_setSpread before x).1 h)
  simp only [hx2, if_false]
  obtain ⟨t, ht⟩ := setAdd_extends later (setSpread before ++ [x])
  refine ⟨setSpread before, t, ?_, mem_setSpread before⟩
  rw [ht]; simp

/-- Appending elements already present and rebuilding the Set changes nothing. -/
theorem setSpread_absorb (xs ys : List Item) (h : ∀ y ∈ ys, y ∈ xs) :
    setSpread (setSpread xs ++ ys) = setSpread xs := by
  rw [setSpread_append, setSpread_of_nodup _ (nodup_setSpread xs)]
  exact setAdd_of_subset ys _ (fun y hy => (mem_setSpread xs y).2 (h y hy))

/-- Reduction of the loop body for a patch holding only `inventory_add`. -/
theorem applyPlayerUpdate_add_only (s : CharacterStats) (add : List String) :
    applyPlayerUpdate s { inventory_add := some add } =
      { s with inventory := setSpread (s.inventory ++ add.map Item.name) } := by
  cases s
  simp [applyPlayerUpdate, applyScalars, applyAdd, applyRemove, applyEquip, applyUnequip]

/-- Overwriting a key with the value it already has changes nothing. -/
theorem replaceOwn_same {α : Type} (o : List (String × α)) (key : String) (v : α)
    (h : getOwn o key = some v) : replaceOwn o key v = o := by
  induction o with
  | nil => rfl
  | cons kv rest ih =>
    obtain ⟨k0, w⟩ := kv
    rw [getOwn_cons] at h
    by_cases h0 : k0 = key
    · simp only [h0, if_true, Option.some.injEq] at h
      simp [replaceOwn, h0, h]
    · simp only [h0, if_false] at h
      simp [replaceOwn, h0, ih h]

/-- The loop body with an add-only patch, applied twice, equals one application. -/
theorem applyPlayerUpdate_add_twice (s : CharacterStats) (add : List String) :
    applyPlayerUpdate (applyPlayerUpdate s { inventory_add := some add })
        { inventory_add := some add } =
      applyPlayerUpdate s { inventory_add := some add } := by
  rw [applyPlayerUpdate_add_only, applyPlayerUpdate_add_only]
  simp only
  rw [setSpread_absorb]
  intro y hy
  exact List.mem_append_right _ hy

/-! ## Stat Reconciler: claims C4 - C10 -/

/-- C4: for a player the map owns, each of health, gold, experience and location of the
reconciled record is the value of the patch when the patch has that member and the prior
value when it has not; and the patch `{health: 80, inventory_remove: ["Torch"]}` on
health 100 and inventory Torch, Sword gives health 80 and inventory Sword, whatever the
gold, experience, equipped items and location, which are kept. -/
theorem C4_scalar_overwrite (m : PlayerCharacterMap) (id : String) (r : PlayerRecord)
    (u : PlayerUpdate) (hknown : getOwn m id = some r) :
    (∃ r1, recordAfter m [(id, u)] id = some r1 ∧
      r1.stats.health = u.health.getD r.stats.health ∧
      r1.stats.gold = u.gold.getD r.stats.gold ∧
      r1.stats.experience = u.experience.getD r.stats.experience ∧
      r1.stats.location = u.location.getD r.stats.location) ∧
    (∀ (gold experience : Int) (equipped : List (String × String)) (location : String),
      applyPlayerUpdate
        { health := 100, gold := gold, experience := experience,
          inventory := [.name "Torch", .name "Sword"], equipped_items := equipped,
          location := location }
        { health := some 80, inventory_remove := some ["Torch"] } =
      { health := 80, gold := gold, experience := experience, inventory := [.name "Sword"],
        equipped_items := equipped, location := location }) := by
  refine ⟨⟨_, recordAfter_known m id r u hknown, applyPlayerUpdate_scalars r.stats u⟩, ?_⟩
  intro gold experience equipped location
  simp [applyPlayerUpdate, applyScalars, applyAdd, applyRemove, applyEquip, applyUnequip]

/-- C4, at the example of the spec, inside a one-player map. -/
theorem C4_scalar_overwrite_witness :
    getOwn [("p1", examplePlayer [.name "Torch", .name "Sword"] [])] "p1" =
      some (examplePlayer [.name "Torch", .name "Sword"] []) ∧
    recordAfter [("p1", examplePlayer [.name "Torch", .name "Sword"] [])]
        [("p1", { health := some 80, inventory_remove := some ["Torch"] })] "p1" =
      some { stats := { health := 80, gold := 10, experience := 0, inventory := [.name "Sword"],
                        equipped_items := [], location := "Cave" }
             setting := exampleSetting } ∧
    ∃ r1, recordAfter [("p1", examplePlayer [.name "Torch", .name "Sword"] [])]
        [("p1", { health := some 80, inventory_remove := some ["Torch"] })] "p1" = some r1 ∧
      r1.stats.health = 80 ∧ r1.stats.gold = 10 ∧ r1.stats.experience = 0 ∧
      r1.stats.location = "Cave" :=
  ⟨rfl, by decide,
    (C4_scalar_overwrite [("p1", examplePlayer [.name "Torch", .name "Sword"] [])] "p1"
      (examplePlayer [.name "Torch", .name "Sword"] [])
      { health := some 80, inventory_remove := some ["Torch"] } rfl).1⟩

/-- C5 (counterexample): three patches that equip an item the inventory holds.  With the
slot named by the empty string, and with the item named by the empty string, the guard
`item && slot` is false: nothing is equipped and the item stays in the inventory.  With
the slot holding the item named by the empty string, that previous item is falsy and
does not return to the inventory. -/
theorem C5_counterexample_empty_names :
    (∃ r1, recordAfter [("p1", examplePlayer [.name "Sword"] [])]
        [("p1", { inventory_equip := some ⟨"Sword", ""⟩ })] "p1" = some r1 ∧
      getOwn r1.stats.equipped_items "" = none ∧ Item.name "Sword" ∈ r1.stats.inventory) ∧
    (∃ r1, recordAfter [("p1", examplePlayer [.name ""] [])]
        [("p1", { inventory_equip := some ⟨"", "main_hand"⟩ })] "p1" = some r1 ∧
      getOwn r1.stats.equipped_items "main_hand" = none ∧
      Item.name "" ∈ r1.stats.inventory) ∧
    (∃ r1, recordAfter [("p1", examplePlayer [.name "Sword"] [("main_hand", "")])]
        [("p1", { inventory_equip := some ⟨"Sword", "main_hand"⟩ })] "p1" = some r1 ∧
      getOwn r1.stats.equipped_items "main_hand" = some "Sword" ∧
      Item.name "" ∉ r1.stats.inventory) :=
  ⟨⟨examplePlayer [.name "Sword"] [], by decide, by decide, by decide⟩,
   ⟨examplePlayer [.name ""] [], by decide, by decide, by decide⟩,
   ⟨examplePlayer [] [("main_hand", "Sword")], by decide, by decide, by decide⟩⟩

/-- C5 (amended): for a player the map owns whose inventory holds `item`, and a patch
holding only `inventory_equip` of `item` into `slot`: when `item` and `slot` are both
non-empty, afterwards the slot holds the item, the item is no longer in the inventory, a
different, non-empty item the slot held before is in the inventory, and every other slot
reads as before; when `item` or `slot` is empty, the record is the prior one. -/
theorem C5_equip_owned_item (m : PlayerCharacterMap) (id : String) (r : PlayerRecord)
    (item slot : String) (hknown : getOwn m id = some r)
    (hin : Item.name item ∈ r.stats.inventory) :
    ∃ r1, recordAfter m [(id, { inventory_equip := some ⟨item, slot⟩ })] id = some r1 ∧
      (item ≠ "" → slot ≠ "" →
        getOwn r1.stats.equipped_items slot = some item ∧
        Item.name item ∉ r1.stats.inventory ∧
        (∀ previous, getOwn r.stats.equipped_items slot = some previous →
          previous ≠ item → previous ≠ "" → Item.name previous ∈ r1.stats.inventory) ∧
        (∀ other, other ≠ slot →
          getOwn r1.stats.equipped_items other = getOwn r.stats.equipped_items other)) ∧
      ((item = "" ∨ slot = "") → r1 = r) := by
  refine ⟨_, recordAfter_known m id r _ hknown, ?_, ?_⟩
  · intro hitem hslot
    simp only [applyPlayerUpdate_equip_only]
    have heq : applyEquip r.stats { inventory_equip := some ⟨item, slot⟩ } =
        { r.stats with
          equipped_items := setOwn r.stats.equipped_items slot item
          inventory := (pushPrevious r.stats slot).filter (fun i => i ≠ Item.name item) } := by
      simp [applyEquip, hin, hitem, hslot]
    rw [heq]
    refine ⟨?_, ?_, ?_, ?_⟩
    · simp [getOwn_setOwn]
    · simp [List.mem_filter]
    · intro previous hprev hne hnonempty
      simp only [List.mem_filter]
      refine ⟨mem_pushPrevious r.stats slot previous hprev hnonempty, ?_⟩
      simpa using hne
    · intro other hother
      simp [getOwn_setOwn, hother]
  · intro hempty
    simp only [applyPlayerUpdate_equip_only]
    have heq : applyEquip r.stats { inventory_equip := some ⟨item, slot⟩ } = r.stats := by
      rcases hempty with h | h <;> simp [applyEquip, h]
    rw [heq]

/-- C5, at a player holding Sword and Shield with Dagger in the main hand: Sword goes to
the main hand, Dagger returns to the inventory, the off hand stays empty. -/
theorem C5_equip_owned_item_witness :
    recordAfter [("p1", examplePlayer [.name "Sword", .name "Shield"] [("main_hand", "Dagger")])]
        [("p1", { inventory_equip := some ⟨"Sword", "main_hand"⟩ })] "p1" =
      some (examplePlayer [.name "Shield", .name "Dagger"] [("main_hand", "Sword")]) ∧
    ∃ r1, recordAfter [("p1", examplePlayer [.name "Sword", .name "Shield"] [("main_hand", "Dagger")])]
        [("p1", { inventory_equip := some ⟨"Sword", "main_hand"⟩ })] "p1" = some r1 ∧
      getOwn r1.stats.equipped_items "main_hand" = some "Sword" ∧
      Item.name "Sword" ∉ r1.stats.inventory ∧
      Item.name "Dagger" ∈ r1.stats.inventory ∧
      getOwn r1.stats.equipped_items "off_hand" = none := by
  refine ⟨by decide, ?_⟩
  obtain ⟨r1, h1, h2, _⟩ := C5_equip_owned_item
    [("p1", examplePlayer [.name "Sword", .name "Shield"] [("main_hand", "Dagger")])] "p1"
    (examplePlayer [.name "Sword", .name "Shield"] [("main_hand", "Dagger")])
    "Sword" "main_hand" rfl (by decide)
  obtain ⟨h3, h4, h5, h6⟩ := h2 (by decide) (by decide)
  exact ⟨r1, h1, h3, h4, h5 "Dagger" rfl (by decide) (by decide),
    (h6 "off_hand" (by decide)).trans rfl⟩

/-- C6: for a player the map owns and a patch holding only `inventory_equip` of an item
that is not in the inventory, the reconciled inventory and equipped items are the prior
ones. -/
theorem C6_equip_absent_item (m : PlayerCharacterMap) (id : String) (r : PlayerRecord)
    (item slot : String) (hknown : getOwn m id = some r)
    (habsent : Item.name item ∉ r.stats.inventory) :
    ∃ r1, recordAfter m [(id, { inventory_equip := some ⟨item, slot⟩ })] id = some r1 ∧
      r1.stats.inventory = r.stats.inventory ∧
      r1.stats.equipped_items = r.stats.equipped_items := by
  refine ⟨_, recordAfter_known m id r _ hknown, ?_⟩
  simp only [applyPlayerUpdate_equip_only]
  have heq : applyEquip r.stats { inventory_equip := some ⟨item, slot⟩ } = r.stats := by
    simp [applyEquip, habsent]
  rw [heq]
  exact ⟨rfl, rfl⟩

/-- C6, at the example of the spec: Shield into the off hand against inventory Sword. -/
theorem C6_equip_absent_item_witness :
    Item.name "Shield" ∉ (examplePlayer [.name "Sword"] []).stats.inventory ∧
    ∃ r1, recordAfter [("p1", examplePlayer [.name "Sword"] [])]
        [("p1", { inventory_equip := some ⟨"Shield", "off_hand"⟩ })] "p1" = some r1 ∧
      r1.stats.inventory = [.name "Sword"] ∧ r1.stats.equipped_items = [] :=
  ⟨by decide, C6_equip_absent_item [("p1", examplePlayer [.name "Sword"] [])] "p1"
    (examplePlayer [.name "Sword"] []) "Shield" "off_hand" rfl (by decide)⟩

/-- C7 (counterexample): a slot named by the empty string holds Ring and the patch
unequips Ring, and a slot holds the item named by the empty string and the patch unequips
that item; in both the slot keeps its item and the inventory stays empty. -/
theorem C7_counterexample_empty_names :
    (∃ r1, recordAfter [("p1", examplePlayer [] [("", "Ring")])]
        [("p1", { inventory_unequip := some "Ring" })] "p1" = some r1 ∧
      getOwn r1.stats.equipped_items "" = some "Ring" ∧ r1.stats.inventory = []) ∧
    (∃ r1, recordAfter [("p1", examplePlayer [] [("finger", "")])]
        [("p1", { inventory_unequip := some "" })] "p1" = some r1 ∧
      getOwn r1.stats.equipped_items "finger" = some "" ∧ r1.stats.inventory = []) :=
  ⟨⟨examplePlayer [] [("", "Ring")], by decide, by decide, by decide⟩,
   ⟨examplePlayer [] [("finger", "")], by decide, by decide, by decide⟩⟩

/-- C7 (amended): for a player the map owns and a patch holding only `inventory_unequip`
of `x`: when `x` is non-empty, no slot is named by the empty string and some slot holds
exactly `x`, one slot holding `x` is removed, `x` is appended to the inventory and every
other slot reads as before; when `x` is empty or no slot holds `x`, inventory and
equipped items are the prior ones. -/
theorem C7_unequip (m : PlayerCharacterMap) (id : String) (r : PlayerRecord) (x : String)
    (hknown : getOwn m id = some r) :
    ∃ r1, recordAfter m [(id, { inventory_unequip := some x })] id = some r1 ∧
      (x ≠ "" → getOwn r.stats.equipped_items "" = none →
        (∃ slot, getOwn r.stats.equipped_items slot = some x) →
        ∃ slot, getOwn r.stats.equipped_items slot = some x ∧
          getOwn r1.stats.equipped_items slot = none ∧
          r1.stats.inventory = r.stats.inventory ++ [Item.name x] ∧
          ∀ other, other ≠ slot →
            getOwn r1.stats.equipped_items other = getOwn r.stats.equipped_items other) ∧
      ((x = "" ∨ ∀ slot, getOwn r.stats.equipped_items slot ≠ some x) →
        r1.stats.inventory = r.stats.inventory ∧
        r1.stats.equipped_items = r.stats.equipped_items) := by
  refine ⟨_, recordAfter_known m id r _ hknown, ?_, ?_⟩
  · intro hx hnames ⟨k, hk⟩
    obtain ⟨slot, hslot⟩ := equippedSlot_isSome r.stats.equipped_items x k hk
    have hholds := equippedSlot_holds r.stats.equipped_items x slot hslot
    have hne : slot ≠ "" := by
      intro h
      rw [h, hnames] at hholds
      exact Option.noConfusion hholds
    refine ⟨slot, hholds, ?_⟩
    simp only [applyPlayerUpdate_unequip_only]
    have heq : applyUnequip r.stats { inventory_unequip := some x } =
        { r.stats with
          inventory := r.stats.inventory ++ [Item.name x]
          equipped_items := deleteOwn r.stats.equipped_items slot } := by
      simp [applyUnequip, hx, hslot, hne]
    rw [heq]
    refine ⟨?_, rfl, ?_⟩
    · simp [getOwn_deleteOwn]
    · intro other hother
      simp [getOwn_deleteOwn, hother]
  · intro h
    simp only [applyPlayerUpdate_unequip_only]
    have heq : applyUnequip r.stats { inventory_unequip := some x } = r.stats := by
      rcases h with h | h
      · simp [applyUnequip, h]
      · simp [applyUnequip, equippedSlot_eq_none r.stats.equipped_items x h]
    rw [heq]
    exact ⟨rfl, rfl⟩

/-- C7, at a player with Sword in the main hand and Helm on the head: unequipping Sword
empties a slot that held Sword and appends Sword to the inventory. -/
theorem C7_unequip_witness :
    recordAfter [("p1", examplePlayer [.name "Shield"] [("main_hand", "Sword"), ("head", "Helm")])]
        [("p1", { inventory_unequip := some "Sword" })] "p1" =
      some (examplePlayer [.name "Shield", .name "Sword"] [("head", "Helm")]) ∧
    ∃ r1, recordAfter [("p1", examplePlayer [.name "Shield"] [("main_hand", "Sword"), ("head", "Helm")])]
        [("p1", { inventory_unequip := some "Sword" })] "p1" = some r1 ∧
      ∃ slot, getOwn [("main_hand", "Sword"), ("head", "Helm")] slot = some "Sword" ∧
        getOwn r1.stats.equipped_items slot = none ∧
        r1.stats.inventory = [.name "Shield", .name "Sword"] := by
  refine ⟨by decide, ?_⟩
  obtain ⟨r1, h1, h2, _⟩ := C7_unequip
    [("p1", examplePlayer [.name "Shield"] [("main_hand", "Sword"), ("head", "Helm")])] "p1"
    (examplePlayer [.name "Shield"] [("main_hand", "Sword"), ("head", "Helm")]) "Sword" rfl
  obtain ⟨slot, h3, h4, h5, _⟩ := h2 (by decide) (by decide) ⟨"main_hand", by decide⟩
  exact ⟨r1, h1, slot, h3, h4, h5⟩

/-- C8 (counterexample): inventory Sword, Shield with Dagger in the main hand; the patch
equips Sword into the main hand and unequips Sword.  Afterwards the inventory is Shield,
Dagger, Sword and no slot is filled: neither equals its value before the patch. -/
theorem C8_counterexample_round_trip :
    ∃ r1, recordAfter
        [("p1", examplePlayer [.name "Sword", .name "Shield"] [("main_hand", "Dagger")])]
        [("p1", { inventory_equip := some ⟨"Sword", "main_hand"⟩,
                  inventory_unequip := some "Sword" })] "p1" = some r1 ∧
      r1.stats.inventory = [.name "Shield", .name "Dagger", .name "Sword"] ∧
      r1.stats.equipped_items = [] ∧
      r1.stats.inventory ≠ [.name "Sword", .name "Shield"] ∧
      r1.stats.equipped_items ≠ [("main_hand", "Dagger")] :=
  ⟨examplePlayer [.name "Shield", .name "Dagger", .name "Sword"] [],
    by decide, by decide, by decide, by decide, by decide⟩

/-- C8 (amended): for a player the map owns whose inventory holds the non-empty item `x`,
a non-empty slot name that reads `undefined` on the equipped items (no own slot of that
name, and the name is not inherited from `Object.prototype`), and no slot holding `x`:
after the patch that equips `x` into the slot and unequips `x`, the equipped items are
the prior ones and the inventory is the prior one with every `x` removed and one `x`
appended; so the inventory is the prior one when its only `x` was its last entry. -/
theorem C8_equip_then_unequip (m : PlayerCharacterMap) (id : String) (r : PlayerRecord)
    (x slot : String) (hknown : getOwn m id = some r)
    (hx : x ≠ "") (hslot : slot ≠ "") (hin : Item.name x ∈ r.stats.inventory)
    (hempty : readProp r.stats.equipped_items slot = .undefined)
    (hfree : ∀ k, getOwn r.stats.equipped_items k ≠ some x) :
    ∃ r1, recordAfter m
        [(id, { inventory_equip := some ⟨x, slot⟩, inventory_unequip := some x })] id = some r1 ∧
      r1.stats.equipped_items = r.stats.equipped_items ∧
      r1.stats.inventory =
        r.stats.inventory.filter (fun i => i ≠ Item.name x) ++ [Item.name x] ∧
      (∀ rest, r.stats.inventory = rest ++ [Item.name x] → Item.name x ∉ rest →
        r1.stats.inventory = r.stats.inventory) := by
  refine ⟨_, recordAfter_known m id r _ hknown, ?_⟩
  have hnone := getOwn_of_readProp_undefined _ _ hempty
  have heq : applyPlayerUpdate r.stats
      { inventory_equip := some ⟨x, slot⟩, inventory_unequip := some x } =
      { r.stats with
        inventory := r.stats.inventory.filter (fun i => i ≠ Item.name x) ++ [Item.name x] } := by
    cases hr : r.stats with
    | mk health gold experience inventory equipped location =>
      rw [hr] at hin hempty hfree hnone
      simp only at hin hempty hfree hnone
      simp [applyPlayerUpdate, applyScalars, applyAdd, applyRemove, applyEquip, applyUnequip,
        hx, hslot, hin, pushPrevious, hempty, equippedSlot_setOwn_of_free equipped x slot hfree,
        deleteOwn_setOwn_of_absent equipped slot x hnone]
  rw [heq]
  refine ⟨rfl, rfl, ?_⟩
  intro rest hrest hnot
  simp only [hrest, List.filter_append]
  have h1 : rest.filter (fun i => decide (i ≠ Item.name x)) = rest := by
    rw [List.filter_eq_self]
    intro a ha
    have : a ≠ Item.name x := fun e => hnot (e ▸ ha)
    simpa using this
  rw [h1]
  simp

/-- C8, at a player holding Shield, Sword with Helm on the head: equipping Sword into the
free main hand and unequipping it gives back the same inventory and equipped items. -/
theorem C8_equip_then_unequip_witness :
    ∃ r1, recordAfter
        [("p1", examplePlayer [.name "Shield", .name "Sword"] [("head", "Helm")])]
        [("p1", { inventory_equip := some ⟨"Sword", "main_hand"⟩,
                  inventory_unequip := some "Sword" })] "p1" = some r1 ∧
      r1.stats.equipped_items = [("head", "Helm")] ∧
      r1.stats.inventory = [.name "Shield", .name "Sword"] := by
  obtain ⟨r1, h1, h2, _, h4⟩ := C8_equip_then_unequip
    [("p1", examplePlayer [.name "Shield", .name "Sword"] [("head", "Helm")])] "p1"
    (examplePlayer [.name "Shield", .name "Sword"] [("head", "Helm")]) "Sword" "main_hand"
    rfl (by decide) (by decide) (by decide) (by decide)
    (by
      intro k hk
      by_cases h : "head" = k
      · rw [show (examplePlayer [.name "Shield", .name "Sword"] [("head", "Helm")]).stats.equipped_items
            = [("head", "Helm")] from rfl, getOwn_cons, if_pos h] at hk
        exact absurd hk (by decide)
      · rw [show (examplePlayer [.name "Shield", .name "Sword"] [("head", "Helm")]).stats.equipped_items
            = [("head", "Helm")] from rfl, getOwn_cons, if_neg h] at hk
        exact Option.noConfusion hk)
  exact ⟨r1, h1, h2, h4 [.name "Shield"] rfl (by decide)⟩

/-- C9: for a player the map owns and a patch holding only `inventory_add`, the
reconciled inventory has no repeated entry, has exactly the entries of the prior
inventory followed by the added names, and keeps each entry at its first occurrence:
wherever that concatenation reads `before ++ x :: later` with `x` not in `before`, the
reconciled inventory holds `x` right behind exactly the entries of `before`. -/
theorem C9_inventory_add (m : PlayerCharacterMap) (id : String) (r : PlayerRecord)
    (add : List String) (hknown : getOwn m id = some r) :
    ∃ r1, recordAfter m [(id, { inventory_add := some add })] id = some r1 ∧
      r1.stats.inventory.Nodup ∧
      (∀ x, x ∈ r1.stats.inventory ↔ x ∈ r.stats.inventory ++ add.map Item.name) ∧
      (∀ before x later, r.stats.inventory ++ add.map Item.name = before ++ x :: later →
        x ∉ before →
        ∃ kept rest, r1.stats.inventory = kept ++ x :: rest ∧ ∀ y, y ∈ kept ↔ y ∈ before) := by
  refine ⟨_, recordAfter_known m id r _ hknown, ?_⟩
  simp only [applyPlayerUpdate_add_only]
  refine ⟨nodup_setSpread _, mem_setSpread _, ?_⟩
  intro before x later hsplit hx
  rw [hsplit]
  exact setSpread_first_occurrence before later x hx

/-- C9, at inventory Potion, Key, Potion with Key, Rope, Rope added: the result is
Potion, Key, Rope. -/
theorem C9_inventory_add_witness :
    recordAfter [("p1", examplePlayer [.name "Potion", .name "Key", .name "Potion"] [])]
        [("p1", { inventory_add := some ["Key", "Rope", "Rope"] })] "p1" =
      some (examplePlayer [.name "Potion", .name "Key", .name "Rope"] []) ∧
    ∃ r1, recordAfter [("p1", examplePlayer [.name "Potion", .name "Key", .name "Potion"] [])]
        [("p1", { inventory_add := some ["Key", "Rope", "Rope"] })] "p1" = some r1 ∧
      r1.stats.inventory.Nodup ∧ Item.name "Rope" ∈ r1.stats.inventory := by
  refine ⟨by decide, ?_⟩
  obtain ⟨r1, h1, h2, h3, _⟩ := C9_inventory_add
    [("p1", examplePlayer [.name "Potion", .name "Key", .name "Potion"] [])] "p1"
    (examplePlayer [.name "Potion", .name "Key", .name "Potion"] []) ["Key", "Rope", "Rope"] rfl
  exact ⟨r1, h1, h2, (h3 (.name "Rope")).2 (by decide)⟩

/-- C10: for a player the map owns, reconciling with a patch holding only
`inventory_add` and reconciling the result with the same patch again returns the map of
the first pass; on every stats record the patch applied twice gives the inventory it
gives applied once; and adding Potion, Potion twice leaves exactly one Potion entry. -/
theorem C10_inventory_add_idempotent (m : PlayerCharacterMap) (id : String)
    (r : PlayerRecord) (add : List String) (hknown : getOwn m id = some r) :
    (∃ m1, reconcile m [(id, { inventory_add := some add })] = .ok m1 ∧
      reconcile m1 [(id, { inventory_add := some add })] = .ok m1) ∧
    (∀ s : CharacterStats,
      (applyPlayerUpdate (applyPlayerUpdate s { inventory_add := some add })
        { inventory_add := some add }).inventory =
      (applyPlayerUpdate s { inventory_add := some add }).inventory) ∧
    (∀ s : CharacterStats,
      (applyPlayerUpdate (applyPlayerUpdate s { inventory_add := some ["Potion", "Potion"] })
        { inventory_add := some ["Potion", "Potion"] }).inventory.count
          (Item.name "Potion") = 1) := by
  refine ⟨?_, ?_, ?_⟩
  · refine ⟨replaceOwn m id
      { r with stats := applyPlayerUpdate r.stats { inventory_add := some add } }, ?_, ?_⟩
    · simp [reconcile, reconcileStep, readProp, hknown]
    · have hget : getOwn (replaceOwn m id
          { r with stats := applyPlayerUpdate r.stats { inventory_add := some add } }) id =
          some { r with stats := applyPlayerUpdate r.stats { inventory_add := some add } } := by
        simp [getOwn_replaceOwn, hknown]
      simp only [reconcile, reconcileStep, readProp, hget, applyPlayerUpdate_add_twice]
      rw [replaceOwn_same _ _ _ hget]
  · intro s
    rw [applyPlayerUpdate_add_twice]
  · intro s
    rw [applyPlayerUpdate_add_twice, applyPlayerUpdate_add_only]
    simp only
    apply List.count_eq_one_of_mem (nodup_setSpread _)
    rw [mem_setSpread]
    simp

/-- C10, at inventory Key with Potion, Potion added twice. -/
theorem C10_inventory_add_idempotent_witness :
    ∃ m1, reconcile [("p1", examplePlayer [.name "Key"] [])]
        [("p1", { inventory_add := some ["Potion", "Potion"] })] = .ok m1 ∧
      reconcile m1 [("p1", { inventory_add := some ["Potion", "Potion"] })] = .ok m1 :=
  (C10_inventory_add_idempotent [("p1", examplePlayer [.name "Key"] [])] "p1"
    (examplePlayer [.name "Key"] []) ["Potion", "Potion"] rfl).1

/-! ## Stat Reconciler: removal, order of the steps (claims C11, C12) -/

/-- Reduction of the loop body for a patch holding only `inventory_remove`. -/
theorem applyPlayerUpdate_remove_only (s : CharacterStats) (remove : List String) :
    applyPlayerUpdate s { inventory_remove := some remove } =
      { s with inventory := s.inventory.filter (fun item => item ∉ remove.map Item.name) } := by
  cases s
  simp [applyPlayerUpdate, applyScalars, applyAdd, applyRemove, applyEquip, applyUnequip]

/-- C11: for a known player and an `inventory_remove` list, the reconciled inventory holds
no item named in the list, is a sublist of the prior inventory (same relative order),
keeps every occurrence of each item the list does not name, and is the prior inventory
filtered by the test that the list does not name the item. -/
theorem C11_inventory_remove (m : PlayerCharacterMap) (id : String) (r : PlayerRecord)
    (remove : List String) (hknown : getOwn m id = some r) :
    ∃ r1, recordAfter m [(id, { inventory_remove := some remove })] id = some r1 ∧
      (∀ x ∈ remove, Item.name x ∉ r1.stats.inventory) ∧
      r1.stats.inventory.Sublist r.stats.inventory ∧
      (∀ i, i ∉ remove.map Item.name →
        r1.stats.inventory.count i = r.stats.inventory.count i) ∧
      r1.stats.inventory = r.stats.inventory.filter (fun i => i ∉ remove.map Item.name) := by
  refine ⟨_, recordAfter_known m id r _ hknown, ?_⟩
  simp only [applyPlayerUpdate_remove_only]
  refine ⟨?_, List.filter_sublist _, ?_, trivial⟩
  · intro x hx hmem
    have := (List.mem_filter.1 hmem).2
    simp only [decide_eq_true_eq] at this
    exact this (List.mem_map_of_mem Item.name hx)
  · intro i hi
    rw [List.count_filter]
    simpa using hi

theorem C11_inventory_remove_witness :
    recordAfter [("p1", examplePlayer [.name "Torch", .name "Sword", .name "Torch", .name "Map"] [])]
        [("p1", { inventory_remove := some ["Torch", "Rope"] })] "p1" =
      some (examplePlayer [.name "Sword", .name "Map"] []) ∧
    ∃ r1, recordAfter [("p1", examplePlayer [.name "Torch", .name "Sword", .name "Torch", .name "Map"] [])]
        [("p1", { inventory_remove := some ["Torch", "Rope"] })] "p1" = some r1 ∧
      Item.name "Torch" ∉ r1.stats.inventory ∧
      r1.stats.inventory.count (Item.name "Sword") = 1 := by
  refine ⟨by decide, ?_⟩
  obtain ⟨r1, h1, h2, _, h4, _⟩ := C11_inventory_remove
    [("p1", examplePlayer [.name "Torch", .name "Sword", .name "Torch", .name "Map"] [])] "p1"
    (examplePlayer [.name "Torch", .name "Sword", .name "Torch", .name "Map"] [])
    ["Torch", "Rope"] rfl
  exact ⟨r1, h1, h2 "Torch" (by decide), (h4 (.name "Sword") (by decide)).trans (by decide)⟩

/-- The loop body on the scalar part of a patch is the scalar step. -/
theorem applyPlayerUpdate_scalarPart (s : CharacterStats) (p : PlayerUpdate) :
    applyPlayerUpdate s (scalarPart p) = applyScalars s p := by
  cases s
  simp [applyPlayerUpdate, scalarPart, applyScalars, applyAdd, applyRemove, applyEquip, applyUnequip]

/-- The loop body on the `inventory_add` part of a patch is the add step. -/
theorem applyPlayerUpdate_addPart (s : CharacterStats) (p : PlayerUpdate) :
    applyPlayerUpdate s (addPart p) = applyAdd s p := by
  cases s
  cases h : p.inventory_add <;>
    simp [applyPlayerUpdate, addPart, applyScalars, applyAdd, applyRemove, applyEquip,
      applyUnequip, h]

/-- The loop body on the `inventory_remove` part of a patch is the remove step. -/
theorem applyPlayerUpdate_removePart (s : CharacterStats) (p : PlayerUpdate) :
    applyPlayerUpdate s (removePart p) = applyRemove s p := by
  cases s
  cases h : p.inventory_remove <;>
    simp [applyPlayerUpdate, removePart, applyScalars, applyAdd, applyRemove, applyEquip,
      applyUnequip, h]

/-- The loop body on the `inventory_equip` part of a patch is the equip step. -/
theorem applyPlayerUpdate_equipPart (s : CharacterStats) (p : PlayerUpdate) :
    applyPlayerUpdate s (equipPart p) = applyEquip s p := by
  cases s
  cases h : p.inventory_equip <;>
    simp [applyPlayerUpdate, equipPart, applyScalars, applyAdd, applyRemove, applyEquip,
      applyUnequip, h]

/-- The loop body on the `inventory_unequip` part of a patch is the unequip step. -/
theorem applyPlayerUpdate_unequipPart (s : CharacterStats) (p : PlayerUpdate) :
    applyPlayerUpdate s (unequipPart p) = applyUnequip s p := by
  cases s
  cases h : p.inventory_unequip <;>
    simp [applyPlayerUpdate, unequipPart, applyScalars, applyAdd, applyRemove, applyEquip,
      applyUnequip, h]

/-- Five applications of the loop body, one per part, give what one application of the
whole patch gives. -/
theorem applyInSequence_eq (s : CharacterStats) (p : PlayerUpdate) :
    applyInSequence s p = applyPlayerUpdate s p := by
  unfold applyInSequence
  rw [applyPlayerUpdate_scalarPart, applyPlayerUpdate_addPart, applyPlayerUpdate_removePart,
    applyPlayerUpdate_equipPart, applyPlayerUpdate_unequipPart]
  rfl

/-- A second replacement of the same key overrides the first. -/
theorem replaceOwn_replaceOwn {α : Type} (o : List (String × α)) (key : String) (v w : α) :
    replaceOwn (replaceOwn o key v) key w = replaceOwn o key w := by
  induction o with
  | nil => rfl
  | cons kv rest ih =>
    obtain ⟨k0, x⟩ := kv
    by_cases h : k0 = key
    · simp [replaceOwn, h]
    · simp [replaceOwn, h, ih]

/-- The loop on a one-entry update for a known player. -/
theorem reconcile_single_known (m : PlayerCharacterMap) (id : String) (r : PlayerRecord)
    (u : PlayerUpdate) (hk : getOwn m id = some r) :
    reconcile m [(id, u)] =
      .ok (replaceOwn m id { r with stats := applyPlayerUpdate r.stats u }) := by
  simp [reconcile, reconcileStep_known m id u r hk]

/-- After a replacement an own key reads the new value. -/
theorem getOwn_replaceOwn_self {α : Type} (o : List (String × α)) (key : String) (v w : α)
    (h : getOwn o key = some v) : getOwn (replaceOwn o key w) key = some w := by
  simp [getOwn_replaceOwn, h]

/-- For a known player, five runs of the loop, one per part of the patch, give the map
that one run with the whole patch gives. -/
theorem reconcileInSequence_eq (m : PlayerCharacterMap) (id : String) (r : PlayerRecord)
    (p : PlayerUpdate) (hk : getOwn m id = some r) :
    reconcileInSequence m id p = reconcile m [(id, p)] := by
  unfold reconcileInSequence
  rw [reconcile_single_known m id r _ hk]
  simp only
  rw [reconcile_single_known _ id _ _ (getOwn_replaceOwn_self m id r _ hk)]
  simp only [replaceOwn_replaceOwn]
  rw [reconcile_single_known _ id _ _ (getOwn_replaceOwn_self m id r _ hk)]
  simp only [replaceOwn_replaceOwn]
  rw [reconcile_single_known _ id _ _ (getOwn_replaceOwn_self m id r _ hk)]
  simp only [replaceOwn_replaceOwn]
  rw [reconcile_single_known _ id _ _ (getOwn_replaceOwn_self m id r _ hk)]
  simp only [replaceOwn_replaceOwn]
  rw [reconcile_single_known m id r _ hk]
  have := applyInSequence_eq r.stats p
  unfold applyInSequence at this
  rw [this]

/-- C12 (counterexample): a patch that adds an item and equips it on an inventory lacking
it does not end with the item equipped when the slot name, or the item name, is the
empty string: the guard `inventory_equip.item && inventory_equip.slot` is false and the
item stays in the inventory. -/
theorem C12_counterexample_empty_names :
    (applyPlayerUpdate (examplePlayer [] []).stats
        { inventory_add := some ["Sword"], inventory_equip := some ⟨"Sword", ""⟩ } =
      (examplePlayer [.name "Sword"] []).stats) ∧
    (applyPlayerUpdate (examplePlayer [] []).stats
        { inventory_add := some [""], inventory_equip := some ⟨"", "main_hand"⟩ } =
      (examplePlayer [.name ""] []).stats) := by
  decide

/-- C12 (amended): for a known player and every patch, five runs of the loop with the
parts of the patch taken one at a time (scalars, add, remove, equip, unequip) give the
map that one run with the whole patch gives, and so does the loop body on every stats
object; a patch that adds `x` and equips it into `slot`, both names non-empty, on an
inventory lacking `x` ends with `slot` holding `x` and `x` out of the inventory; a patch
that removes `x` and equips `x` leaves the equipped items as they were. -/
theorem C12_patch_order (m : PlayerCharacterMap) (id : String) (r : PlayerRecord)
    (p : PlayerUpdate) (hknown : getOwn m id = some r) :
    reconcileInSequence m id p = reconcile m [(id, p)] ∧
    (∀ s : CharacterStats, applyInSequence s p = applyPlayerUpdate s p) ∧
    (∀ (s : CharacterStats) (x slot : String), x ≠ "" → slot ≠ "" →
      Item.name x ∉ s.inventory →
      getOwn (applyPlayerUpdate s
        { inventory_add := some [x], inventory_equip := some ⟨x, slot⟩ }).equipped_items slot =
          some x ∧
      Item.name x ∉ (applyPlayerUpdate s
        { inventory_add := some [x], inventory_equip := some ⟨x, slot⟩ }).inventory) ∧
    (∀ (s : CharacterStats) (x slot : String),
      (applyPlayerUpdate s
        { inventory_remove := some [x], inventory_equip := some ⟨x, slot⟩ }).equipped_items =
          s.equipped_items ∧
      Item.name x ∉ (applyPlayerUpdate s
        { inventory_remove := some [x], inventory_equip := some ⟨x, slot⟩ }).inventory) := by
  refine ⟨reconcileInSequence_eq m id r p hknown, fun s => applyInSequence_eq s p, ?_, ?_⟩
  · intro s x slot hx hslot hnot
    cases s with
    | mk health gold experience inventory equipped location =>
      have hin : Item.name x ∈ setSpread (inventory ++ [Item.name x]) := by
        rw [mem_setSpread]; simp
      simp [applyPlayerUpdate, applyScalars, applyAdd, applyRemove, applyEquip, applyUnequip,
        hx, hslot, hin, getOwn_setOwn]
  · intro s x slot
    cases s with
    | mk health gold experience inventory equipped location =>
      simp [applyPlayerUpdate, applyScalars, applyAdd, applyRemove, applyEquip, applyUnequip]

theorem C12_patch_order_witness :
    reconcileInSequence [("p1", examplePlayer [.name "Torch"] [])] "p1"
        { health := some 70, inventory_add := some ["Sword"], inventory_remove := some ["Torch"],
          inventory_equip := some ⟨"Sword", "main_hand"⟩ } =
      .ok [("p1", { stats := { health := 70, gold := 10, experience := 0, inventory := [],
                               equipped_items := [("main_hand", "Sword")], location := "Cave" }
                    setting := exampleSetting })] ∧
    reconcileInSequence [("p1", examplePlayer [.name "Torch"] [])] "p1"
        { health := some 70, inventory_add := some ["Sword"], inventory_remove := some ["Torch"],
          inventory_equip := some ⟨"Sword", "main_hand"⟩ } =
      reconcile [("p1", examplePlayer [.name "Torch"] [])]
        [("p1", { health := some 70, inventory_add := some ["Sword"],
                  inventory_remove := some ["Torch"],
                  inventory_equip := some ⟨"Sword", "main_hand"⟩ })] :=
  ⟨rfl, (C12_patch_order [("p1", examplePlayer [.name "Torch"] [])] "p1"
    (examplePlayer [.name "Torch"] [])
    { health := some 70, inventory_add := some ["Sword"], inventory_remove := some ["Torch"],
      inventory_equip := some ⟨"Sword", "main_hand"⟩ } rfl).1⟩

/-! ## Stat Reconciler: unknown ids, the deep copy and the frame (claims C13, C14) -/

/-- An iteration for an id that reads `undefined` on the map changes nothing. -/
theorem reconcileStep_of_undefined (m : PlayerCharacterMap) (id : String) (u : PlayerUpdate)
    (h : readProp m id = .undefined) : reconcileStep m id u = .ok m := by
  simp [reconcileStep, h]

/-- An entry whose id reads `undefined` on the map can be dropped from the update. -/
theorem reconcile_cons_of_undefined (m : PlayerCharacterMap) (id : String) (u : PlayerUpdate)
    (rest : StatsUpdate) (h : readProp m id = .undefined) :
    reconcile m ((id, u) :: rest) = reconcile m rest := by
  simp [reconcile, reconcileStep_of_undefined m id u h]

/-- `replaceOwn` keeps the own keys. -/
theorem ownKeys_replaceOwn {α : Type} (o : List (String × α)) (key : String) (v : α) :
    ownKeys (replaceOwn o key v) = ownKeys o := by
  induction o with
  | nil => rfl
  | cons kv rest ih =>
    obtain ⟨k0, w⟩ := kv
    by_cases h : k0 = key
    · simp [replaceOwn, ownKeys, h]
    · simp only [replaceOwn, h, if_false, ownKeys, List.map_cons] at ih ⊢
      rw [ih]

/-- An iteration that completes keeps the player ids of the map, in their order. -/
theorem ownKeys_reconcileStep (m m1 : PlayerCharacterMap) (id : String) (u : PlayerUpdate)
    (h : reconcileStep m id u = .ok m1) : ownKeys m1 = ownKeys m := by
  unfold reconcileStep at h
  cases hread : readProp m id with
  | own record =>
    rw [hread] at h
    simp only [Except.ok.injEq] at h
    rw [← h, ownKeys_replaceOwn]
  | inherited =>
    rw [hread] at h
    by_cases ht : touchesStats u = true
    · simp [ht] at h
    · simp only [ht] at h
      simp only [Bool.false_eq_true, if_false, Except.ok.injEq] at h
      rw [h]
  | undefined =>
    rw [hread] at h
    simp only [Except.ok.injEq] at h
    rw [h]

/-- The completed loop keeps the player ids of the map, in their order. -/
theorem ownKeys_reconcile (upd : StatsUpdate) (m m1 : PlayerCharacterMap)
    (h : reconcile m upd = .ok m1) : ownKeys m1 = ownKeys m := by
  induction upd generalizing m with
  | nil =>
    simp only [reconcile, Except.ok.injEq] at h
    rw [h]
  | cons entry rest ih =>
    obtain ⟨id, u⟩ := entry
    unfold reconcile at h
    cases hstep : reconcileStep m id u with
    | error e => rw [hstep] at h; cases h
    | ok m2 =>
      rw [hstep] at h
      rw [ih m2 h, ownKeys_reconcileStep m m2 id u hstep]

/-- An iteration that completes keeps the setting of every player. -/
theorem setting_reconcileStep (m m1 : PlayerCharacterMap) (id k : String) (u : PlayerUpdate)
    (h : reconcileStep m id u = .ok m1) :
    (getOwn m1 k).map (fun record => record.setting) =
      (getOwn m k).map (fun record => record.setting) := by
  by_cases hk : k = id
  · subst hk
    unfold reconcileStep at h
    cases hget : getOwn m k with
    | some record =>
      have hread : readProp m k = .own record := by simp [readProp, hget]
      rw [hread] at h
      simp only [Except.ok.injEq] at h
      rw [← h, getOwn_replaceOwn]
      simp [hget]
    | none =>
      have hm : m1 = m := by
        unfold readProp at h
        rw [hget] at h
        by_cases hin : k ∈ objectPrototypeKeys
        · simp only [hin, if_true] at h
          by_cases ht : touchesStats u = true
          · simp [ht] at h
          · simp only [ht] at h
            simp only [Bool.false_eq_true, if_false, Except.ok.injEq] at h
            exact h.symm
        · simp only [hin, if_false, Except.ok.injEq] at h
          exact h.symm
      rw [hm, hget]
  · rw [getOwn_reconcileStep_of_ne m m1 id k u h hk]

/-- The completed loop keeps the setting of every player. -/
theorem setting_reconcile (upd : StatsUpdate) (m m1 : PlayerCharacterMap) (k : String)
    (h : reconcile m upd = .ok m1) :
    (getOwn m1 k).map (fun record => record.setting) =
      (getOwn m k).map (fun record => record.setting) := by
  induction upd generalizing m with
  | nil =>
    simp only [reconcile, Except.ok.injEq] at h
    rw [h]
  | cons entry rest ih =>
    obtain ⟨id, u⟩ := entry
    unfold reconcile at h
    cases hstep : reconcileStep m id u with
    | error e => rw [hstep] at h; cases h
    | ok m2 =>
      rw [hstep] at h
      rw [ih m2 h, setting_reconcileStep m m2 id k u hstep]

/-- Whether an id is an own key is kept by an iteration that completes. -/
theorem getOwn_isSome_reconcileStep (m m1 : PlayerCharacterMap) (id k : String) (u : PlayerUpdate)
    (h : reconcileStep m id u = .ok m1) : (getOwn m1 k).isSome = (getOwn m k).isSome := by
  have := setting_reconcileStep m m1 id k u h
  cases h1 : getOwn m1 k <;> cases h2 : getOwn m k <;> simp [h1, h2] at this ⊢

/-- The read of an id that the map does not own is kept by an iteration that completes. -/
theorem readProp_inherited_reconcileStep (m m1 : PlayerCharacterMap) (id k : String)
    (u : PlayerUpdate) (h : reconcileStep m id u = .ok m1) :
    readProp m1 k = .inherited ↔ readProp m k = .inherited := by
  have hs := getOwn_isSome_reconcileStep m m1 id k u h
  unfold readProp
  cases h1 : getOwn m1 k <;> cases h2 : getOwn m k <;> simp [h1, h2] at hs ⊢

/-- The loop completes when no entry of the update combines an id that reads an inherited
built-in with a patch that dereferences the stats. -/
theorem reconcile_completes (upd : StatsUpdate) (m : PlayerCharacterMap)
    (hsafe : ∀ entry ∈ upd, readProp m entry.1 = .inherited → touchesStats entry.2 = false) :
    ∃ m1, reconcile m upd = .ok m1 := by
  induction upd generalizing m with
  | nil => exact ⟨m, rfl⟩
  | cons entry rest ih =>
    obtain ⟨id, u⟩ := entry
    have hstep : ∃ m2, reconcileStep m id u = .ok m2 := by
      unfold reconcileStep
      cases hread : readProp m id with
      | own record => exact ⟨_, rfl⟩
      | inherited =>
        have := hsafe (id, u) (List.mem_cons_self _ _) hread
        simp only at this
        simp [this]
      | undefined => exact ⟨_, rfl⟩
    obtain ⟨m2, hm2⟩ := hstep
    have hrest : ∀ entry ∈ rest, readProp m2 entry.1 = .inherited →
        touchesStats entry.2 = false := by
      intro e he hread
      exact hsafe e (List.mem_cons_of_mem _ he)
        ((readProp_inherited_reconcileStep m m2 id e.1 u hm2).1 hread)
    obtain ⟨m1, hm1⟩ := ih m2 hrest
    exact ⟨m1, by simp [reconcile, hm2, hm1]⟩

/-- C13 (failing input): the id `constructor` is not a key of the map, yet an update whose
only entry is a health patch under that id makes the loop raise a TypeError, whereas
the update with that entry removed, and an update under the unknown id `ghost`, return
the input map. -/
theorem C13_inherited_id_raises :
    getOwn [("p1", examplePlayer [.name "Sword"] [])] "constructor" = none ∧
    reconcile [("p1", examplePlayer [.name "Sword"] [])]
      [("constructor", { health := some 50 })] = .error .typeError ∧
    reconcile [("p1", examplePlayer [.name "Sword"] [])] [] =
      .ok [("p1", examplePlayer [.name "Sword"] [])] ∧
    reconcile [("p1", examplePlayer [.name "Sword"] [])]
      [("ghost", { health := some 50 })] = .ok [("p1", examplePlayer [.name "Sword"] [])] :=
  ⟨rfl, rfl, rfl, rfl⟩

/-- Entries under ids that read `undefined` on the map can be removed from the update:
when every id of the update that the map does not own is outside `Object.prototype`,
the loop gives what it gives on the entries of known players alone. -/
theorem reconcile_filter_known (upd : StatsUpdate) (m : PlayerCharacterMap)
    (h : ∀ entry ∈ upd, getOwn m entry.1 = none → entry.1 ∉ objectPrototypeKeys) :
    reconcile m upd = reconcile m (upd.filter (fun entry => (getOwn m entry.1).isSome)) := by
  induction upd generalizing m with
  | nil => rfl
  | cons entry rest ih =>
    obtain ⟨id, u⟩ := entry
    cases hget : getOwn m id with
    | none =>
      have hnot := h (id, u) (List.mem_cons_self _ _) hget
      have hread : readProp m id = .undefined := by
        unfold readProp
        rw [hget]
        simp only at hnot
        simp [hnot]
      rw [reconcile_cons_of_undefined m id u rest hread]
      rw [List.filter_cons_of_neg (by simp [hget])]
      exact ih m (fun e he => h e (List.mem_cons_of_mem _ he))
    | some record =>
      rw [List.filter_cons_of_pos (by simp [hget])]
      have hstep := reconcileStep_known m id u record hget
      simp only [reconcile, hstep]
      have hsame : ∀ k, (getOwn (replaceOwn m id
          { record with stats := applyPlayerUpdate record.stats u }) k).isSome =
          (getOwn m k).isSome :=
        fun k => getOwn_isSome_reconcileStep m _ id k u hstep
      rw [ih _ (fun e he hnone => h e (List.mem_cons_of_mem _ he) (by
        have := hsame e.1
        rw [hnone] at this
        cases hm : getOwn m e.1 with
        | none => rfl
        | some r => rw [hm] at this; cases this))]
      congr 1
      apply List.filter_congr
      intro e _
      exact hsame e.1

/-- The frame of the loop: when no entry combines an id read through the prototype chain
with a patch that dereferences the stats, the loop completes, every player whose id is
not a key of the update has in the resulting map the record it had in the working copy,
the setting of every player is unchanged, and the map keeps its player ids. -/
theorem reconcile_frame (m : PlayerCharacterMap) (upd : StatsUpdate)
    (hsafe : ∀ entry ∈ upd, readProp m entry.1 = .inherited → touchesStats entry.2 = false) :
    ∃ m1, reconcile m upd = .ok m1 ∧
      (∀ id, id ∉ ownKeys upd → getOwn m1 id = getOwn m id) ∧
      (∀ id, (getOwn m1 id).map (fun record => record.setting) =
        (getOwn m id).map (fun record => record.setting)) ∧
      ownKeys m1 = ownKeys m := by
  obtain ⟨m1, hdone⟩ := reconcile_completes upd m hsafe
  exact ⟨m1, hdone, fun id hid => getOwn_reconcile_of_not_mem upd m m1 id hdone hid,
    fun id => setting_reconcile upd m m1 id hdone, ownKeys_reconcile upd m m1 hdone⟩

/-- An inventory without built-ins is its own copy. -/
theorem copyInventory_eq_self (inventory : List Item)
    (h : ∀ key, Item.builtin key ∉ inventory) : copyInventory inventory = some inventory := by
  induction inventory with
  | nil => rfl
  | cons item rest ih =>
    have hrest : ∀ key, Item.builtin key ∉ rest :=
      fun key hk => h key (List.mem_cons_of_mem _ hk)
    have hitem : item.jsonCopy = some item := by
      cases item with
      | name s => rfl
      | builtin key => exact absurd (List.mem_cons_self _ _) (h key)
      | null => rfl
    simp [copyInventory, hitem, ih hrest]

/-- A record whose inventory holds no built-in is its own copy. -/
theorem jsonCopy_eq_self (record : PlayerRecord)
    (h : ∀ key, Item.builtin key ∉ record.stats.inventory) :
    record.jsonCopy = some record := by
  unfold PlayerRecord.jsonCopy
  rw [copyInventory_eq_self _ h]

/-- A map whose inventories hold no built-in is its own deep copy. -/
theorem deepCopy_eq_self (m : PlayerCharacterMap)
    (h : ∀ entry ∈ m, ∀ key, Item.builtin key ∉ entry.2.stats.inventory) :
    deepCopy m = some m := by
  induction m with
  | nil => rfl
  | cons entry rest ih =>
    obtain ⟨id, record⟩ := entry
    have hrec := jsonCopy_eq_self record (h (id, record) (List.mem_cons_self _ _))
    have hrest := ih (fun e he => h e (List.mem_cons_of_mem _ he))
    simp [deepCopy, hrec, hrest]

/-- The deep copy holds, under each id, the copy of the record the map holds there. -/
theorem getOwn_deepCopy (m c : PlayerCharacterMap) (h : deepCopy m = some c) (id : String) :
    getOwn c id = (getOwn m id).bind PlayerRecord.jsonCopy := by
  induction m generalizing c with
  | nil =>
    simp only [deepCopy, Option.some.injEq] at h
    subst h
    rfl
  | cons entry rest ih =>
    obtain ⟨k, record⟩ := entry
    unfold deepCopy at h
    cases hrec : record.jsonCopy with
    | none => rw [hrec] at h; simp at h
    | some copied =>
      cases hrest : deepCopy rest with
      | none => rw [hrec, hrest] at h; simp at h
      | some others =>
        rw [hrec, hrest] at h
        simp only [Option.some.injEq] at h
        subst h
        by_cases hk : k = id
        · simp [getOwn, hk, hrec]
        · simp only [getOwn, hk, if_false]
          exact ih others hrest

/-- The copy of a record keeps the setting. -/
theorem setting_jsonCopy (record copied : PlayerRecord) (h : record.jsonCopy = some copied) :
    copied.setting = record.setting := by
  unfold PlayerRecord.jsonCopy at h
  cases hinv : copyInventory record.stats.inventory with
  | none => rw [hinv] at h; simp at h
  | some inventory =>
    rw [hinv] at h
    simp only [Option.some.injEq] at h
    rw [← h]

/-- The deep copy keeps the player ids and their order. -/
theorem ownKeys_deepCopy (m c : PlayerCharacterMap) (h : deepCopy m = some c) :
    ownKeys c = ownKeys m := by
  induction m generalizing c with
  | nil =>
    simp only [deepCopy, Option.some.injEq] at h
    subst h
    rfl
  | cons entry rest ih =>
    obtain ⟨k, record⟩ := entry
    unfold deepCopy at h
    cases hrec : record.jsonCopy with
    | none => rw [hrec] at h; simp at h
    | some copied =>
      cases hrest : deepCopy rest with
      | none => rw [hrec, hrest] at h; simp at h
      | some others =>
        rw [hrec, hrest] at h
        simp only [Option.some.injEq] at h
        subst h
        simp only [ownKeys, List.map_cons]
        have := ih others hrest
        simp only [ownKeys] at this
        rw [this]

/-- A dynamic read that is inherited on the deep copy is inherited on the map. -/
theorem readProp_inherited_deepCopy (m c : PlayerCharacterMap) (h : deepCopy m = some c)
    (id : String) (hread : readProp c id = .inherited) : readProp m id = .inherited := by
  have hkeys := ownKeys_deepCopy m c h
  have hc : getOwn c id = none := by
    unfold readProp at hread
    cases hget : getOwn c id with
    | none => rfl
    | some r => rw [hget] at hread; cases hread
  have hm : getOwn m id = none := by
    rw [getOwn_eq_none_iff] at hc ⊢
    intro kv hkv hid
    have hmem : id ∈ ownKeys m := by
      rw [← hid]
      exact List.mem_map_of_mem Prod.fst hkv
    rw [← hkeys] at hmem
    obtain ⟨kv2, hkv2, hfst⟩ := List.mem_map.1 hmem
    exact hc kv2 hkv2 hfst
  unfold readProp at hread ⊢
  rw [hc] at hread
  rw [hm]
  exact hread

/-- What the stage returns for an id the update does not name: the copy of the record
the map holds there; and the setting of every player is the one of the map. -/
theorem statReconciler_untouched (m m1 : PlayerCharacterMap) (upd : StatsUpdate)
    (h : statReconciler m upd = some (.ok m1)) :
    (∀ id, id ∉ ownKeys upd → getOwn m1 id = (getOwn m id).bind PlayerRecord.jsonCopy) ∧
    (∀ id, (getOwn m1 id).map (fun record => record.setting) =
      (getOwn m id).map (fun record => record.setting)) := by
  unfold statReconciler at h
  cases hc : deepCopy m with
  | none => rw [hc] at h; cases h
  | some c =>
    rw [hc] at h
    simp only [Option.some.injEq] at h
    constructor
    · intro id hid
      rw [getOwn_reconcile_of_not_mem upd c m1 id h hid, getOwn_deepCopy m c hc id]
    · intro id
      rw [setting_reconcile upd c m1 id h, getOwn_deepCopy m c hc id]
      cases hm : getOwn m id with
      | none => rfl
      | some record =>
        cases hrec : record.jsonCopy with
        | none =>
          exfalso
          have hnone := getOwn_deepCopy m c hc id
          rw [hm] at hnone
          have hbind : (some record).bind PlayerRecord.jsonCopy = none := hrec
          rw [hbind] at hnone
          have hkeys := ownKeys_deepCopy m c hc
          have hmem : id ∈ ownKeys m := mem_ownKeys_of_getOwn m id record hm
          rw [← hkeys] at hmem
          rw [getOwn_eq_none_iff] at hnone
          obtain ⟨kv, hkv, hfst⟩ := List.mem_map.1 hmem
          exact hnone kv hkv hfst
        | some copied =>
          have hbind : (some record).bind PlayerRecord.jsonCopy = some copied := hrec
          rw [hbind]
          show some copied.setting = some record.setting
          rw [setting_jsonCopy record copied hrec]

/-- On a map whose inventories hold no built-in the stage completes under the condition
of `reconcile_completes`, keeps the record of every player the update does not name,
the setting of every player, and the player ids. -/
theorem statReconciler_frame (m : PlayerCharacterMap) (upd : StatsUpdate)
    (hdata : ∀ entry ∈ m, ∀ key, Item.builtin key ∉ entry.2.stats.inventory)
    (hsafe : ∀ entry ∈ upd, readProp m entry.1 = .inherited → touchesStats entry.2 = false) :
    ∃ m1, statReconciler m upd = some (.ok m1) ∧
      (∀ id, id ∉ ownKeys upd → getOwn m1 id = getOwn m id) ∧
      (∀ id, (getOwn m1 id).map (fun record => record.setting) =
        (getOwn m id).map (fun record => record.setting)) ∧
      ownKeys m1 = ownKeys m := by
  obtain ⟨m1, h1, h2, h3, h4⟩ := reconcile_frame m upd hsafe
  refine ⟨m1, ?_, h2, h3, h4⟩
  unfold statReconciler
  rw [deepCopy_eq_self m hdata]
  simp only [h1]

/-- The stage at a map of item names: the update names only `p1`, and `p2` keeps its
record. -/
theorem statReconciler_frame_example :
    ∃ m1, statReconciler
        [("p1", examplePlayer [.name "Sword"] []), ("p2", examplePlayer [] [])]
        [("p1", { health := some 40, inventory_remove := some ["Sword"] })] = some (.ok m1) ∧
      getOwn m1 "p2" = some (examplePlayer [] []) ∧
      (getOwn m1 "p1").map (fun record => record.setting) = some exampleSetting :=
  ⟨_, rfl, rfl, rfl⟩

/-- C14 (failing input): the loop itself leaves a function in an inventory when an item
is equipped into the slot `toString` (first equation).  On a map whose player `u1` holds
such an inventory, with an update that names only `u2`, the stage returns for `u1` a
record whose inventory holds `null` in place of the function: the record of a player the
update does not name is not its record in the input map.  In general the stage returns,
for every id the update does not name, the JSON copy of the input record, and it keeps
every setting; on a map whose inventories hold no built-in it completes and returns the
input record itself. -/
theorem C14_deep_copy_changes_untouched_record :
    applyPlayerUpdate (examplePlayer [.name "Sword"] []).stats
        { inventory_equip := some ⟨"Sword", "toString"⟩ } =
      (examplePlayer [.builtin "toString"] [("toString", "Sword")]).stats ∧
    statReconciler
        [("u1", examplePlayer [.builtin "toString"] [("toString", "Sword")]),
         ("u2", examplePlayer [] [])]
        [("u2", { health := some 50 })] =
      some (.ok
        [("u1", examplePlayer [.null] [("toString", "Sword")]),
         ("u2", { stats := { health := 50, gold := 10, experience := 0, inventory := [],
                             equipped_items := [], location := "Cave" }
                  setting := exampleSetting })]) ∧
    "u1" ∉ ownKeys [("u2", ({ health := some 50 } : PlayerUpdate))] ∧
    examplePlayer [.null] [("toString", "Sword")] ≠
      examplePlayer [.builtin "toString"] [("toString", "Sword")] ∧
    (∀ (m m1 : PlayerCharacterMap) (upd : StatsUpdate),
      statReconciler m upd = some (.ok m1) →
      (∀ id, id ∉ ownKeys upd → getOwn m1 id = (getOwn m id).bind PlayerRecord.jsonCopy) ∧
      (∀ id, (getOwn m1 id).map (fun record => record.setting) =
        (getOwn m id).map (fun record => record.setting))) ∧
    (∀ (m : PlayerCharacterMap) (upd : StatsUpdate),
      (∀ entry ∈ m, ∀ key, Item.builtin key ∉ entry.2.stats.inventory) →
      (∀ entry ∈ upd, readProp m entry.1 = .inherited → touchesStats entry.2 = false) →
      ∃ m1, statReconciler m upd = some (.ok m1) ∧
        (∀ id, id ∉ ownKeys upd → getOwn m1 id = getOwn m id) ∧
        (∀ id, (getOwn m1 id).map (fun record => record.setting) =
          (getOwn m id).map (fun record => record.setting)) ∧
        ownKeys m1 = ownKeys m) :=
  ⟨by decide, rfl, by decide, by decide, statReconciler_untouched, statReconciler_frame⟩

/-! ## Stat Reconciler: the placement invariant (claim C15) -/

/-- The placement invariant, as a statement about every slot. -/
theorem placementExclusive_iff (s : CharacterStats) :
    placementExclusive s = true ↔
      ∀ slot item, getOwn s.equipped_items slot = some item → Item.name item ∉ s.inventory := by
  unfold placementExclusive
  rw [List.all_eq_true]
  constructor
  · intro h slot item hget
    have := h slot (mem_ownKeys_of_getOwn _ slot item hget)
    simpa [hget] using this
  · intro h slot _
    cases hget : getOwn s.equipped_items slot with
    | none => rfl
    | some item => simpa using h slot item hget

/-- Distinctness of the items held by slots, as a statement about every pair of slots. -/
theorem slotsDistinct_iff (s : CharacterStats) :
    slotsDistinct s = true ↔
      ∀ a b item, getOwn s.equipped_items a = some item →
        getOwn s.equipped_items b = some item → a = b := by
  unfold slotsDistinct
  rw [List.all_eq_true]
  constructor
  · intro h a b item ha hb
    have h1 := h a (mem_ownKeys_of_getOwn _ a item ha)
    rw [List.all_eq_true] at h1
    have h2 := h1 b (mem_ownKeys_of_getOwn _ b item hb)
    simp only [decide_eq_true_eq] at h2
    rcases h2 with h2 | h2
    · exact h2
    · exact absurd (ha.trans hb.symm) h2
  · intro h a _
    rw [List.all_eq_true]
    intro b _
    simp only [decide_eq_true_eq]
    by_cases hab : a = b
    · exact Or.inl hab
    · right
      intro heq
      cases ha : getOwn s.equipped_items a with
      | none =>
        -- a is an own key, so it reads a value
        have hmem : a ∈ ownKeys s.equipped_items := by assumption
        have : getOwn s.equipped_items a ≠ none := by
          rw [Ne, getOwn_eq_none_iff]
          intro hall
          simp only [ownKeys, List.mem_map] at hmem
          obtain ⟨kv, hkv, hk⟩ := hmem
          exact hall kv hkv hk
        exact this ha
      | some item =>
        exact hab (h a b item ha (by rw [← heq, ha]))



/-- A dynamic read gives an own value exactly when the key is own with that value. -/
theorem readProp_eq_own_iff {α : Type} (o : List (String × α)) (key : String) (v : α) :
    readProp o key = .own v ↔ getOwn o key = some v := by
  unfold readProp
  cases h : getOwn o key with
  | none => by_cases hin : key ∈ objectPrototypeKeys <;> simp [hin]
  | some w => simp

/-- The equip step keeps the placement invariant when no two slots hold the same item. -/
theorem applyEquip_placement (s : CharacterStats) (u : PlayerUpdate)
    (hexcl : ∀ slot item, getOwn s.equipped_items slot = some item →
      Item.name item ∉ s.inventory)
    (hdist : ∀ a b item, getOwn s.equipped_items a = some item →
      getOwn s.equipped_items b = some item → a = b) :
    (∀ slot item, getOwn (applyEquip s u).equipped_items slot = some item →
      Item.name item ∉ (applyEquip s u).inventory) ∧
    (∀ a b item, getOwn (applyEquip s u).equipped_items a = some item →
      getOwn (applyEquip s u).equipped_items b = some item → a = b) := by
  unfold applyEquip
  cases hreq : u.inventory_equip with
  | none => exact ⟨hexcl, hdist⟩
  | some request =>
    simp only
    by_cases hguard : request.item ≠ "" ∧ request.slot ≠ ""
    · by_cases hin : Item.name request.item ∈ s.inventory
      · rw [if_pos hguard, if_pos hin]
        constructor
        · intro k v hget hmem
          rw [getOwn_setOwn] at hget
          rw [List.mem_filter] at hmem
          obtain ⟨hpush, hne⟩ := hmem
          by_cases hk : k = request.slot
          · simp only [hk, if_true, Option.some.injEq] at hget
            subst hget
            simp at hne
          · simp only [hk, if_false] at hget
            have hnot := hexcl k v hget
            unfold pushPrevious at hpush
            cases hread : readProp s.equipped_items request.slot with
            | own previous =>
              rw [hread] at hpush
              simp only at hpush
              have hprev := (readProp_eq_own_iff _ _ _).1 hread
              by_cases hp : previous ≠ ""
              · rw [if_pos hp] at hpush
                simp only [List.mem_append, List.mem_singleton, Item.name.injEq] at hpush
                rcases hpush with h1 | h1
                · exact hnot h1
                · subst h1
                  exact hk (hdist k request.slot v hget hprev)
              · rw [if_neg hp] at hpush
                exact hnot hpush
            | inherited =>
              rw [hread] at hpush
              simp only [List.mem_append, List.mem_singleton] at hpush
              rcases hpush with h1 | h1
              · exact hnot h1
              · cases h1
            | undefined =>
              rw [hread] at hpush
              exact hnot hpush
        · intro a b item ha hb
          rw [getOwn_setOwn] at ha hb
          by_cases haS : a = request.slot
          · by_cases hbS : b = request.slot
            · rw [haS, hbS]
            · simp only [haS, if_true, Option.some.injEq] at ha
              simp only [hbS, if_false] at hb
              subst ha
              exact absurd hin (hexcl b _ hb)
          · by_cases hbS : b = request.slot
            · simp only [hbS, if_true, Option.some.injEq] at hb
              simp only [haS, if_false] at ha
              subst hb
              exact absurd hin (hexcl a _ ha)
            · simp only [haS, if_false] at ha
              simp only [hbS, if_false] at hb
              exact hdist a b item ha hb
      · rw [if_pos hguard, if_neg hin]
        exact ⟨hexcl, hdist⟩
    · rw [if_neg hguard]
      exact ⟨hexcl, hdist⟩

/-- The unequip step keeps the placement invariant when no two slots hold the same item. -/
theorem applyUnequip_placement (s : CharacterStats) (u : PlayerUpdate)
    (hexcl : ∀ slot item, getOwn s.equipped_items slot = some item →
      Item.name item ∉ s.inventory)
    (hdist : ∀ a b item, getOwn s.equipped_items a = some item →
      getOwn s.equipped_items b = some item → a = b) :
    (∀ slot item, getOwn (applyUnequip s u).equipped_items slot = some item →
      Item.name item ∉ (applyUnequip s u).inventory) ∧
    (∀ a b item, getOwn (applyUnequip s u).equipped_items a = some item →
      getOwn (applyUnequip s u).equipped_items b = some item → a = b) := by
  unfold applyUnequip
  cases hreq : u.inventory_unequip with
  | none => exact ⟨hexcl, hdist⟩
  | some x =>
    simp only
    by_cases hx : x ≠ ""
    · rw [if_pos hx]
      cases hfind : equippedSlot s.equipped_items x with
      | none => exact ⟨hexcl, hdist⟩
      | some k =>
        simp only
        by_cases hk : k ≠ ""
        · rw [if_pos hk]
          have hholds := equippedSlot_holds _ _ _ hfind
          constructor
          · intro a v hget hmem
            rw [getOwn_deleteOwn] at hget
            by_cases hak : a = k
            · simp [hak] at hget
            · simp only [hak, if_false] at hget
              simp only [List.mem_append, List.mem_singleton, Item.name.injEq] at hmem
              rcases hmem with h1 | h1
              · exact hexcl a v hget h1
              · subst h1
                exact hak (hdist a k v hget hholds)
          · intro a b item ha hb
            rw [getOwn_deleteOwn] at ha hb
            by_cases hak : a = k
            · simp [hak] at ha
            · by_cases hbk : b = k
              · simp [hbk] at hb
              · simp only [hak, if_false] at ha
                simp only [hbk, if_false] at hb
                exact hdist a b item ha hb
        · rw [if_neg hk]
          exact ⟨hexcl, hdist⟩
    · rw [if_neg hx]
      exact ⟨hexcl, hdist⟩

/-- The loop body keeps the placement invariant, and keeps the slots holding distinct
items, when no name of `inventory_add` is held by a slot. -/
theorem applyPlayerUpdate_placement (s : CharacterStats) (u : PlayerUpdate)
    (hexcl : ∀ slot item, getOwn s.equipped_items slot = some item →
      Item.name item ∉ s.inventory)
    (hdist : ∀ a b item, getOwn s.equipped_items a = some item →
      getOwn s.equipped_items b = some item → a = b)
    (hadd : ∀ added ∈ u.inventory_add.getD [], ∀ slot,
      getOwn s.equipped_items slot ≠ some added) :
    (∀ slot item, getOwn (applyPlayerUpdate s u).equipped_items slot = some item →
      Item.name item ∉ (applyPlayerUpdate s u).inventory) ∧
    (∀ a b item, getOwn (applyPlayerUpdate s u).equipped_items a = some item →
      getOwn (applyPlayerUpdate s u).equipped_items b = some item → a = b) := by
  unfold applyPlayerUpdate
  have hsc_eq : (applyScalars s u).equipped_items = s.equipped_items := rfl
  have hsc_inv : (applyScalars s u).inventory = s.inventory := rfl
  obtain ⟨_, _, _, _, hadd_eq⟩ := applyAdd_frame (applyScalars s u) u
  obtain ⟨_, _, _, _, hrem_eq⟩ := applyRemove_frame (applyAdd (applyScalars s u) u) u
  have hadd_inv : ∀ i, i ∈ (applyAdd (applyScalars s u) u).inventory →
      i ∈ s.inventory ∨ i ∈ (u.inventory_add.getD []).map Item.name := by
    intro i hi
    unfold applyAdd at hi
    cases ha : u.inventory_add with
    | none =>
      rw [ha] at hi
      exact Or.inl hi
    | some add =>
      rw [ha] at hi
      simp only [mem_setSpread, List.mem_append] at hi
      simpa [hsc_inv] using hi
  have hrem_inv : ∀ i, i ∈ (applyRemove (applyAdd (applyScalars s u) u) u).inventory →
      i ∈ (applyAdd (applyScalars s u) u).inventory := by
    intro i hi
    unfold applyRemove at hi
    cases hr : u.inventory_remove with
    | none => rw [hr] at hi; exact hi
    | some remove =>
      rw [hr] at hi
      exact (List.mem_filter.1 hi).1
  have hexcl3 : ∀ slot item,
      getOwn (applyRemove (applyAdd (applyScalars s u) u) u).equipped_items slot = some item →
      Item.name item ∉ (applyRemove (applyAdd (applyScalars s u) u) u).inventory := by
    intro slot item hget hmem
    rw [hrem_eq, hadd_eq, hsc_eq] at hget
    rcases hadd_inv _ (hrem_inv _ hmem) with h1 | h1
    · exact hexcl slot item hget h1
    · simp only [List.mem_map, Item.name.injEq] at h1
      obtain ⟨a, ha, hai⟩ := h1
      subst hai
      exact hadd a ha slot hget
  have hdist3 : ∀ a b item,
      getOwn (applyRemove (applyAdd (applyScalars s u) u) u).equipped_items a = some item →
      getOwn (applyRemove (applyAdd (applyScalars s u) u) u).equipped_items b = some item →
      a = b := by
    intro a b item ha hb
    rw [hrem_eq, hadd_eq, hsc_eq] at ha hb
    exact hdist a b item ha hb
  obtain ⟨hexcl4, hdist4⟩ := applyEquip_placement _ u hexcl3 hdist3
  exact applyUnequip_placement _ u hexcl4 hdist4

/-- C15 (counterexample): two records that satisfy the placement invariant and lose it.
Adding an item a slot already holds puts it in the inventory too; unequipping an item
that two slots hold pushes it to the inventory while the second slot keeps it. -/
theorem C15_counterexample_placement :
    (placementExclusive (examplePlayer [] [("main_hand", "Sword")]).stats = true ∧
      placementExclusive (applyPlayerUpdate (examplePlayer [] [("main_hand", "Sword")]).stats
        { inventory_add := some ["Sword"] }) = false) ∧
    (placementExclusive (examplePlayer [] [("left", "Ring"), ("right", "Ring")]).stats = true ∧
      placementExclusive
        (applyPlayerUpdate (examplePlayer [] [("left", "Ring"), ("right", "Ring")]).stats
          { inventory_unequip := some "Ring" }) = false) := by
  decide

/-- C15 (amended): for a known player whose record satisfies the placement invariant,
whose slots hold pairwise distinct items, and a patch whose `inventory_add` names no
item held by a slot, the reconciled record satisfies the placement invariant and its
slots still hold pairwise distinct items. -/
theorem C15_placement_preserved (m : PlayerCharacterMap) (id : String) (r : PlayerRecord)
    (p : PlayerUpdate) (hknown : getOwn m id = some r)
    (hexclusive : placementExclusive r.stats = true)
    (hdistinct : slotsDistinct r.stats = true)
    (hadd : ∀ added ∈ p.inventory_add.getD [], ∀ slot,
      getOwn r.stats.equipped_items slot ≠ some added) :
    ∃ r1, recordAfter m [(id, p)] id = some r1 ∧
      placementExclusive r1.stats = true ∧ slotsDistinct r1.stats = true := by
  refine ⟨_, recordAfter_known m id r p hknown, ?_⟩
  rw [placementExclusive_iff, slotsDistinct_iff]
  exact applyPlayerUpdate_placement r.stats p ((placementExclusive_iff _).1 hexclusive)
    ((slotsDistinct_iff _).1 hdistinct) hadd

theorem C15_placement_preserved_witness :
    ∃ r1, recordAfter [("p1", examplePlayer [.name "Sword"] [("head", "Helm")])]
        [("p1", { inventory_add := some ["Rope"], inventory_equip := some ⟨"Sword", "head"⟩ })]
        "p1" = some r1 ∧
      placementExclusive r1.stats = true ∧ slotsDistinct r1.stats = true :=
  C15_placement_preserved [("p1", examplePlayer [.name "Sword"] [("head", "Helm")])] "p1"
    (examplePlayer [.name "Sword"] [("head", "Helm")])
    { inventory_add := some ["Rope"], inventory_equip := some ⟨"Sword", "head"⟩ }
    rfl (by decide) (by decide)
    (by
      intro added hadded slot hslot
      have hrope : added = "Rope" := by simpa using hadded
      subst hrope
      by_cases h : "head" = slot
      · rw [show (examplePlayer [.name "Sword"] [("head", "Helm")]).stats.equipped_items =
            [("head", "Helm")] from rfl, getOwn_cons, if_pos h] at hslot
        exact absurd hslot (by decide)
      · rw [show (examplePlayer [.name "Sword"] [("head", "Helm")]).stats.equipped_items =
            [("head", "Helm")] from rfl, getOwn_cons, if_neg h] at hslot
        exact Option.noConfusion hslot)

/-! ## Response Parser: candidate document and defaults (claims C17, C18) -/

/-- `dropWhile` stops at the first element that fails the test. -/
theorem dropWhile_append_stop (p : Char → Bool) (pre rest : List Char) (c : Char)
    (hpre : ∀ x ∈ pre, p x = true) (hc : p c = false) :
    (pre ++ c :: rest).dropWhile p = c :: rest := by
  induction pre with
  | nil => simp [List.dropWhile, hc]
  | cons x xs ih =>
    have hx : p x = true := hpre x (List.mem_cons_self _ _)
    simp only [List.cons_append, List.dropWhile_cons, hx, if_true]
    exact ih (fun y hy => hpre y (List.mem_cons_of_mem _ hy))

/-- A list is what `dropWhile` skips followed by what it keeps, and the kept part, when
not empty, starts with an element that fails the test. -/
theorem dropWhile_split (p : Char → Bool) (l : List Char) :
    ∃ skipped, l = skipped ++ l.dropWhile p ∧ (∀ x ∈ skipped, p x = true) ∧
      (∀ c rest, l.dropWhile p = c :: rest → p c = false) := by
  refine ⟨l.takeWhile p, (List.takeWhile_append_dropWhile p l).symm, ?_, ?_⟩
  · intro x hx
    exact List.mem_takeWhile_imp hx
  · intro c rest h
    have := List.head_dropWhile_not p l (by rw [h]; simp)
    simpa [h] using this

/-- The match on a text that reads: characters without an opening brace, an opening
brace, any characters, a closing brace, characters without a closing brace. -/
theorem jsonMatch_of_split (pre mid post : List Char) (hpre : '{' ∉ pre) (hpost : '}' ∉ post) :
    jsonMatch (String.mk (pre ++ '{' :: (mid ++ '}' :: post))) =
      some (String.mk ('{' :: (mid ++ ['}']))) := by
  unfold jsonMatch
  have h1 : (pre ++ '{' :: (mid ++ '}' :: post)).dropWhile (fun c => c != '{') =
      '{' :: (mid ++ '}' :: post) := by
    apply dropWhile_append_stop
    · intro x hx
      have : x ≠ '{' := fun e => hpre (e ▸ hx)
      simpa using this
    · simp
  have h2 : ('{' :: (mid ++ '}' :: post)).reverse =
      post.reverse ++ '}' :: ('{' :: mid).reverse := by
    simp
  have h3 : (post.reverse ++ '}' :: ('{' :: mid).reverse).dropWhile (fun c => c != '}') =
      '}' :: ('{' :: mid).reverse := by
    apply dropWhile_append_stop
    · intro x hx
      have : x ≠ '}' := fun e => hpost (e ▸ (List.mem_reverse.1 hx))
      simpa using this
    · simp
  simp only [String.toList]
  rw [h1, h2, h3]
  simp

/-- A match is a split of the text at its first opening brace and last closing brace. -/
theorem split_of_jsonMatch (rawJson m : String) (h : jsonMatch rawJson = some m) :
    ∃ pre mid post, rawJson.toList = pre ++ '{' :: (mid ++ '}' :: post) ∧
      '{' ∉ pre ∧ '}' ∉ post := by
  unfold jsonMatch at h
  simp only at h
  obtain ⟨pre, hsplit, hpre, hhead⟩ := dropWhile_split (fun c => c != '{') rawJson.toList
  obtain ⟨postRev, hsplit2, hpost, hhead2⟩ := dropWhile_split (fun c => c != '}')
    (rawJson.toList.dropWhile (fun c => c != '{')).reverse
  cases hd : ((rawJson.toList.dropWhile (fun c => c != '{')).reverse.dropWhile
      (fun c => c != '}')) with
  | nil => rw [hd] at h; simp at h
  | cons c body =>
    have hc : c = '}' := by
      have := hhead2 c body hd
      simpa using this
    subst hc
    rw [hd] at hsplit2
    have hfrom : rawJson.toList.dropWhile (fun c => c != '{') =
        body.reverse ++ '}' :: postRev.reverse := by
      have := congrArg List.reverse hsplit2
      simpa using this
    cases hb : body.reverse with
    | nil =>
      rw [hb] at hfrom
      have := hhead '}' postRev.reverse (by simpa using hfrom)
      simp at this
    | cons b mid =>
      rw [hb] at hfrom
      have hbo : b = '{' := by
        have := hhead b (mid ++ '}' :: postRev.reverse) (by simpa using hfrom)
        simpa using this
      subst hbo
      refine ⟨pre, mid, postRev.reverse, ?_, ?_, ?_⟩
      · rw [hfrom] at hsplit
        simpa using hsplit
      · intro hmem
        have := hpre _ hmem
        simp at this
      · intro hmem
        have := hpost _ (List.mem_reverse.1 hmem)
        simp at this

/-- `dropWhile` on a list that holds an element failing the test keeps that element. -/
theorem dropWhile_keeps (p : Char → Bool) (a rest : List Char) (c : Char) (hc : p c = false) :
    ∃ u, (a ++ c :: rest).dropWhile p = u ++ c :: rest := by
  induction a with
  | nil => exact ⟨[], by simp [List.dropWhile, hc]⟩
  | cons x xs ih =>
    by_cases hx : p x = true
    · obtain ⟨u, hu⟩ := ih
      exact ⟨u, by simp only [List.cons_append, List.dropWhile_cons, hx, if_true, hu]⟩
    · refine ⟨x :: xs, ?_⟩
      simp only [List.cons_append, List.dropWhile_cons, hx]
      simp

/-- A text with an opening brace followed somewhere by a closing brace has a match. -/
theorem jsonMatch_isSome_of_pair (rawJson : String) (a b c : List Char)
    (h : rawJson.toList = a ++ '{' :: (b ++ '}' :: c)) : ∃ m, jsonMatch rawJson = some m := by
  unfold jsonMatch
  simp only
  obtain ⟨u, hu⟩ := dropWhile_keeps (fun x => x != '{') a (b ++ '}' :: c) '{' (by simp)
  rw [h, hu]
  have hne : ((u ++ '{' :: (b ++ '}' :: c)).reverse.dropWhile (fun x => x != '}')).reverse ≠ [] := by
    intro hnil
    have hnil2 : (u ++ '{' :: (b ++ '}' :: c)).reverse.dropWhile (fun x => x != '}') = [] := by
      simpa using hnil
    rw [List.dropWhile_eq_nil_iff] at hnil2
    have := hnil2 '}' (by simp)
    simp at this
  simp only [hne, if_false]
  exact ⟨_, rfl⟩

/-- C17: a raw text that holds an opening brace followed somewhere by a closing brace
splits at its first opening brace and its last closing brace, and the candidate document
is the part of the text from the one to the other, both included; a raw text without
such a pair is its own candidate document. -/
theorem C17_candidate_document (rawJson : String) :
    ((∃ a b c : List Char, rawJson.toList = a ++ '{' :: (b ++ '}' :: c)) →
      ∃ pre mid post : List Char,
        rawJson.toList = pre ++ '{' :: (mid ++ '}' :: post) ∧ '{' ∉ pre ∧ '}' ∉ post ∧
        jsonText rawJson = String.mk ('{' :: (mid ++ ['}']))) ∧
    ((¬ ∃ a b c : List Char, rawJson.toList = a ++ '{' :: (b ++ '}' :: c)) →
      jsonText rawJson = rawJson) := by
  constructor
  · rintro ⟨a, b, c, hpair⟩
    obtain ⟨m, hm⟩ := jsonMatch_isSome_of_pair rawJson a b c hpair
    obtain ⟨pre, mid, post, hsplit, hpre, hpost⟩ := split_of_jsonMatch rawJson m hm
    refine ⟨pre, mid, post, hsplit, hpre, hpost, ?_⟩
    have hraw : rawJson = String.mk (pre ++ '{' :: (mid ++ '}' :: post)) := by
      rw [← hsplit]
      cases rawJson
      rfl
    rw [hraw]
    simp [jsonText, jsonMatch_of_split pre mid post hpre hpost]
  · intro hno
    unfold jsonText
    cases h : jsonMatch rawJson with
    | none => rfl
    | some m =>
      obtain ⟨pre, mid, post, hsplit, _, _⟩ := split_of_jsonMatch rawJson m h
      exact absurd ⟨pre, mid, post, hsplit⟩ hno

theorem C17_candidate_document_witness :
    (∃ pre mid post : List Char,
      "Sure: \x7b\"a\": \x7b\"b\": 1\x7d\x7d done \x7d.".toList = pre ++ '{' :: (mid ++ '}' :: post) ∧
      '{' ∉ pre ∧ '}' ∉ post ∧
      jsonText "Sure: \x7b\"a\": \x7b\"b\": 1\x7d\x7d done \x7d." = String.mk ('{' :: (mid ++ ['}']))) ∧
    jsonText "Sure: \x7b\"a\": \x7b\"b\": 1\x7d\x7d done \x7d." = "\x7b\"a\": \x7b\"b\": 1\x7d\x7d done \x7d" ∧
    jsonText "closing \x7d before opening \x7b" = "closing \x7d before opening \x7b" := by
  refine ⟨?_, by decide, ?_⟩
  · exact (C17_candidate_document "Sure: \x7b\"a\": \x7b\"b\": 1\x7d\x7d done \x7d.").1
      ⟨"Sure: ".toList, "\"a\": \x7b\"b\": 1\x7d\x7d done ".toList, ".".toList, by decide⟩
  · apply (C17_candidate_document "closing \x7d before opening \x7b").2
    rintro ⟨a, b, c, h⟩
    obtain ⟨m, hm⟩ := jsonMatch_isSome_of_pair _ a b c h
    have hnone : jsonMatch "closing \x7d before opening \x7b" = none := by decide
    rw [hnone] at hm
    exact Option.noConfusion hm

/-- C18 (counterexample): the object decoded from a response whose `narrative` member is
present and is the empty string gets the placeholder narrative, not the empty string. -/
theorem C18_counterexample_present_empty_narrative :
    JSON.parse (jsonText "\x7b\"narrative\":\"\"\x7d") = some (.obj [("narrative", .str "")]) ∧
    getOwn [("narrative", JVal.str "")] "narrative" = some (.str "") ∧
    ∃ p, responseParser "\x7b\"narrative\":\"\"\x7d" = .ok p ∧
      p.narrative = .str "The story continues..." ∧ p.narrative ≠ .str "" := by
  refine ⟨rfl, rfl, { narrative := .str "The story continues...", stats_update := .obj [],
                      options := .arr [] }, rfl, rfl, ?_⟩
  intro h
  simp at h

/-- C18 (amended): for a response that decodes to an object, each of `narrative`,
`stats_update` and `options` is its default when the member is missing, and when the
member is present it is the decoded value if that value is truthy and the default
otherwise; so a non-empty narrative string, an object `stats_update` and an array
`options` are kept verbatim, while an empty narrative string is replaced. -/
theorem C18_field_defaults (rawJson : String) (members : List (String × JVal))
    (hdecode : JSON.parse (jsonText rawJson) = some (.obj members)) :
    ∃ p, responseParser rawJson = .ok p ∧
      (getOwn members "narrative" = none → p.narrative = .str "The story continues...") ∧
      (∀ v, getOwn members "narrative" = some v →
        p.narrative = if v.toBoolean = true then v else .str "The story continues...") ∧
      (∀ narrative, getOwn members "narrative" = some (.str narrative) → narrative ≠ "" →
        p.narrative = .str narrative) ∧
      (getOwn members "stats_update" = none → p.stats_update = .obj []) ∧
      (∀ v, getOwn members "stats_update" = some v →
        p.stats_update = if v.toBoolean = true then v else .obj []) ∧
      (∀ patches, getOwn members "stats_update" = some (.obj patches) →
        p.stats_update = .obj patches) ∧
      (getOwn members "options" = none → p.options = .arr []) ∧
      (∀ v, getOwn members "options" = some v →
        p.options = if v.toBoolean = true then v else .arr []) ∧
      (∀ options, getOwn members "options" = some (.arr options) →
        p.options = .arr options) := by
  have hrun : responseParser rawJson =
      .ok { narrative := orDefault (getOwn members "narrative") (.str "The story continues...")
            stats_update := orDefault (getOwn members "stats_update") (.obj [])
            options := orDefault (getOwn members "options") (.arr []) } := by
    simp [responseParser, parsedResponse, hdecode, member]
  refine ⟨_, hrun, ?_, ?_, ?_, ?_, ?_, ?_, ?_, ?_, ?_⟩
  · intro h; simp [h, orDefault]
  · intro v h; simp [h, orDefault]
  · intro narrative h hn
    simp [h, orDefault, JVal.toBoolean, hn]
  · intro h; simp [h, orDefault]
  · intro v h; simp [h, orDefault]
  · intro patches h; simp [h, orDefault, JVal.toBoolean]
  · intro h; simp [h, orDefault]
  · intro v h; simp [h, orDefault]
  · intro options h; simp [h, orDefault, JVal.toBoolean]

theorem C18_field_defaults_witness :
    ∃ p, responseParser "\x7b\"narrative\":\"A door opens.\",\"options\":[]\x7d" = .ok p ∧
      p.narrative = .str "A door opens." ∧ p.stats_update = .obj [] ∧ p.options = .arr [] := by
  obtain ⟨p, h1, _, _, h3, h4, _, _, _, _, h7⟩ := C18_field_defaults
    "\x7b\"narrative\":\"A door opens.\",\"options\":[]\x7d"
    [("narrative", .str "A door opens."), ("options", .arr [])] rfl
  exact ⟨p, h1, h3 "A door opens." rfl (by decide), h4 rfl, h7 [] rfl⟩

/-! ## `callGemini`, `saveGameState` and `handlePlayerAction` (claims C16, C19, C20) -/

/-- On the empty map the completed loop returns the empty map. -/
theorem reconcile_empty (statsUpdate : StatsUpdate) (m1 : PlayerCharacterMap)
    (h : reconcile [] statsUpdate = .ok m1) : m1 = [] := by
  have := ownKeys_reconcile statsUpdate [] m1 h
  cases m1 with
  | nil => rfl
  | cons kv rest => simp [ownKeys] at this

/-- On the empty map `updatedStats` is the stats `callGemini` was given. -/
theorem updatedStats_empty (userId : Option String) (currentCharacterStats : CharacterStats) :
    updatedStats [] userId currentCharacterStats = currentCharacterStats := by
  unfold updatedStats readProp
  simp only [getOwn]
  by_cases h : propertyKey userId ∈ objectPrototypeKeys <;> simp [h]

/-- With an empty player map `callGemini` returns the stats it was given. -/
theorem callGeminiGame_empty (parsed : ParsedResponse) (statsUpdate : StatsUpdate)
    (userId : Option String) (currentCharacterStats : CharacterStats) :
    (callGeminiGame parsed statsUpdate [] userId currentCharacterStats).updatedStats =
      currentCharacterStats := by
  unfold callGeminiGame
  cases h : reconcile [] statsUpdate with
  | error e => rfl
  | ok m1 =>
    simp only
    rw [reconcile_empty statsUpdate m1 h, updatedStats_empty]

/-- C16 (failing input): with the empty player map that single-player passes, the
`updatedStats` returned by `callGemini` are the stats it was given, whatever the update
holds.  For the response whose `stats_update` sets health 80 and adds a Potion for user
`u1`, the returned stats and the stats `handlePlayerAction` persists are still health 100
with an empty inventory. -/
theorem C16_single_player_patch_not_applied :
    (∀ (parsed : ParsedResponse) (statsUpdate : StatsUpdate) (userId : Option String)
        (currentCharacterStats : CharacterStats),
      (callGeminiGame parsed statsUpdate [] userId currentCharacterStats).updatedStats =
        currentCharacterStats) ∧
    (∃ parsed, responseParser
        "\x7b\"narrative\":\"The troll hits you.\",\"stats_update\":\x7b\"u1\":\x7b\"health\":80,\"inventory_add\":[\"Potion\"]\x7d\x7d\x7d" =
          .ok parsed ∧
      readStatsUpdate parsed.stats_update =
        some [("u1", { health := some 80, inventory_add := some ["Potion"] })] ∧
      (callGeminiGame parsed [("u1", { health := some 80, inventory_add := some ["Potion"] })]
        [] (some "u1") (examplePlayer [] []).stats).updatedStats =
          (examplePlayer [] []).stats ∧
      ((handlePlayerAction (exampleSession []) (some "I fight the troll")
          (fun _ currentCharacterStats _ allPlayerCharacters =>
            .ok (callGeminiGame parsed
              [("u1", { health := some 80, inventory_add := some ["Potion"] })]
              allPlayerCharacters (some "u1") currentCharacterStats))).write.map
          (fun w => w.dataToSave.characterStats)) =
        some (some (examplePlayer [] []).stats)) ∧
    (examplePlayer [] []).stats.health = 100 ∧ (examplePlayer [] []).stats.inventory = [] := by
  refine ⟨callGeminiGame_empty, ⟨_, rfl, rfl, rfl, rfl⟩, rfl, rfl⟩

/-- The write of `saveGameState` for a signed-in user: its document carries the chat
history and the options it was given. -/
theorem saveGameState_of_user (st : AppState) (userId : String)
    (huser : st.userId = some userId) (hid : userId ≠ "")
    (newChatHistory : List ChatEntry) (newCharacterStats : CharacterStats)
    (newWorldSetting : WorldSetting) (newCurrentOptions : JVal)
    (newPlayerCharacters : Option PlayerCharacterMap) :
    ∃ w, saveGameState st newChatHistory newCharacterStats newWorldSetting newCurrentOptions
        newPlayerCharacters = some w ∧
      w.dataToSave.chatHistory = newChatHistory ∧
      w.dataToSave.currentOptions = newCurrentOptions := by
  unfold saveGameState
  rw [huser]
  simp only [hid, if_false]
  by_cases hm : st.isMultiplayer = true ∧ st.gameCode ≠ ""
  · rw [if_pos hm]
    exact ⟨_, rfl, rfl, rfl⟩
  · rw [if_neg hm]
    exact ⟨_, rfl, rfl, rfl⟩

/-- C19: for a signed-in user, a non-blank input and an idle handler, the chat history
that `handlePlayerAction` persists is the prior history followed by the user entry for
the input and one model entry, whose text is the narrative returned by `callGemini` when
the call returns; the prior history is a prefix of it and its length is two more. -/
theorem C19_chat_history_append_only (st : AppState) (actionText : Option String)
    (callGemini : List ChatEntry → CharacterStats → WorldSetting → PlayerCharacterMap →
      Except JSError GeminiResult)
    (userId : String) (huser : st.userId = some userId) (hid : userId ≠ "")
    (hinput : isBlank (inputToProcess actionText st.playerInput) = false)
    (hidle : st.isLoading = false) :
    ∃ w modelText,
      (handlePlayerAction st actionText callGemini).write = some w ∧
      w.dataToSave.chatHistory =
        st.chatHistory ++
          [{ role := "user", text := .str (inputToProcess actionText st.playerInput),
             userId := st.userId, playerName := some st.worldSetting.playerName },
           { role := "model", text := modelText }] ∧
      (∀ result,
        callGemini
          (st.chatHistory ++
            [{ role := "user", text := .str (inputToProcess actionText st.playerInput),
               userId := st.userId, playerName := some st.worldSetting.playerName }])
          st.characterStats st.worldSetting
          (if st.isMultiplayer = true then st.playerCharacters else []) = .ok result →
        modelText = result.narrative) ∧
      st.chatHistory <+: w.dataToSave.chatHistory ∧
      w.dataToSave.chatHistory.length = st.chatHistory.length + 2 := by
  unfold handlePlayerAction
  have hguard : ¬ (isBlank (inputToProcess actionText st.playerInput) = true ∨
      st.isLoading = true) := by simp [hinput, hidle]
  rw [if_neg hguard]
  simp only
  cases hcall : callGemini
      (st.chatHistory ++
        [{ role := "user", text := .str (inputToProcess actionText st.playerInput),
           userId := st.userId, playerName := some st.worldSetting.playerName }])
      st.characterStats st.worldSetting
      (if st.isMultiplayer = true then st.playerCharacters else []) with
  | error e =>
    simp only
    obtain ⟨w, hw, hchat, _⟩ := saveGameState_of_user st userId huser hid
      (st.chatHistory ++
        [{ role := "user", text := .str (inputToProcess actionText st.playerInput),
           userId := st.userId, playerName := some st.worldSetting.playerName }] ++
        [{ role := "model", text := .str actionErrorText }])
      st.characterStats st.worldSetting (.arr [])
      (if st.isMultiplayer = true then some st.playerCharacters else none)
    refine ⟨w, .str actionErrorText, hw, ?_, ?_, ?_, ?_⟩
    · rw [hchat]; simp
    · intro result h; cases h
    · rw [hchat]; simp [List.append_assoc]
    · rw [hchat]; simp
  | ok result =>
    simp only
    by_cases hm : st.isMultiplayer = true
    · rw [if_pos hm]
      simp only
      obtain ⟨w, hw, hchat, _⟩ := saveGameState_of_user st userId huser hid
        (st.chatHistory ++
          [{ role := "user", text := .str (inputToProcess actionText st.playerInput),
             userId := st.userId, playerName := some st.worldSetting.playerName }] ++
          [{ role := "model", text := result.narrative }])
        result.updatedStats st.worldSetting result.options result.allPlayerCharacters
      refine ⟨w, result.narrative, hw, ?_, ?_, ?_, ?_⟩
      · rw [hchat]; simp
      · intro result2 h
        simp only [Except.ok.injEq] at h
        rw [h]
      · rw [hchat]; simp [List.append_assoc]
      · rw [hchat]; simp
    · rw [if_neg hm]
      simp only
      obtain ⟨w, hw, hchat, _⟩ := saveGameState_of_user st userId huser hid
        (st.chatHistory ++
          [{ role := "user", text := .str (inputToProcess actionText st.playerInput),
             userId := st.userId, playerName := some st.worldSetting.playerName }] ++
          [{ role := "model", text := result.narrative }])
        result.updatedStats st.worldSetting result.options none
      refine ⟨w, result.narrative, hw, ?_, ?_, ?_, ?_⟩
      · rw [hchat]; simp
      · intro result2 h
        simp only [Except.ok.injEq] at h
        rw [h]
      · rw [hchat]; simp [List.append_assoc]
      · rw [hchat]; simp

theorem C19_chat_history_append_only_witness :
    ∃ w, (handlePlayerAction
        (exampleSession [{ role := "user", text := .str "Start" },
                         { role := "model", text := .str "You wake in a cave." }])
        (some "I light a torch")
        (fun _ currentCharacterStats _ _ =>
          .ok { narrative := .str "The cave glows.", updatedStats := currentCharacterStats,
                options := .arr [.str "Go on"], allPlayerCharacters := some [] })).write =
        some w ∧
      w.dataToSave.chatHistory =
        [{ role := "user", text := .str "Start" },
         { role := "model", text := .str "You wake in a cave." },
         { role := "user", text := .str "I light a torch", userId := some "u1",
           playerName := some "Aria" },
         { role := "model", text := .str "The cave glows." }] := by
  obtain ⟨w, modelText, h1, h2, h3, _, _⟩ := C19_chat_history_append_only
    (exampleSession [{ role := "user", text := .str "Start" },
                     { role := "model", text := .str "You wake in a cave." }])
    (some "I light a torch")
    (fun _ currentCharacterStats _ _ =>
      .ok { narrative := .str "The cave glows.", updatedStats := currentCharacterStats,
            options := .arr [.str "Go on"], allPlayerCharacters := some [] })
    "u1" rfl (by decide) (by decide) rfl
  refine ⟨w, h1, ?_⟩
  rw [h2, h3 _ rfl]
  rfl

/-- C20: for a signed-in user the document written by `saveGameState` has `currentOptions`
equal to the options it is given, in the single-player and in the multiplayer branch,
whatever options the state held before; after a player action whose model call returns,
the written options are the options of the returned object, which on the normal path of
`callGemini` are the options of the parsed response. -/
theorem C20_options_overwritten (st : AppState) (userId : String)
    (huser : st.userId = some userId) (hid : userId ≠ "") :
    (∀ (newChatHistory : List ChatEntry) (newCharacterStats : CharacterStats)
        (newWorldSetting : WorldSetting) (newCurrentOptions : JVal)
        (newPlayerCharacters : Option PlayerCharacterMap),
      (∃ w, saveGameState st newChatHistory newCharacterStats newWorldSetting
          newCurrentOptions newPlayerCharacters = some w ∧
        w.dataToSave.currentOptions = newCurrentOptions) ∧
      (∀ previous : JVal,
        saveGameState { st with currentOptions := previous } newChatHistory newCharacterStats
            newWorldSetting newCurrentOptions newPlayerCharacters =
          saveGameState st newChatHistory newCharacterStats newWorldSetting newCurrentOptions
            newPlayerCharacters)) ∧
    (∀ (actionText : Option String)
        (callGemini : List ChatEntry → CharacterStats → WorldSetting → PlayerCharacterMap →
          Except JSError GeminiResult) (result : GeminiResult),
      isBlank (inputToProcess actionText st.playerInput) = false → st.isLoading = false →
      callGemini
          (st.chatHistory ++
            [{ role := "user", text := .str (inputToProcess actionText st.playerInput),
               userId := st.userId, playerName := some st.worldSetting.playerName }])
          st.characterStats st.worldSetting
          (if st.isMultiplayer = true then st.playerCharacters else []) = .ok result →
      ∃ w, (handlePlayerAction st actionText callGemini).write = some w ∧
        w.dataToSave.currentOptions = result.options) ∧
    (∀ (parsed : ParsedResponse) (statsUpdate : StatsUpdate)
        (allPlayerCharacters newAllPlayerCharacters : PlayerCharacterMap)
        (currentCharacterStats : CharacterStats),
      reconcile allPlayerCharacters statsUpdate = .ok newAllPlayerCharacters →
      (callGeminiGame parsed statsUpdate allPlayerCharacters st.userId
        currentCharacterStats).options = parsed.options) := by
  refine ⟨?_, ?_, ?_⟩
  · intro newChatHistory newCharacterStats newWorldSetting newCurrentOptions newPlayerCharacters
    constructor
    · obtain ⟨w, hw, _, hopt⟩ := saveGameState_of_user st userId huser hid newChatHistory
        newCharacterStats newWorldSetting newCurrentOptions newPlayerCharacters
      exact ⟨w, hw, hopt⟩
    · intro previous
      rfl
  · intro actionText callGemini result hinput hidle hcall
    unfold handlePlayerAction
    have hguard : ¬ (isBlank (inputToProcess actionText st.playerInput) = true ∨
        st.isLoading = true) := by simp [hinput, hidle]
    rw [if_neg hguard]
    simp only [hcall]
    by_cases hm : st.isMultiplayer = true
    · rw [if_pos hm]
      simp only
      obtain ⟨w, hw, _, hopt⟩ := saveGameState_of_user st userId huser hid
        (st.chatHistory ++
          [{ role := "user", text := .str (inputToProcess actionText st.playerInput),
             userId := st.userId, playerName := some st.worldSetting.playerName }] ++
          [{ role := "model", text := result.narrative }])
        result.updatedStats st.worldSetting result.options result.allPlayerCharacters
      exact ⟨w, hw, hopt⟩
    · rw [if_neg hm]
      simp only
      obtain ⟨w, hw, _, hopt⟩ := saveGameState_of_user st userId huser hid
        (st.chatHistory ++
          [{ role := "user", text := .str (inputToProcess actionText st.playerInput),
             userId := st.userId, playerName := some st.worldSetting.playerName }] ++
          [{ role := "model", text := result.narrative }])
        result.updatedStats st.worldSetting result.options none
      exact ⟨w, hw, hopt⟩
  · intro parsed statsUpdate allPlayerCharacters newAllPlayerCharacters currentCharacterStats h
    simp [callGeminiGame, h]

theorem C20_options_overwritten_witness :
    (∃ w, saveGameState (exampleSession []) [] (examplePlayer [] []).stats exampleSetting
        (.arr [.str "Open the door", .str "Wait"]) none = some w ∧
      w.dataToSave.currentOptions = .arr [.str "Open the door", .str "Wait"]) ∧
    (∃ w, saveGameState
        { exampleSession [] with isMultiplayer := true, gameCode := "ABC123",
                                 currentOptions := .arr [.str "Old option"] }
        [] (examplePlayer [] []).stats exampleSetting
        (.arr [.str "Open the door", .str "Wait"]) (some []) = some w ∧
      w.dataToSave.currentOptions = .arr [.str "Open the door", .str "Wait"]) :=
  ⟨((C20_options_overwritten (exampleSession []) "u1" rfl (by decide)).1 []
      (examplePlayer [] []).stats exampleSetting (.arr [.str "Open the door", .str "Wait"])
      none).1,
   ((C20_options_overwritten
      { exampleSession [] with isMultiplayer := true, gameCode := "ABC123",
                               currentOptions := .arr [.str "Old option"] }
      "u1" rfl (by decide)).1 [] (examplePlayer [] []).stats exampleSetting
      (.arr [.str "Open the door", .str "Wait"]) (some [])).1⟩

/-! ## The outbound request: claims C21 - C23, C27 -/

/-- In the game branch the messages are the context message followed by one message per
entry of the chat history. -/
theorem promptMessages_game (mode specificPrompt : String) (userId : Option String)
    (currentChatHistory : List ChatEntry) (currentWorldSetting : WorldSetting)
    (allPlayerCharacters : PlayerCharacterMap)
    (h1 : mode ≠ "worldBuilder") (h2 : mode ≠ "creativeWriter") :
    promptMessages mode specificPrompt userId currentChatHistory currentWorldSetting
        allPlayerCharacters =
      { role := "user"
        parts := [{ text := .str (contextMessageContent mode specificPrompt userId
          currentWorldSetting allPlayerCharacters) }] } ::
      currentChatHistory.map (fun msg => { role := msg.role, parts := [{ text := msg.text }] }) := by
  simp [promptMessages, h1, h2]

/-- C21: in game mode, for every chat history the messages are the context message
followed by one message per chat entry, in the same order, each with the role and the
text of its entry; there are one more of them than chat entries, and they are the
`contents` of the payload. -/
theorem C21_game_messages (specificPrompt : String) (userId : Option String)
    (h : List ChatEntry) (currentWorldSetting : WorldSetting)
    (allPlayerCharacters : PlayerCharacterMap) :
    promptMessages "game" specificPrompt userId h currentWorldSetting allPlayerCharacters =
      { role := "user"
        parts := [{ text := .str (contextMessageContent "game" specificPrompt userId
          currentWorldSetting allPlayerCharacters) }] } ::
      h.map (fun msg => { role := msg.role, parts := [{ text := msg.text }] }) ∧
    (promptMessages "game" specificPrompt userId h currentWorldSetting
      allPlayerCharacters).length = h.length + 1 ∧
    (∀ (i : Nat) (entry : ChatEntry), h.get? i = some entry →
      (promptMessages "game" specificPrompt userId h currentWorldSetting
        allPlayerCharacters).get? (i + 1) =
        some { role := entry.role, parts := [{ text := entry.text }] }) ∧
    payload "game" specificPrompt userId h currentWorldSetting allPlayerCharacters =
      .obj [("contents", .arr ((promptMessages "game" specificPrompt userId h
              currentWorldSetting allPlayerCharacters).map Content.toJSON)),
            ("generationConfig", .obj
              [("temperature", .num 7 (-1)), ("topK", .num 40 0), ("topP", .num 95 (-2)),
               ("maxOutputTokens", .num 1024 0)])] := by
  have hm := promptMessages_game "game" specificPrompt userId h currentWorldSetting
    allPlayerCharacters (by decide) (by decide)
  refine ⟨hm, ?_, ?_, rfl⟩
  · rw [hm]; simp
  · intro i entry hi
    rw [hm]
    simp [List.get?_eq_getElem?] at hi ⊢
    simp [hi]

/-- The single message of the world-builder mode. -/
theorem promptMessages_worldBuilder (specificPrompt : String) (userId : Option String)
    (h : List ChatEntry) (currentWorldSetting : WorldSetting)
    (allPlayerCharacters : PlayerCharacterMap) :
    promptMessages "worldBuilder" specificPrompt userId h currentWorldSetting
        allPlayerCharacters =
      [{ role := "user"
         parts := [{ text := .str (worldBuilderOpening ++ specificPrompt ++
           worldBuilderClosing) }] }] := by
  simp [promptMessages, contextMessageContent]

/-- The single message of the creative-writer mode. -/
theorem promptMessages_creativeWriter (specificPrompt : String) (userId : Option String)
    (h : List ChatEntry) (currentWorldSetting : WorldSetting)
    (allPlayerCharacters : PlayerCharacterMap) :
    promptMessages "creativeWriter" specificPrompt userId h currentWorldSetting
        allPlayerCharacters =
      [{ role := "user"
         parts := [{ text := .str (creativeWriterOpening ++ specificPrompt ++
           creativeWriterClosing) }] }] := by
  simp [promptMessages, contextMessageContent]

/-- C22: in the world-builder and creative-writer modes the messages are exactly one
message, whose text is a fixed opening, the free-text prompt and a fixed closing; it is
the same whatever chat history, setting and player map are passed in. -/
theorem C22_single_shot_messages (mode specificPrompt : String) (userId : Option String)
    (h : List ChatEntry) (currentWorldSetting : WorldSetting)
    (allPlayerCharacters : PlayerCharacterMap)
    (hmode : mode = "worldBuilder" ∨ mode = "creativeWriter") :
    (∃ before after : String,
      promptMessages mode specificPrompt userId h currentWorldSetting allPlayerCharacters =
        [{ role := "user", parts := [{ text := .str (before ++ specificPrompt ++ after) }] }]) ∧
    (mode = "worldBuilder" →
      promptMessages mode specificPrompt userId h currentWorldSetting allPlayerCharacters =
        [{ role := "user"
           parts := [{ text := .str (worldBuilderOpening ++ specificPrompt ++
             worldBuilderClosing) }] }]) ∧
    (mode = "creativeWriter" →
      promptMessages mode specificPrompt userId h currentWorldSetting allPlayerCharacters =
        [{ role := "user"
           parts := [{ text := .str (creativeWriterOpening ++ specificPrompt ++
             creativeWriterClosing) }] }]) ∧
    (∀ (userId2 : Option String) (h2 : List ChatEntry) (setting2 : WorldSetting)
        (players2 : PlayerCharacterMap),
      promptMessages mode specificPrompt userId2 h2 setting2 players2 =
        promptMessages mode specificPrompt userId h currentWorldSetting
          allPlayerCharacters) ∧
    (promptMessages mode specificPrompt userId h currentWorldSetting
      allPlayerCharacters).length = 1 := by
  rcases hmode with hm | hm
  · subst hm
    refine ⟨⟨_, _, promptMessages_worldBuilder _ _ _ _ _⟩,
      fun _ => promptMessages_worldBuilder _ _ _ _ _, fun hc => absurd hc (by decide), ?_, ?_⟩
    · intro userId2 h2 setting2 players2
      rw [promptMessages_worldBuilder, promptMessages_worldBuilder]
    · rw [promptMessages_worldBuilder]; rfl
  · subst hm
    refine ⟨⟨_, _, promptMessages_creativeWriter _ _ _ _ _⟩,
      fun hc => absurd hc (by decide), fun _ => promptMessages_creativeWriter _ _ _ _ _, ?_, ?_⟩
    · intro userId2 h2 setting2 players2
      rw [promptMessages_creativeWriter, promptMessages_creativeWriter]
    · rw [promptMessages_creativeWriter]; rfl

/-- C22, at a world-builder request made with a chat history and a player map. -/
theorem C22_single_shot_messages_witness :
    (promptMessages "worldBuilder" "a floating city" (some "u1")
      [{ role := "user", text := .str "I open the door" }] exampleSetting
      [("u1", examplePlayer [] [])]).length = 1 :=
  (C22_single_shot_messages "worldBuilder" "a floating city" (some "u1")
    [{ role := "user", text := .str "I open the door" }] exampleSetting
    [("u1", examplePlayer [] [])] (Or.inl rfl)).2.2.2.2

/-- C23: the summary is the texts of the players of the map, one per player in the
order of the map, joined by line breaks.  The text of a player states name, class,
health, gold, inventory, equipped items and location, with `Unknown` for an empty
location, and is wrapped in `YOU (` ... `)` exactly when the player is the signed-in
user.  For the empty map the summary is empty and the messages are still built. -/
theorem C23_players_summary (userId : Option String) (allPlayerCharacters : PlayerCharacterMap)
    (specificPrompt : String) (currentChatHistory : List ChatEntry)
    (currentWorldSetting : WorldSetting) :
    allPlayersInfo userId allPlayerCharacters =
      "\n".intercalate
        (allPlayerCharacters.map (fun entry => playerInfo userId entry.1 entry.2)) ∧
    (allPlayerCharacters.map (fun entry => playerInfo userId entry.1 entry.2)).length =
      (ownKeys allPlayerCharacters).length ∧
    (∀ (pId : String) (pData : PlayerRecord), ∃ opening closing place : String,
      playerInfo userId pId pData =
        opening ++ "Player " ++ pData.setting.playerName ++ " (" ++
        pData.setting.characterType ++ ")" ++ closing ++
        ": Health: " ++ numberToString pData.stats.health ++
        ", Gold: " ++ numberToString pData.stats.gold ++
        ", Inventory: " ++ joinInventory pData.stats.inventory ++
        ". Equipped: " ++ stringifyEquipped pData.stats.equipped_items ++
        ". Location: " ++ place ++ "." ∧
      (some pId = userId → opening = "YOU (" ∧ closing = ")") ∧
      (some pId ≠ userId → opening = "" ∧ closing = "") ∧
      (pData.stats.location = "" → place = "Unknown") ∧
      (pData.stats.location ≠ "" → place = pData.stats.location)) ∧
    allPlayersInfo userId [] = "" ∧
    promptMessages "game" specificPrompt userId currentChatHistory currentWorldSetting [] =
      { role := "user"
        parts := [{ text := .str (
          "You are an AI Dungeon Master. The current players and their stats are:\n" ++
           "" ++ "\n\n" ++ "The player whose last action this is from is " ++
           currentWorldSetting.playerName ++ " (" ++ currentWorldSetting.characterType ++
           gameInstructions) }] } ::
      currentChatHistory.map (fun msg => { role := msg.role, parts := [{ text := msg.text }] }) ∧
    allPlayersInfo (some "u1")
        [("u1", examplePlayer [.name "Sword", .name "Map"] [("head", "Helm")]),
         ("u2", { stats := { health := 35, gold := 0, experience := 0, inventory := [],
                             equipped_items := [], location := "" },
                  setting := { playerName := "Bo", characterType := "Mage",
                               worldType := "Fantasy" } })] =
      "YOU (Player Aria (Ranger)): Health: 100, Gold: 10, Inventory: Sword, Map. " ++
      "Equipped: \x7b\"head\":\"Helm\"\x7d. Location: Cave.\n" ++
      "Player Bo (Mage): Health: 35, Gold: 0, Inventory: . Equipped: \x7b\x7d. " ++
      "Location: Unknown." := by
  refine ⟨rfl, by simp [ownKeys], ?_, rfl, ?_, by rfl⟩
  · intro pId pData
    refine ⟨if some pId = userId then "YOU (" else "", if some pId = userId then ")" else "",
      if pData.stats.location = "" then "Unknown" else pData.stats.location, ?_, ?_, ?_, ?_, ?_⟩
    · simp [playerInfo]
    · intro h; simp [h]
    · intro h; simp [h]
    · intro h; simp [h]
    · intro h; simp [h]
  · rw [promptMessages_game "game" specificPrompt userId currentChatHistory currentWorldSetting
      [] (by decide) (by decide)]
    have hctx : contextMessageContent "game" specificPrompt userId currentWorldSetting [] =
        "You are an AI Dungeon Master. The current players and their stats are:\n" ++
        "" ++ "\n\n" ++ "The player whose last action this is from is " ++
        currentWorldSetting.playerName ++ " (" ++ currentWorldSetting.characterType ++
        gameInstructions := by
      unfold contextMessageContent
      rw [if_neg (by decide), if_neg (by decide)]
      rfl
    rw [hctx]

/-- C27 (failing input): for every mode the payload has exactly the members `contents`
and `generationConfig`, the latter with temperature, topK, topP and maxOutputTokens, and
a message has exactly `role` and `parts`; the schema built for the mode is in none of
them.  For a world-builder request the payload is shown in full next to the schema that
was built. -/
theorem C27_payload_without_schema :
    (∀ (mode specificPrompt : String) (userId : Option String)
        (currentChatHistory : List ChatEntry) (currentWorldSetting : WorldSetting)
        (allPlayerCharacters : PlayerCharacterMap),
      payload mode specificPrompt userId currentChatHistory currentWorldSetting
          allPlayerCharacters =
        .obj [("contents", .arr ((promptMessages mode specificPrompt userId currentChatHistory
                currentWorldSetting allPlayerCharacters).map Content.toJSON)),
              ("generationConfig", .obj
                [("temperature", .num 7 (-1)), ("topK", .num 40 0), ("topP", .num 95 (-2)),
                 ("maxOutputTokens", .num 1024 0)])]) ∧
    (∀ c : Content, c.toJSON =
      .obj [("role", .str c.role),
            ("parts", .arr (c.parts.map (fun p => .obj [("text", p.text)])))]) ∧
    payload "worldBuilder" "a floating city" (some "u1") [] exampleSetting [] =
      .obj [("contents", .arr
              [.obj [("role", .str "user"),
                     ("parts", .arr [.obj [("text", .str (worldBuilderOpening ++
                       "a floating city" ++ worldBuilderClosing))]])]]),
            ("generationConfig", .obj
              [("temperature", .num 7 (-1)), ("topK", .num 40 0), ("topP", .num 95 (-2)),
               ("maxOutputTokens", .num 1024 0)])] ∧
    responseSchema "worldBuilder" =
      .obj [("type", .str "OBJECT"),
            ("properties", .obj [("narrative", .obj [("type", .str "STRING")])])] ∧
    (∀ mode : String, responseSchema mode = narrativeSchema ∨ responseSchema mode = gameSchema) := by
  refine ⟨fun _ _ _ _ _ _ => rfl, fun _ => rfl, ?_, ?_, ?_⟩
  · simp [payload, promptMessages_worldBuilder, Content.toJSON]
  · simp [responseSchema, narrativeSchema]
  · intro mode
    unfold responseSchema
    by_cases h1 : mode = "worldBuilder"
    · simp [h1]
    · by_cases h2 : mode = "creativeWriter"
      · simp [h2]
      · simp [h1, h2]

/-! ## The busy flag and failed model calls: claims C24, C25 -/

/-- C24: when `handlePlayerAction` is called while `isLoading` is set, or with an input
that is empty or only whitespace, it makes no model request and no save, and the chat
history, options, stats, input field and story text are those of the state. -/
theorem C24_busy_flag (st : AppState) (actionText : Option String)
    (callGemini : List ChatEntry → CharacterStats → WorldSetting → PlayerCharacterMap →
      Except JSError GeminiResult)
    (hrejected : st.isLoading = true ∨
      isBlank (inputToProcess actionText st.playerInput) = true) :
    (handlePlayerAction st actionText callGemini).requested = none ∧
    (handlePlayerAction st actionText callGemini).write = none ∧
    (handlePlayerAction st actionText callGemini).chatHistory = st.chatHistory ∧
    (handlePlayerAction st actionText callGemini).currentOptions = st.currentOptions ∧
    (handlePlayerAction st actionText callGemini).characterStats = st.characterStats ∧
    (handlePlayerAction st actionText callGemini).playerInput = st.playerInput ∧
    (handlePlayerAction st actionText callGemini).storyText = st.storyText := by
  have hguard : isBlank (inputToProcess actionText st.playerInput) = true ∨
      st.isLoading = true := hrejected.symm
  unfold handlePlayerAction
  rw [if_pos hguard]
  exact ⟨rfl, rfl, rfl, rfl, rfl, rfl, rfl⟩

/-- C24, at a busy handler and at an input of blanks. -/
theorem C24_busy_flag_witness :
    (handlePlayerAction { exampleSession [] with isLoading := true } (some "I open the door")
      (fun _ currentCharacterStats _ _ => .ok (errorResult currentCharacterStats))).requested =
        none ∧
    (handlePlayerAction (exampleSession []) (some "  \n ")
      (fun _ currentCharacterStats _ _ => .ok (errorResult currentCharacterStats))).write =
        none :=
  ⟨(C24_busy_flag { exampleSession [] with isLoading := true } (some "I open the door")
      (fun _ currentCharacterStats _ _ => .ok (errorResult currentCharacterStats))
      (Or.inl rfl)).1,
   (C24_busy_flag (exampleSession []) (some "  \n ")
      (fun _ currentCharacterStats _ _ => .ok (errorResult currentCharacterStats))
      (Or.inr (by decide))).2.1⟩

/-- Definition of a property on the empty object. -/
theorem setOwn_nil {α : Type} (key : String) (v : α) : setOwn [] key v = [(key, v)] := by
  unfold setOwn
  simp only [getOwn]
  cases arrayIndex key <;> rfl

/-- C25 (counterexample): a single-player session with two chat entries and the option
`Go north`; the model call fails.  The persisted chat history has four entries, ending
with the player input and the error notice, and the persisted options are empty: neither
equals its value before the action.  The persisted stats are the prior stats. -/
theorem C25_counterexample_failed_call :
    callGeminiOnReply .failed [] (some "u1") (examplePlayer [] []).stats =
      some (errorResult (examplePlayer [] []).stats) ∧
    ∃ w, (handlePlayerAction
        { exampleSession [{ role := "user", text := .str "Start" },
                          { role := "model", text := .str "You wake in a cave." }] with
          currentOptions := .arr [.str "Go north"] }
        (some "I light a torch")
        (fun _ currentCharacterStats _ _ => .ok (errorResult currentCharacterStats))).write =
        some w ∧
      w.dataToSave.chatHistory =
        [{ role := "user", text := .str "Start" },
         { role := "model", text := .str "You wake in a cave." },
         { role := "user", text := .str "I light a torch", userId := some "u1",
           playerName := some "Aria" },
         { role := "model",
           text := .str "An error occurred while the AI was thinking. Please try again." }] ∧
      w.dataToSave.chatHistory ≠
        [{ role := "user", text := .str "Start" },
         { role := "model", text := .str "You wake in a cave." }] ∧
      w.dataToSave.currentOptions = .arr [] ∧
      w.dataToSave.currentOptions ≠ .arr [.str "Go north"] ∧
      w.dataToSave.characterStats = some (examplePlayer [] []).stats := by
  refine ⟨rfl, _, rfl, rfl, fun h => absurd (congrArg List.length h) (by decide), rfl, ?_,
    rfl⟩
  intro h
  have : (JVal.arr [] : JVal) = .arr [.str "Go north"] := h
  simp at this

/-- C25 (amended): when the model call fails or the response has no candidate during the
action of a signed-in user, the persisted stats of that user are the stats before the
action, the persisted chat history is the prior one followed by the player input and a
model entry carrying the notice that `callGemini` returned, and the persisted options are
the empty list. -/
theorem C25_failed_call (st : AppState) (actionText : Option String)
    (callGemini : List ChatEntry → CharacterStats → WorldSetting → PlayerCharacterMap →
      Except JSError GeminiResult)
    (userId : String) (reply : ModelReply) (result : GeminiResult)
    (huser : st.userId = some userId) (hid : userId ≠ "")
    (hinput : isBlank (inputToProcess actionText st.playerInput) = false)
    (hidle : st.isLoading = false)
    (hreply : reply = .failed ∨ reply = .noCandidates)
    (hresult : callGeminiOnReply reply
      (if st.isMultiplayer = true then st.playerCharacters else []) st.userId
      st.characterStats = some result)
    (hcall : callGemini
      (st.chatHistory ++
        [{ role := "user", text := .str (inputToProcess actionText st.playerInput),
           userId := st.userId, playerName := some st.worldSetting.playerName }])
      st.characterStats st.worldSetting
      (if st.isMultiplayer = true then st.playerCharacters else []) = .ok result) :
    ∃ w notice,
      (handlePlayerAction st actionText callGemini).write = some w ∧
      (notice = "An error occurred while the AI was thinking. Please try again." ∨
        notice = "The AI is confused or returned an empty response.") ∧
      w.dataToSave.chatHistory =
        st.chatHistory ++
          [{ role := "user", text := .str (inputToProcess actionText st.playerInput),
             userId := st.userId, playerName := some st.worldSetting.playerName },
           { role := "model", text := .str notice }] ∧
      w.dataToSave.currentOptions = .arr [] ∧
      (w.dataToSave.characterStats = some st.characterStats ∨
        w.dataToSave.playerCharacters =
          some [(userId, { stats := st.characterStats, setting := st.worldSetting })]) := by
  have hres : result = errorResult st.characterStats ∨
      result = emptyResponseResult st.characterStats := by
    rcases hreply with h | h
    · subst h
      simp only [callGeminiOnReply, Option.some.injEq] at hresult
      exact Or.inl hresult.symm
    · subst h
      simp only [callGeminiOnReply, Option.some.injEq] at hresult
      exact Or.inr hresult.symm
  have hfields : ∃ notice, result.narrative = .str notice ∧
      (notice = "An error occurred while the AI was thinking. Please try again." ∨
        notice = "The AI is confused or returned an empty response.") ∧
      result.options = .arr [] ∧ result.updatedStats = st.characterStats ∧
      result.allPlayerCharacters = none := by
    rcases hres with h | h
    · exact ⟨_, by rw [h]; rfl, Or.inl rfl, by rw [h]; rfl, by rw [h]; rfl, by rw [h]; rfl⟩
    · exact ⟨_, by rw [h]; rfl, Or.inr rfl, by rw [h]; rfl, by rw [h]; rfl, by rw [h]; rfl⟩
  obtain ⟨notice, hnar, hnotice, hopt, hstats, hmap⟩ := hfields
  unfold handlePlayerAction
  have hguard : ¬ (isBlank (inputToProcess actionText st.playerInput) = true ∨
      st.isLoading = true) := by simp [hinput, hidle]
  rw [if_neg hguard]
  simp only [hcall]
  by_cases hm : st.isMultiplayer = true
  · rw [if_pos hm]
    simp only
    unfold saveGameState
    rw [huser]
    simp only [hid, if_false]
    by_cases hg : st.isMultiplayer = true ∧ st.gameCode ≠ ""
    · rw [if_pos hg]
      refine ⟨_, notice, rfl, hnotice, ?_, hopt, Or.inr ?_⟩
      · simp [SessionDocument.chatHistory, hnar]
      · simp [SessionDocument.playerCharacters, hmap, setOwn_nil, hstats]
    · rw [if_neg hg]
      refine ⟨_, notice, rfl, hnotice, ?_, hopt, Or.inl ?_⟩
      · simp [SessionDocument.chatHistory, hnar]
      · simp [SessionDocument.characterStats, hstats]
  · rw [if_neg hm]
    simp only
    unfold saveGameState
    rw [huser]
    simp only [hid, if_false]
    have hg : ¬ (st.isMultiplayer = true ∧ st.gameCode ≠ "") := fun h => hm h.1
    rw [if_neg hg]
    refine ⟨_, notice, rfl, hnotice, ?_, hopt, Or.inl ?_⟩
    · simp [SessionDocument.chatHistory, hnar]
    · simp [SessionDocument.characterStats, hstats]

/-- C25, at a response without candidates in a single-player session. -/
theorem C25_failed_call_witness :
    ∃ w, (handlePlayerAction
        { exampleSession [] with currentOptions := .arr [.str "Go north"] }
        (some "I light a torch")
        (fun _ currentCharacterStats _ _ =>
          .ok (emptyResponseResult currentCharacterStats))).write = some w ∧
      w.dataToSave.currentOptions = .arr [] ∧
      w.dataToSave.chatHistory.length = 2 := by
  obtain ⟨w, notice, h1, _, h3, h4, _⟩ := C25_failed_call
    { exampleSession [] with currentOptions := .arr [.str "Go north"] }
    (some "I light a torch")
    (fun _ currentCharacterStats _ _ => .ok (emptyResponseResult currentCharacterStats))
    "u1" .noCandidates (emptyResponseResult (examplePlayer [] []).stats)
    rfl (by decide) (by decide) rfl (Or.inr rfl) rfl rfl
  exact ⟨w, h1, h4, by rw [h3]; rfl⟩

/-! ## Document keys: claim C26 -/

/-- The listener path and the path of the public game document differ for every app id
and game code: after the common start one reads `M` where the other reads a slash. -/
theorem listener_path_ne (appId gameCode : String) :
    "artifacts/" ++ appId ++ "/publicMultiplayerGames/" ++ gameCode ≠
      gameDocRef appId gameCode := by
  intro h
  have hl := congrArg String.data h
  simp only [gameDocRef, String.data_append, List.append_assoc] at hl
  have h2 := List.append_cancel_left (List.append_cancel_left hl)
  simp at h2

/-- The path `saveGameState` writes to: the public game document in multiplayer with a
game code, the session document of the user otherwise. -/
theorem saveGameState_docRef (st : AppState) (userId : String)
    (huser : st.userId = some userId) (hid : userId ≠ "")
    (newChatHistory : List ChatEntry) (newCharacterStats : CharacterStats)
    (newWorldSetting : WorldSetting) (newCurrentOptions : JVal)
    (newPlayerCharacters : Option PlayerCharacterMap) :
    (saveGameState st newChatHistory newCharacterStats newWorldSetting newCurrentOptions
        newPlayerCharacters).map (fun w => w.docRef) =
      some (if st.isMultiplayer = true ∧ st.gameCode ≠ "" then gameDocRef st.appId st.gameCode
        else "artifacts/" ++ st.appId ++ "/users/" ++ userId ++ "/gameSessions/" ++
          st.sessionId) := by
  unfold saveGameState
  rw [huser]
  simp only [hid, if_false]
  by_cases hm : st.isMultiplayer = true ∧ st.gameCode ≠ ""
  · rw [if_pos hm, if_pos hm]
    simp [gameDocRef, String.append_assoc]
  · rw [if_neg hm, if_neg hm]
    rfl

/-- The path the listener subscribes to, for a signed-in user once authentication is
ready. -/
theorem sessionDocRef_of_user (st : AppState) (userId : String)
    (huser : st.userId = some userId) (hid : userId ≠ "") :
    sessionDocRef st true =
      some (if st.isMultiplayer = true ∧ st.gameCode ≠ "" then
          "artifacts/" ++ st.appId ++ "/publicMultiplayerGames/" ++ st.gameCode
        else "artifacts/" ++ st.appId ++ "/users/" ++ userId ++ "/gameSessions/" ++
          st.sessionId) := by
  unfold sessionDocRef
  rw [huser]
  simp only [hid, if_false]
  by_cases hm : st.isMultiplayer = true ∧ st.gameCode ≠ ""
  · simp [hm]
  · simp [hm]

/-- In single-player the listener and `saveGameState` use the same path. -/
theorem single_player_paths_agree (st : AppState) (newChatHistory : List ChatEntry)
    (newCharacterStats : CharacterStats) (newWorldSetting : WorldSetting)
    (newCurrentOptions : JVal) (newPlayerCharacters : Option PlayerCharacterMap) :
    sessionDocRef { st with isMultiplayer := false } true =
      (saveGameState { st with isMultiplayer := false } newChatHistory newCharacterStats
        newWorldSetting newCurrentOptions newPlayerCharacters).map (fun w => w.docRef) := by
  cases hu : st.userId with
  | none => simp [sessionDocRef, saveGameState, hu]
  | some userId =>
    by_cases hid : userId = ""
    · simp [sessionDocRef, saveGameState, hu, hid]
    · simp [sessionDocRef, saveGameState, hu, hid]

/-- C26 (failing input): for app id `dungeon-storyteller` and game code `ABC123` the
listener subscribes to `artifacts/dungeon-storyteller/publicMultiplayerGames/ABC123`,
while `saveGameState` writes to, and `handleJoinGame` reads and updates,
`artifacts/dungeon-storyteller/public/multiplayerGames/ABC123`; the two paths have four
and five segments.  The multiplayer paths differ for every app id and game code; in
single-player the listener and `saveGameState` use the same path. -/
theorem C26_listener_key_differs :
    sessionDocRef { exampleSession [] with isMultiplayer := true, gameCode := "ABC123" } true =
      some "artifacts/dungeon-storyteller/publicMultiplayerGames/ABC123" ∧
    (saveGameState { exampleSession [] with isMultiplayer := true, gameCode := "ABC123" } []
        (examplePlayer [] []).stats exampleSetting (.arr []) (some [])).map
        (fun w => w.docRef) =
      some "artifacts/dungeon-storyteller/public/multiplayerGames/ABC123" ∧
    gameDocRef "dungeon-storyteller" "ABC123" =
      "artifacts/dungeon-storyteller/public/multiplayerGames/ABC123" ∧
    pathSegments "artifacts/dungeon-storyteller/publicMultiplayerGames/ABC123" =
      ["artifacts", "dungeon-storyteller", "publicMultiplayerGames", "ABC123"] ∧
    pathSegments "artifacts/dungeon-storyteller/public/multiplayerGames/ABC123" =
      ["artifacts", "dungeon-storyteller", "public", "multiplayerGames", "ABC123"] ∧
    (∀ appId gameCode : String,
      "artifacts/" ++ appId ++ "/publicMultiplayerGames/" ++ gameCode ≠
        gameDocRef appId gameCode) ∧
    (∀ (st : AppState) (newChatHistory : List ChatEntry) (newCharacterStats : CharacterStats)
        (newWorldSetting : WorldSetting) (newCurrentOptions : JVal)
        (newPlayerCharacters : Option PlayerCharacterMap),
      sessionDocRef { st with isMultiplayer := false } true =
        (saveGameState { st with isMultiplayer := false } newChatHistory newCharacterStats
          newWorldSetting newCurrentOptions newPlayerCharacters).map (fun w => w.docRef)) := by
  refine ⟨by decide, by decide, by decide, by decide, by decide, listener_path_ne,
    single_player_paths_agree⟩

/-! ## Items held by a player: claims C28, C29 -/

/-- A new array-index key is put somewhere among the properties. -/
theorem insertIndexed_perm {α : Type} (n : Nat) (key : String) (v : α)
    (o : List (String × α)) : (insertIndexed n key v o).Perm ((key, v) :: o) := by
  induction o with
  | nil => exact List.Perm.refl _
  | cons kv rest ih =>
    obtain ⟨k, w⟩ := kv
    unfold insertIndexed
    cases arrayIndex k with
    | none => exact List.Perm.refl _
    | some m =>
      simp only
      by_cases h : m < n
      · rw [if_pos h]
        exact (List.Perm.cons _ ih).trans (List.Perm.swap _ _ _)
      · rw [if_neg h]

/-- Definition of a property the object does not own adds one property and keeps the
others. -/
theorem setOwn_perm_of_absent {α : Type} (o : List (String × α)) (key : String) (v : α)
    (h : getOwn o key = none) : (setOwn o key v).Perm ((key, v) :: o) := by
  unfold setOwn
  rw [h]
  simp only
  cases arrayIndex key with
  | none => exact List.perm_append_comm
  | some n => exact insertIndexed_perm n key v o

/-- An own property splits the object at the place `getOwn` reads, and `replaceOwn`
writes at that place. -/
theorem replaceOwn_split {α : Type} (o : List (String × α)) (key : String) (p v : α)
    (h : getOwn o key = some p) :
    ∃ before after, o = before ++ (key, p) :: after ∧
      replaceOwn o key v = before ++ (key, v) :: after := by
  induction o with
  | nil => simp [getOwn] at h
  | cons kv rest ih =>
    obtain ⟨k, w⟩ := kv
    by_cases hk : k = key
    · subst hk
      simp only [getOwn, if_true, Option.some.injEq] at h
      subst h
      exact ⟨[], rest, rfl, by simp [replaceOwn]⟩
    · rw [getOwn_cons, if_neg hk] at h
      obtain ⟨before, after, h1, h2⟩ := ih h
      refine ⟨(k, w) :: before, after, by rw [h1]; rfl, ?_⟩
      simp only [replaceOwn, if_neg hk, h2, List.cons_append]

/-- A list in which `a` occurs once is `a` together with the entries other than `a`. -/
theorem perm_cons_filter_of_count_one (l : List Item) (a : Item) (h : l.count a = 1) :
    l.Perm (a :: l.filter (fun i => i ≠ a)) := by
  rw [List.perm_iff_count]
  intro b
  by_cases hb : b = a
  · subst hb
    have h0 : (l.filter (fun i => decide (i ≠ b))).count b = 0 :=
      List.count_eq_zero.2 (by simp)
    rw [List.count_cons_self, h0, h]
  · have h1 : (l.filter (fun i => decide (i ≠ a))).count b = l.count b := by
      rw [List.count_filter]
      simpa using hb
    simp only [List.count_cons, h1]
    have h2 : (a == b) = false := by simpa using fun e : a = b => hb e.symm
    simp [h2]

/-- C28 (counterexample): the inventory holds Sword once and the main hand holds the
empty string.  Equipping Sword into the main hand leaves an empty inventory and Sword in
the main hand: the empty string held before is gone, so the held items are not the same
multiset. -/
theorem C28_counterexample_empty_previous :
    (examplePlayer [.name "Sword"] [("main_hand", "")]).stats.inventory.count (.name "Sword") = 1 ∧
    getOwn (examplePlayer [.name "Sword"] [("main_hand", "")]).stats.equipped_items "main_hand" ≠
      some "Sword" ∧
    applyPlayerUpdate (examplePlayer [.name "Sword"] [("main_hand", "")]).stats
        { inventory_equip := some ⟨"Sword", "main_hand"⟩ } =
      (examplePlayer [] [("main_hand", "Sword")]).stats ∧
    heldItems (examplePlayer [.name "Sword"] [("main_hand", "")]).stats =
      [.name "Sword", .name ""] ∧
    heldItems (applyPlayerUpdate (examplePlayer [.name "Sword"] [("main_hand", "")]).stats
        { inventory_equip := some ⟨"Sword", "main_hand"⟩ }) = [.name "Sword"] ∧
    ¬ (heldItems (applyPlayerUpdate (examplePlayer [.name "Sword"] [("main_hand", "")]).stats
        { inventory_equip := some ⟨"Sword", "main_hand"⟩ })).Perm
      (heldItems (examplePlayer [.name "Sword"] [("main_hand", "")]).stats) := by
  refine ⟨by decide, by decide, by decide, by decide, by decide, ?_⟩
  intro h
  exact absurd h.length_eq (by decide)

/-- C28 (amended): for a known player whose inventory holds the non-empty item `x`
exactly once, and a non-empty slot name that either reads `undefined` on the equipped
items or holds a non-empty item other than `x`: after equipping `x` into the slot, the
slot holds `x` and the held items (inventory entries together with the values of
`equipped_items`) are a rearrangement of the held items before. -/
theorem C28_equip_conserves_items (m : PlayerCharacterMap) (id : String) (r : PlayerRecord)
    (x slot : String) (hknown : getOwn m id = some r)
    (hx : x ≠ "") (hslot : slot ≠ "")
    (honce : r.stats.inventory.count (Item.name x) = 1)
    (hprevious : readProp r.stats.equipped_items slot = .undefined ∨
      ∃ previous, getOwn r.stats.equipped_items slot = some previous ∧
        previous ≠ "" ∧ previous ≠ x) :
    ∃ r1, recordAfter m [(id, { inventory_equip := some ⟨x, slot⟩ })] id = some r1 ∧
      getOwn r1.stats.equipped_items slot = some x ∧
      (heldItems r1.stats).Perm (heldItems r.stats) := by
  refine ⟨_, recordAfter_known m id r _ hknown, ?_⟩
  simp only [applyPlayerUpdate_equip_only]
  have hin : Item.name x ∈ r.stats.inventory := by
    rw [← List.count_pos_iff, honce]; exact Nat.one_pos
  have hguard : x ≠ "" ∧ slot ≠ "" := ⟨hx, hslot⟩
  have hperm := perm_cons_filter_of_count_one r.stats.inventory (Item.name x) honce
  unfold applyEquip
  simp only
  rw [if_pos hguard, if_pos hin]
  refine ⟨by simp [getOwn_setOwn], ?_⟩
  unfold heldItems
  simp only
  rcases hprevious with hundef | ⟨previous, hprev, hne, hnx⟩
  · have hnone := getOwn_of_readProp_undefined _ _ hundef
    rw [pushPrevious_of_undefined _ _ hundef]
    have h1 := (setOwn_perm_of_absent r.stats.equipped_items slot x hnone).map
      (fun kv => Item.name kv.2)
    refine (List.Perm.append_left _ h1).trans ?_
    simp only [List.map_cons]
    refine List.perm_middle.trans ?_
    exact (List.Perm.append_right _ hperm.symm)
  · have hread : readProp r.stats.equipped_items slot = .own previous := by
      simp [readProp, hprev]
    obtain ⟨before, after, hsplit, hrep⟩ := replaceOwn_split r.stats.equipped_items slot
      previous x hprev
    have hset : setOwn r.stats.equipped_items slot x = before ++ (slot, x) :: after := by
      unfold setOwn
      rw [hprev]
      exact hrep
    rw [hset]
    have hpush : pushPrevious r.stats slot = r.stats.inventory ++ [Item.name previous] := by
      unfold pushPrevious
      rw [hread]
      simp [hne]
    rw [hpush, List.filter_append]
    have hkeep : [Item.name previous].filter (fun i => decide (i ≠ Item.name x)) =
        [Item.name previous] := by
      simp [hnx]
    rw [hkeep]
    rw [List.perm_iff_count]
    intro a
    have hc := (List.perm_iff_count.1 hperm) a
    rw [hsplit]
    simp only [List.count_append, List.map_append, List.map_cons, List.count_cons,
      List.count_nil] at hc ⊢
    omega

/-- C28, at a player holding Sword and Map with Dagger in the main hand. -/
theorem C28_equip_conserves_items_witness :
    ∃ r1, recordAfter [("p1", examplePlayer [.name "Sword", .name "Map"] [("main_hand", "Dagger")])]
        [("p1", { inventory_equip := some ⟨"Sword", "main_hand"⟩ })] "p1" = some r1 ∧
      getOwn r1.stats.equipped_items "main_hand" = some "Sword" ∧
      (heldItems r1.stats).Perm [.name "Sword", .name "Map", .name "Dagger"] :=
  C28_equip_conserves_items
    [("p1", examplePlayer [.name "Sword", .name "Map"] [("main_hand", "Dagger")])] "p1"
    (examplePlayer [.name "Sword", .name "Map"] [("main_hand", "Dagger")]) "Sword" "main_hand"
    rfl (by decide) (by decide) (by decide)
    (Or.inr ⟨"Dagger", rfl, by decide, by decide⟩)

/-- The loop body for a patch that equips `x` into a slot that reads `undefined` and
unequips `x`, when no slot holds `x`: the equipped items are kept and `x` goes to the end
of the inventory. -/
theorem applyPlayerUpdate_equip_unequip (s : CharacterStats) (x slot : String)
    (hx : x ≠ "") (hslot : slot ≠ "") (hin : Item.name x ∈ s.inventory)
    (hempty : readProp s.equipped_items slot = .undefined)
    (hfree : ∀ k, getOwn s.equipped_items k ≠ some x) :
    applyPlayerUpdate s { inventory_equip := some ⟨x, slot⟩, inventory_unequip := some x } =
      { s with inventory := s.inventory.filter (fun i => i ≠ Item.name x) ++ [Item.name x] } := by
  have hnone := getOwn_of_readProp_undefined _ _ hempty
  cases s with
  | mk health gold experience inventory equipped location =>
    simp only at hin hempty hfree hnone
    simp [applyPlayerUpdate, applyScalars, applyAdd, applyRemove, applyEquip, applyUnequip,
      hx, hslot, hin, pushPrevious, hempty, equippedSlot_setOwn_of_free equipped x slot hfree,
      deleteOwn_setOwn_of_absent equipped slot x hnone]

/-- A list in which `a` occurs once splits around that occurrence. -/
theorem split_of_count_one (l : List Item) (a : Item) (h : l.count a = 1) :
    ∃ before after, l = before ++ a :: after ∧ a ∉ before ∧ a ∉ after := by
  have hmem : a ∈ l := by
    rw [← List.count_pos_iff, h]; exact Nat.one_pos
  obtain ⟨before, after, hsplit⟩ := List.append_of_mem hmem
  refine ⟨before, after, hsplit, ?_, ?_⟩
  · intro hb
    have := List.count_pos_iff.2 hb
    rw [hsplit, List.count_append, List.count_cons_self] at h
    omega
  · intro ha
    have := List.count_pos_iff.2 ha
    rw [hsplit, List.count_append, List.count_cons_self] at h
    omega

/-- C29 (counterexample): Sword occurs once in the inventory Sword, Shield, no slot is
filled and the target slot has the empty name; the patch that equips Sword and unequips
Sword changes nothing, so Sword is not moved to the end.  The same happens for the item
with the empty name. -/
theorem C29_counterexample_empty_names :
    (applyPlayerUpdate (examplePlayer [.name "Sword", .name "Shield"] []).stats
        { inventory_equip := some ⟨"Sword", ""⟩, inventory_unequip := some "Sword" } =
      (examplePlayer [.name "Sword", .name "Shield"] []).stats ∧
      (examplePlayer [.name "Sword", .name "Shield"] []).stats.inventory ≠
        [.name "Shield", .name "Sword"]) ∧
    (applyPlayerUpdate (examplePlayer [.name "", .name "Shield"] []).stats
        { inventory_equip := some ⟨"", "main_hand"⟩, inventory_unequip := some "" } =
      (examplePlayer [.name "", .name "Shield"] []).stats ∧
      (examplePlayer [.name "", .name "Shield"] []).stats.inventory ≠
        [.name "Shield", .name ""]) := by
  decide

/-- C29 (amended): for a known player whose inventory holds the non-empty item `x`
exactly once, a non-empty slot name that reads `undefined` on the equipped items, and no
slot holding `x`: after the patch that equips `x` into the slot and unequips `x`, the
equipped items are the prior ones and the inventory is the prior one with `x` moved to
the end, the other entries in their prior order. -/
theorem C29_conditional_round_trip (m : PlayerCharacterMap) (id : String) (r : PlayerRecord)
    (x slot : String) (hknown : getOwn m id = some r)
    (hx : x ≠ "") (hslot : slot ≠ "")
    (honce : r.stats.inventory.count (Item.name x) = 1)
    (hempty : readProp r.stats.equipped_items slot = .undefined)
    (hfree : ∀ k, getOwn r.stats.equipped_items k ≠ some x) :
    ∃ r1 before after, recordAfter m
        [(id, { inventory_equip := some ⟨x, slot⟩, inventory_unequip := some x })] id = some r1 ∧
      r1.stats.equipped_items = r.stats.equipped_items ∧
      r.stats.inventory = before ++ Item.name x :: after ∧
      Item.name x ∉ before ∧ Item.name x ∉ after ∧
      r1.stats.inventory = before ++ after ++ [Item.name x] ∧
      r1.stats.inventory.Perm r.stats.inventory := by
  obtain ⟨before, after, hsplit, hb, ha⟩ := split_of_count_one _ _ honce
  have hin : Item.name x ∈ r.stats.inventory := by
    rw [hsplit]; simp
  refine ⟨_, before, after, recordAfter_known m id r _ hknown, ?_⟩
  rw [applyPlayerUpdate_equip_unequip r.stats x slot hx hslot hin hempty hfree]
  have hfilter : r.stats.inventory.filter (fun i => decide (i ≠ Item.name x)) =
      before ++ after := by
    rw [hsplit, List.filter_append, List.filter_cons_of_neg (by simp)]
    congr 1
    · rw [List.filter_eq_self]
      intro a h
      have : a ≠ Item.name x := fun e => hb (e ▸ h)
      simpa using this
    · rw [List.filter_eq_self]
      intro a h
      have : a ≠ Item.name x := fun e => ha (e ▸ h)
      simpa using this
  refine ⟨rfl, hsplit, hb, ha, ?_, ?_⟩
  · simp only [hfilter]
  · simp only [hfilter]
    rw [hsplit]
    simp only [List.append_assoc]
    exact List.Perm.append_left _ (List.perm_append_comm.trans (List.Perm.refl _))

/-- C29, at a player holding Sword, Shield with Helm on the head. -/
theorem C29_conditional_round_trip_witness :
    ∃ r1, recordAfter
        [("p1", examplePlayer [.name "Sword", .name "Shield"] [("head", "Helm")])]
        [("p1", { inventory_equip := some ⟨"Sword", "main_hand"⟩,
                  inventory_unequip := some "Sword" })] "p1" = some r1 ∧
      r1.stats.equipped_items = [("head", "Helm")] ∧
      r1.stats.inventory.Perm [.name "Sword", .name "Shield"] := by
  obtain ⟨r1, before, after, h1, h2, _, _, _, _, h7⟩ := C29_conditional_round_trip
    [("p1", examplePlayer [.name "Sword", .name "Shield"] [("head", "Helm")])] "p1"
    (examplePlayer [.name "Sword", .name "Shield"] [("head", "Helm")]) "Sword" "main_hand"
    rfl (by decide) (by decide) (by decide) (by decide)
    (by
      intro k hk
      by_cases h : "head" = k
      · rw [show (examplePlayer [.name "Sword", .name "Shield"] [("head", "Helm")]).stats.equipped_items
            = [("head", "Helm")] from rfl, getOwn_cons, if_pos h] at hk
        exact absurd hk (by decide)
      · rw [show (examplePlayer [.name "Sword", .name "Shield"] [("head", "Helm")]).stats.equipped_items
            = [("head", "Helm")] from rfl, getOwn_cons, if_neg h] at hk
        exact Option.noConfusion hk)
  exact ⟨r1, h1, h2, h7⟩

/-! ## `handleJoinGame`: claim C30 -/

/-- C30: when the guards of `handleJoinGame` pass and the game document exists: if the
id of the user reads `undefined` on the player map of the document (the user is not in
the game; ids come from the authentication service and are not names of
`Object.prototype`), the update carries a player map that holds the new record of the
user, with the stats and setting of the state, and every record of the document
unchanged, one entry more in all; if the map owns a record for the user, no update is
made and the local player map is the one of the document. -/
theorem C30_join_game (st : AppState) (joinGameInput enteredGameCode : String)
    (gameData : GameData)
    (hinput : isBlank joinGameInput = false)
    (hname : st.worldSetting.playerName ≠ "")
    (htype : st.worldSetting.characterType ≠ "")
    (hworld : st.worldSetting.worldType ≠ "") :
    (readProp (gameData.playerCharacters.getD []) (propertyKey st.userId) = .undefined →
      ∃ u, (handleJoinGame st joinGameInput enteredGameCode (some gameData)).update = some u ∧
        u.docRef = gameDocRef st.appId enteredGameCode ∧
        getOwn u.playerCharacters (propertyKey st.userId) =
          some { stats := st.characterStats, setting := st.worldSetting } ∧
        (∀ k, k ≠ propertyKey st.userId →
          getOwn u.playerCharacters k = getOwn (gameData.playerCharacters.getD []) k) ∧
        u.playerCharacters.Perm
          ((propertyKey st.userId, { stats := st.characterStats, setting := st.worldSetting }) ::
            gameData.playerCharacters.getD []) ∧
        u.playerCharacters.length = (gameData.playerCharacters.getD []).length + 1) ∧
    (∀ record, getOwn (gameData.playerCharacters.getD []) (propertyKey st.userId) = some record →
      (handleJoinGame st joinGameInput enteredGameCode (some gameData)).update = none ∧
      (handleJoinGame st joinGameInput enteredGameCode (some gameData)).playerCharacters =
        gameData.playerCharacters.getD []) := by
  have hsetting : ¬ (st.worldSetting.playerName = "" ∨ st.worldSetting.characterType = "" ∨
      st.worldSetting.worldType = "") := by
    simp [hname, htype, hworld]
  have hblank : ¬ (isBlank joinGameInput = true) := by simp [hinput]
  constructor
  · intro hundef
    have hnone := getOwn_of_readProp_undefined _ _ hundef
    unfold handleJoinGame
    rw [if_neg hblank, if_neg hsetting]
    simp only [hundef]
    refine ⟨_, rfl, rfl, ?_, ?_, ?_, ?_⟩
    · simp [getOwn_setOwn]
    · intro k hk
      simp [getOwn_setOwn, hk]
    · exact setOwn_perm_of_absent _ _ _ hnone
    · simpa using (setOwn_perm_of_absent _ _ _ hnone).length_eq
  · intro record hown
    have hread : readProp (gameData.playerCharacters.getD []) (propertyKey st.userId) =
        .own record := by
      simp [readProp, hown]
    unfold handleJoinGame
    rw [if_neg hblank, if_neg hsetting]
    simp only [hread]
    exact ⟨trivial, trivial⟩

/-- C30, at user `u2` joining a game that holds `u1`. -/
theorem C30_join_game_witness :
    ∃ u, (handleJoinGame { exampleSession [] with userId := some "u2" } "abc123" "ABC123"
        (some { playerCharacters := some [("u1", examplePlayer [.name "Sword"] [])],
                chatHistory := none, currentOptions := none })).update = some u ∧
      getOwn u.playerCharacters "u1" = some (examplePlayer [.name "Sword"] []) ∧
      getOwn u.playerCharacters "u2" = some (examplePlayer [] []) ∧
      u.playerCharacters.length = 2 := by
  obtain ⟨u, h1, _, h3, h4, _, h6⟩ := (C30_join_game { exampleSession [] with userId := some "u2" }
    "abc123" "ABC123"
    { playerCharacters := some [("u1", examplePlayer [.name "Sword"] [])],
      chatHistory := none, currentOptions := none }
    (by decide) (by decide) (by decide) (by decide)).1 (by decide)
  exact ⟨u, h1, (h4 "u1" (by decide)).trans rfl, h3, h6⟩

end AiStory
